import Mathlib

/-! # The Financial-advisor backend

A shallow embedding of `Backend/routes/stocks.js`: the helper functions
(`fetchAlphaVantageData`, `calculateChange`, `formatTime`), the four route
handlers, and the JavaScript built-ins they rely on (`toFixed`, `parseFloat`,
`Array.prototype.sort` on strings); of the middleware `Backend/middleware/auth.js`
(namespace `Auth`); and of the SIP calculator `Backend/routes/sip.js` (namespace `Sip`).

Modelling conventions

* A JavaScript number is a `JSNum`: `NaN`, the two infinities, or a finite value
  held as a rational.  Arithmetic is that of IEEE 754 binary64: the result of
  `+`, `-`, `*`, `/` and of reading a decimal literal is the exact result rounded
  to the nearest binary64 value, ties to the even significand (`round64`), with
  gradual underflow and overflow to an infinity.  `Math.pow`, which ECMAScript
  leaves implementation-approximated, is a parameter.  Negative zero is
  identified with zero: the program only divides by a value it has already
  checked to be non-zero, and `toFixed`, `>=`, `!` and `===` treat both zeros
  alike.
* A rejected promise / thrown `Error` is `Except.error` carrying `error.message`.
* The upstream HTTP service is a function from the request to the result of
  `axios.get`; every handler returns its HTTP reply together with the list of
  upstream requests it issued.
-/

namespace Stocks

/-! ## JavaScript numbers -/

/-- A JavaScript number value. -/
inductive JSNum where
  | nan
  | posInf
  | negInf
  | fin (q : ℚ)
  deriving DecidableEq

namespace JSNum

/-- The power `b ^ e` of a natural base with an integer exponent, computed on
naturals. -/
def natPow (b : ℕ) (e : ℤ) : ℚ :=
  if 0 ≤ e then ((b ^ e.toNat : ℕ) : ℚ) else 1 / ((b ^ (-e).toNat : ℕ) : ℚ)

/-- The greatest `e` among `lo`, ..., `lo + 2^k - 1` with `2^e ≤ a`, and `lo` when
there is none, by bisection. -/
def binadeSearch (a : ℚ) : Nat → ℤ → ℤ
  | 0, lo => lo
  | k + 1, lo =>
    if natPow 2 (lo + 2 ^ k) ≤ a then binadeSearch a k (lo + 2 ^ k) else binadeSearch a k lo

/-- The exponent `e` of the binade `2^e ≤ a < 2^(e+1)` of a positive `a`, kept
between -1022, the binade shared by the subnormal numbers, and 1025, beyond the
greatest binade 1023 of binary64. -/
def binade (a : ℚ) : ℤ :=
  binadeSearch a 11 (-1022)

/-- The integer nearest to `m`, the even one when two are equally near. -/
def roundHalfEven (m : ℚ) : ℤ :=
  let n := Rat.floor m
  let frac := m - n
  if frac < 1 / 2 then n
  else if 1 / 2 < frac then n + 1
  else if n % 2 = 0 then n else n + 1

/-- A magnitude `a > 0` rounded to a significand of 53 bits: the nearest multiple
of the spacing `2^(e - 52)` of its binade `e`, ties to the even multiple. -/
def roundMagnitude (a : ℚ) : ℚ :=
  let u := natPow 2 (binade a - 52)
  roundHalfEven (a / u) * u

/-- The Number value for a real number: the nearest binary64 value, ties to even;
a magnitude that rounds to `2^1024` or more gives an infinity. -/
def round64 (q : ℚ) : JSNum :=
  if q = 0 then fin 0
  else if natPow 2 1024 ≤ roundMagnitude |q| then (if 0 < q then posInf else negInf)
  else fin (if 0 < q then roundMagnitude |q| else -roundMagnitude |q|)

/-- Binary `-` of JavaScript. -/
def sub : JSNum → JSNum → JSNum
  | nan, _ => nan
  | _, nan => nan
  | fin a, fin b => round64 (a - b)
  | posInf, posInf => nan
  | negInf, negInf => nan
  | posInf, _ => posInf
  | negInf, _ => negInf
  | fin _, posInf => negInf
  | fin _, negInf => posInf

/-- Binary `/` of JavaScript (a zero divisor is taken as `+0`). -/
def div : JSNum → JSNum → JSNum
  | nan, _ => nan
  | _, nan => nan
  | fin a, fin b =>
    if b = 0 then (if a = 0 then nan else if 0 < a then posInf else negInf)
    else round64 (a / b)
  | fin _, _ => fin 0
  | posInf, fin b => if b < 0 then negInf else posInf
  | negInf, fin b => if b < 0 then posInf else negInf
  | _, _ => nan

/-- Binary `*` of JavaScript. -/
def mul : JSNum → JSNum → JSNum
  | nan, _ => nan
  | _, nan => nan
  | fin a, fin b => round64 (a * b)
  | posInf, fin b => if b = 0 then nan else if 0 < b then posInf else negInf
  | negInf, fin b => if b = 0 then nan else if 0 < b then negInf else posInf
  | fin a, posInf => if a = 0 then nan else if 0 < a then posInf else negInf
  | fin a, negInf => if a = 0 then nan else if 0 < a then negInf else posInf
  | posInf, posInf => posInf
  | negInf, negInf => posInf
  | posInf, negInf => negInf
  | negInf, posInf => negInf

/-- The comparison `x >= 0`. -/
def geZero : JSNum → Bool
  | nan => false
  | posInf => true
  | negInf => false
  | fin q => decide (0 ≤ q)

/-- Truthiness of a number: `NaN` and zero are falsy. -/
def truthy : JSNum → Bool
  | nan => false
  | fin q => decide (q ≠ 0)
  | _ => true

/-- The decimal digits of `n` with a point before the last `f` of them, padded
with leading zeros to at least `f + 1` digits (the string `m` of
`Number.prototype.toFixed`). -/
def fixedDigits (n f : Nat) : String :=
  let m := (Nat.toDigits 10 n)
  if f = 0 then String.mk m
  else
    let k := m.length
    let m := if k ≤ f then List.replicate (f + 1 - k) '0' ++ m else m
    let k := m.length
    String.mk (m.take (k - f) ++ '.' :: m.drop (k - f))

/-- The integer `n` for which `n / 10^f - x` is as close to zero as possible,
the larger one when there are two (for `x ≥ 0`). -/
def nearest (x : ℚ) (f : Nat) : Nat :=
  (Rat.floor (x * 10 ^ f + 1 / 2)).toNat

/-- The method `Number.prototype.toFixed(f)`.  At magnitudes of `10^21` and above
JavaScript falls back to `Number::toString`, whose shortest-digits output is
specific to binary64; it is the parameter `big`. -/
def toFixed (big : ℚ → String) (x : JSNum) (f : Nat) : String :=
  match x with
  | nan => "NaN"
  | posInf => "Infinity"
  | negInf => "-Infinity"
  | fin q =>
    let s := if q < 0 then "-" else ""
    let a := |q|
    if (10 : ℚ) ^ 21 ≤ a then s ++ big a
    else s ++ fixedDigits (nearest a f) f

/-- Binary `+` of JavaScript. -/
def add : JSNum → JSNum → JSNum
  | nan, _ => nan
  | _, nan => nan
  | fin a, fin b => round64 (a + b)
  | posInf, negInf => nan
  | negInf, posInf => nan
  | posInf, _ => posInf
  | negInf, _ => negInf
  | fin _, posInf => posInf
  | fin _, negInf => negInf

/-- The comparison `x <= 0`. -/
def leZero : JSNum → Bool
  | negInf => true
  | fin q => decide (q ≤ 0)
  | _ => false

/-- The comparison `x < 0`. -/
def ltZero : JSNum → Bool
  | negInf => true
  | fin q => decide (q < 0)
  | _ => false

/-- The function `Math.round`: the nearest integer, a tie going up.  No rounding to
binary64 is needed: the nearest integer of a binary64 value is a binary64 value. -/
def round : JSNum → JSNum
  | fin q => fin (Rat.floor (q + 1 / 2) : ℤ)
  | x => x

/-- The function `Math.pow` (`Number::exponentiate`).  ECMAScript fixes the result
when an argument is `NaN`, infinite or zero and when a negative base meets a
fractional exponent; every other result is "an implementation-approximated Number
value", here the parameter `powImpl` applied to the base and the exponent. -/
def pow (powImpl : ℚ → ℚ → JSNum) (base exponent : JSNum) : JSNum :=
  match exponent with
  | nan => nan
  | fin e =>
    if e = 0 then fin 1
    else
      match base with
      | nan => nan
      | posInf => if 0 < e then posInf else fin 0
      | negInf =>
        if 0 < e then (if e.den = 1 ∧ e.num % 2 = 1 then negInf else posInf) else fin 0
      | fin b =>
        if b = 0 then (if 0 < e then fin 0 else posInf)
        else if b < 0 ∧ e.den ≠ 1 then nan
        else powImpl b e
  | posInf =>
    match base with
    | nan => nan
    | posInf => posInf
    | negInf => posInf
    | fin b => if 1 < |b| then posInf else if |b| = 1 then nan else fin 0
  | negInf =>
    match base with
    | nan => nan
    | posInf => fin 0
    | negInf => fin 0
    | fin b => if 1 < |b| then fin 0 else if |b| = 1 then nan else posInf

/-- The numbers `toFixed` prints in fixed notation, without `Number::toString`:
`NaN`, the infinities and the finite numbers below `10^21` in magnitude. -/
def printsFixed : JSNum → Bool
  | fin q => decide (|q| < 10 ^ 21)
  | _ => true

end JSNum

open JSNum

/-! ## Helpers of `stocks.js` -/

/-- The function `calculateChange(currentPrice, previousPrice)`; a missing
(`undefined`) previous price is `none`. -/
def calculateChange (big : ℚ → String) (currentPrice : JSNum)
    (previousPrice : Option JSNum) : String :=
  match previousPrice with
  | none => "0.00%"
  | some previousPrice =>
    if !previousPrice.truthy || previousPrice = fin 0 then "0.00%"
    else
      let change := ((currentPrice.sub previousPrice).div previousPrice).mul (fin 100)
      let sign := if change.geZero then "+" else ""
      sign ++ toFixed big change 2 ++ "%"

/-- White space skipped by `parseFloat` (`StrWhiteSpaceChar`). -/
def isStrWhiteSpace (c : Char) : Bool :=
  c.toNat ∈ [0x9, 0xA, 0xB, 0xC, 0xD, 0x20, 0xA0, 0x1680, 0x2028, 0x2029, 0x202F, 0x205F,
    0x3000, 0xFEFF] || (0x2000 ≤ c.toNat && c.toNat ≤ 0x200A)

/-- Value of a run of decimal digits. -/
def digitsValue (ds : List Char) : Nat :=
  ds.foldl (fun acc d => 10 * acc + (d.toNat - '0'.toNat)) 0

/-- The exponent part of a decimal literal: `e` or `E`, an optional sign and at
least one digit; anything else contributes no exponent. -/
def exponentPart : List Char → Int
  | c :: rest =>
    if c = 'e' ∨ c = 'E' then
      match rest with
      | '-' :: ds => - (digitsValue (ds.takeWhile Char.isDigit) : Int)
      | '+' :: ds => (digitsValue (ds.takeWhile Char.isDigit) : Int)
      | ds => (digitsValue (ds.takeWhile Char.isDigit) : Int)
    else 0
  | [] => 0

/-- The global function `parseFloat`: the Number value (the nearest binary64 value)
of the longest prefix of the trimmed argument that is a decimal literal, `NaN` when
there is none.  The argument `undefined` (`none`) converts to the string
"undefined", hence `NaN`. -/
def parseFloat (v : Option String) : JSNum :=
  match v with
  | none => nan
  | some s =>
    let cs := s.toList.dropWhile isStrWhiteSpace
    let signed : Bool × List Char :=
      match cs with
      | '-' :: r => (true, r)
      | '+' :: r => (false, r)
      | r => (false, r)
    let neg := signed.1
    let cs := signed.2
    if "Infinity".toList.isPrefixOf cs then (if neg then negInf else posInf)
    else
      let ip := cs.takeWhile Char.isDigit
      let r1 := cs.dropWhile Char.isDigit
      let fp := match r1 with
        | '.' :: r => r.takeWhile Char.isDigit
        | _ => []
      let r2 := match r1 with
        | '.' :: r => r.dropWhile Char.isDigit
        | r => r
      if ip = [] ∧ fp = [] then nan
      else
        let v : ℚ := (digitsValue (ip ++ fp) : ℚ) * natPow 10 (exponentPart r2 - fp.length)
        round64 (if neg then -v else v)

/-- First match of the pattern `\d{2}:\d{2}` in a string. -/
def matchTime : List Char → Option String
  | [] => none
  | a :: rest =>
    match rest with
    | b :: ':' :: d :: e :: _ =>
      if a.isDigit && b.isDigit && d.isDigit && e.isDigit then some (String.mk [a, b, ':', d, e])
      else matchTime rest
    | _ => matchTime rest

/-- The function `formatTime(timeString)`; `none` is `undefined`. -/
def formatTime (timeString : Option String) : String :=
  match timeString with
  | none => "N/A"
  | some s =>
    if s = "" then "N/A"
    else
      match matchTime s.toList with
      | some m => m
      | none => s

/-! ## Sorting of object keys -/

/-- UTF-16 code units of a character. -/
def utf16 (c : Char) : List Nat :=
  if c.toNat < 0x10000 then [c.toNat]
  else [0xD800 + (c.toNat - 0x10000) / 0x400, 0xDC00 + (c.toNat - 0x10000) % 0x400]

/-- UTF-16 code units of a string. -/
def codeUnits (s : String) : List Nat :=
  s.toList.flatMap utf16

/-- The default order of `Array.prototype.sort` on strings: lexicographic by
UTF-16 code units. -/
def sortLE (a b : String) : Prop :=
  codeUnits a ≤ codeUnits b

instance : DecidableRel sortLE :=
  fun a b => inferInstanceAs (Decidable (codeUnits a ≤ codeUnits b))

/-- Strict version of the sort order: `a` sorts strictly before `b`. -/
def sortLT (a b : String) : Prop :=
  codeUnits a < codeUnits b

instance : DecidableRel sortLT :=
  fun a b => inferInstanceAs (Decidable (codeUnits a < codeUnits b))

/-- The call `keys.sort()` with the default comparison. -/
def jsSort (keys : List String) : List String :=
  keys.insertionSort sortLE

/-! ## Upstream data -/

/-- One point of a provider series: the fields `'1. open'`, `'2. high'`,
`'3. low'`, `'4. close'` and `'5. volume'`, each a string when present. -/
structure RawPoint where
  open1 : Option String
  high2 : Option String
  low3 : Option String
  close4 : Option String
  volume5 : Option String
  deriving DecidableEq

/-- A provider series: a JSON object from timestamp keys to points, as its list
of entries. -/
abbrev Series := List (String × RawPoint)

/-- The body of an upstream reply (`response.data`): the fields the program reads. -/
structure ResponseData where
  errorMessage : Option String
  note : Option String
  series5min : Option Series
  seriesDaily : Option Series
  deriving DecidableEq

/-- The query of one upstream call: the `params` object with `apikey` added. -/
structure Request where
  function : String
  symbol : String
  interval : Option String
  outputsize : String
  month : Option String
  apikey : Option String
  deriving DecidableEq

/-- Result of `axios.get`: the promise resolves with a body or rejects with an
error carrying a message. -/
inductive AxiosResult where
  | resolved (data : ResponseData)
  | rejected (message : String)
  deriving DecidableEq

/-- The upstream service. -/
abbrev Upstream := Request → AxiosResult

/-- Truthiness of a possibly missing string: `undefined` and "" are falsy. -/
def truthyStr (v : Option String) : Bool :=
  match v with
  | none => false
  | some s => decide (s ≠ "")

/-- The call `Object.keys(timeSeries)`; the order of the keys is immaterial here,
every use sorts them. -/
def objectKeys (timeSeries : Series) : List String :=
  timeSeries.map Prod.fst

/-- Property access `timeSeries[key]`; an `undefined` key reads the property
named "undefined". -/
def getPoint (timeSeries : Series) (key : Option String) : Option RawPoint :=
  timeSeries.lookup (key.getD "undefined")

/-- Message of the `TypeError` raised by reading `'4. close'` (or `'1. open'`) of
`undefined`. -/
def typeErrorMessage (field : String) : String :=
  "Cannot read properties of undefined (reading '" ++ field ++ "')"

/-- The constant `TOP_STOCKS`. -/
def TOP_STOCKS : List String :=
  ["RELIANCE.BSE", "TCS.BSE", "INFY.BSE", "HDFCBANK.BSE", "SBIN.BSE"]

/-- The function `fetchAlphaVantageData(params)`: `params` arrives as the request
without its key, `ALPHA_VANTAGE_KEY` is added. -/
def fetchAlphaVantageData (ALPHA_VANTAGE_KEY : Option String) (upstream : Upstream)
    (params : Request) : Except String ResponseData :=
  match upstream { params with apikey := ALPHA_VANTAGE_KEY } with
  | .rejected message => .error message
  | .resolved data =>
    if truthyStr data.errorMessage then .error (data.errorMessage.getD "")
    else if truthyStr data.note then .error "API rate limit exceeded. Please try again later."
    else .ok data

/-! ## `GET /summary` -/

/-- One element of the `data` list of `/summary`. -/
structure SummaryEntry where
  symbol : String
  price : String
  change : String
  time : String
  error : Option String
  deriving DecidableEq

/-- The error-shaped entry. -/
def errorEntry (symbol message : String) : SummaryEntry :=
  { symbol := symbol, price := "N/A", change := "N/A", time := "N/A", error := some message }

/-- An entry is fully error-shaped (an error message, and price, change and time
all "N/A") or fully success-shaped (no error message, and none of price, change and
time is "N/A"). -/
def SummaryEntry.Shaped (e : SummaryEntry) : Prop :=
  (e.error ≠ none ∧ e.price = "N/A" ∧ e.change = "N/A" ∧ e.time = "N/A") ∨
  (e.error = none ∧ e.price ≠ "N/A" ∧ e.change ≠ "N/A" ∧ e.time ≠ "N/A")

/-- The query `/summary` sends for a symbol. -/
def summaryParams (symbol : String) : Request :=
  { function := "TIME_SERIES_INTRADAY", symbol := symbol, interval := some "5min",
    outputsize := "compact", month := none, apikey := none }

/-- Body of the `try` block of the per-symbol task once the fetch has returned. -/
def summarize (big : ℚ → String) (symbol : String) (data : ResponseData) :
    Except String SummaryEntry :=
  match data.series5min with
  | none => .ok (errorEntry symbol "No data available")
  | some timeSeries =>
    let timeKeys := (jsSort (objectKeys timeSeries)).reverse
    let latestKey := timeKeys[0]?
    let previousKey := if truthyStr timeKeys[1]? then timeKeys[1]? else timeKeys[0]?
    match getPoint timeSeries latestKey with
    | none => .error (typeErrorMessage "4. close")
    | some latest =>
      let currentPrice := parseFloat latest.close4
      match getPoint timeSeries previousKey with
      | none => .error (typeErrorMessage "4. close")
      | some previous =>
        let previousPrice := parseFloat previous.close4
        .ok { symbol := symbol
              price := toFixed big currentPrice 2
              change := calculateChange big currentPrice (some previousPrice)
              time := formatTime latestKey
              error := none }

/-- The entry a per-symbol task of `/summary` resolves to: the `try` block, and
the `catch` turning any failure into the error-shaped entry. -/
def summaryEntry (big : ℚ → String) (ALPHA_VANTAGE_KEY : Option String) (upstream : Upstream)
    (symbol : String) : SummaryEntry :=
  match fetchAlphaVantageData ALPHA_VANTAGE_KEY upstream (summaryParams symbol)
      >>= summarize big symbol with
  | .ok entry => entry
  | .error message => errorEntry symbol message

/-- The delay in milliseconds awaited by the task at position `index` before its
upstream call. -/
def dispatchDelay (index : Nat) : Nat :=
  if index > 0 then index * 12000 else 0

/-- One per-symbol task of `/summary`. -/
structure SummaryTask where
  delay : Nat
  request : Request
  entry : SummaryEntry
  deriving DecidableEq

/-- The tasks `TOP_STOCKS.map(async (symbol, index) => ...)` creates, for an
arbitrary watch-list. -/
def stockPromises (big : ℚ → String) (ALPHA_VANTAGE_KEY : Option String) (upstream : Upstream)
    (symbols : List String) : List SummaryTask :=
  symbols.enum.map fun (index, symbol) =>
    { delay := dispatchDelay index
      request := { summaryParams symbol with apikey := ALPHA_VANTAGE_KEY }
      entry := summaryEntry big ALPHA_VANTAGE_KEY upstream symbol }

/-- An HTTP reply: `res.json({success: true, ...})`, or
`res.status(status).json({success: false, message, error})`. -/
inductive Reply (α : Type) where
  | ok (payload : α)
  | fail (status : Nat) (message : String) (error : Option String)
  deriving DecidableEq

/-- The HTTP status of a reply; `res.json` without `res.status` sends 200. -/
def Reply.status {α : Type} : Reply α → Nat
  | .ok _ => 200
  | .fail status _ _ => status

/-- What a handler does: its reply and the upstream requests it issued. -/
structure Outcome (α : Type) where
  reply : Reply α
  calls : List Request
  deriving DecidableEq

/-- The handler of `GET /summary`, for an arbitrary watch-list. -/
def summaryHandler (big : ℚ → String) (ALPHA_VANTAGE_KEY : Option String) (upstream : Upstream)
    (symbols : List String) : Outcome (List SummaryEntry) :=
  if !truthyStr ALPHA_VANTAGE_KEY then
    { reply := .fail 500 "Alpha Vantage API key is not configured" none, calls := [] }
  else
    let tasks := stockPromises big ALPHA_VANTAGE_KEY upstream symbols
    { reply := .ok (tasks.map SummaryTask.entry), calls := tasks.map SummaryTask.request }

/-! ## `GET /live`, `GET /daily`, `GET /history` -/

/-- Success body of `/live`. -/
structure LiveBody where
  symbol : String
  price : String
  open_ : String
  high : String
  low : String
  volume : Option String
  lastUpdated : Option String
  deriving DecidableEq

/-- One element of the `data` list of `/daily`. -/
structure DailyEntry where
  date : String
  open_ : String
  close : String
  high : String
  low : String
  volume : Option String
  deriving DecidableEq

/-- One element of the `data` list of `/history`. -/
structure HistoryEntry where
  timestamp : String
  open_ : String
  high : String
  low : String
  close : String
  volume : Option String
  deriving DecidableEq

/-- Success body of `/daily` and `/history`. -/
structure TableBody (α : Type) where
  symbol : String
  data : List α
  deriving DecidableEq

/-- The reply to a request without a symbol. -/
def missingSymbol {α : Type} : Outcome α :=
  { reply := .fail 400 "Please provide a symbol parameter" none, calls := [] }

/-- The reply when `ALPHA_VANTAGE_KEY` is not set. -/
def missingKey {α : Type} : Outcome α :=
  { reply := .fail 500 "Alpha Vantage API key is not configured" none, calls := [] }

/-- The query `/live` sends. -/
def liveParams (symbol : String) : Request :=
  { function := "TIME_SERIES_INTRADAY", symbol := symbol, interval := some "5min",
    outputsize := "compact", month := none, apikey := none }

/-- The query `/daily` sends. -/
def dailyParams (symbol : String) : Request :=
  { function := "TIME_SERIES_DAILY", symbol := symbol, interval := none,
    outputsize := "compact", month := none, apikey := none }

/-- The query `/history` sends: `month` is added only when it is given. -/
def historyParams (symbol : String) (month : Option String) : Request :=
  { function := "TIME_SERIES_INTRADAY", symbol := symbol, interval := some "5min",
    outputsize := "full", month := if truthyStr month then month else none, apikey := none }

/-- The handler of `GET /live`; `symbol` is `req.query.symbol`. -/
def liveHandler (big : ℚ → String) (ALPHA_VANTAGE_KEY : Option String) (upstream : Upstream)
    (symbol : Option String) : Outcome LiveBody :=
  match symbol with
  | none => missingSymbol
  | some symbol =>
    if symbol = "" then missingSymbol
    else if !truthyStr ALPHA_VANTAGE_KEY then missingKey
    else
      let params := liveParams symbol
      let calls := [{ params with apikey := ALPHA_VANTAGE_KEY }]
      match fetchAlphaVantageData ALPHA_VANTAGE_KEY upstream params with
      | .error message =>
        { reply := .fail 500 "Error fetching live stock data" (some message), calls := calls }
      | .ok data =>
        match data.series5min with
        | none => { reply := .fail 404 "No data available for this symbol" none, calls := calls }
        | some timeSeries =>
          let timeKeys := (jsSort (objectKeys timeSeries)).reverse
          let latestKey := timeKeys[0]?
          match getPoint timeSeries latestKey with
          | none =>
            { reply := .fail 500 "Error fetching live stock data"
                (some (typeErrorMessage "4. close")), calls := calls }
          | some latest =>
            { reply := .ok
                { symbol := symbol
                  price := toFixed big (parseFloat latest.close4) 2
                  open_ := toFixed big (parseFloat latest.open1) 2
                  high := toFixed big (parseFloat latest.high2) 2
                  low := toFixed big (parseFloat latest.low3) 2
                  volume := latest.volume5
                  lastUpdated := latestKey }
              calls := calls }

/-- The callback of `.map` in `/daily`. -/
def dailyPoint (big : ℚ → String) (timeSeries : Series) (date : String) :
    Except String DailyEntry :=
  match getPoint timeSeries (some date) with
  | none => .error (typeErrorMessage "1. open")
  | some dayData =>
    .ok { date := date
          open_ := toFixed big (parseFloat dayData.open1) 2
          close := toFixed big (parseFloat dayData.close4) 2
          high := toFixed big (parseFloat dayData.high2) 2
          low := toFixed big (parseFloat dayData.low3) 2
          volume := dayData.volume5 }

/-- The handler of `GET /daily`. -/
def dailyHandler (big : ℚ → String) (ALPHA_VANTAGE_KEY : Option String) (upstream : Upstream)
    (symbol : Option String) : Outcome (TableBody DailyEntry) :=
  match symbol with
  | none => missingSymbol
  | some symbol =>
    if symbol = "" then missingSymbol
    else if !truthyStr ALPHA_VANTAGE_KEY then missingKey
    else
      let params := dailyParams symbol
      let calls := [{ params with apikey := ALPHA_VANTAGE_KEY }]
      match fetchAlphaVantageData ALPHA_VANTAGE_KEY upstream params with
      | .error message =>
        { reply := .fail 500 "Error fetching daily stock data" (some message), calls := calls }
      | .ok data =>
        match data.seriesDaily with
        | none => { reply := .fail 404 "No data available for this symbol" none, calls := calls }
        | some timeSeries =>
          match (((jsSort (objectKeys timeSeries)).reverse.take 5).mapM
              (dailyPoint big timeSeries)) with
          | .error message =>
            { reply := .fail 500 "Error fetching daily stock data" (some message), calls := calls }
          | .ok dailyData =>
            { reply := .ok { symbol := symbol, data := dailyData }, calls := calls }

/-- The callback of `.map` in `/history`. -/
def historyPoint (big : ℚ → String) (timeSeries : Series) (timestamp : String) :
    Except String HistoryEntry :=
  match getPoint timeSeries (some timestamp) with
  | none => .error (typeErrorMessage "1. open")
  | some entry =>
    .ok { timestamp := timestamp
          open_ := toFixed big (parseFloat entry.open1) 2
          high := toFixed big (parseFloat entry.high2) 2
          low := toFixed big (parseFloat entry.low3) 2
          close := toFixed big (parseFloat entry.close4) 2
          volume := entry.volume5 }

/-- The handler of `GET /history`; `month` is `req.query.month`. -/
def historyHandler (big : ℚ → String) (ALPHA_VANTAGE_KEY : Option String) (upstream : Upstream)
    (symbol month : Option String) : Outcome (TableBody HistoryEntry) :=
  match symbol with
  | none => missingSymbol
  | some symbol =>
    if symbol = "" then missingSymbol
    else if !truthyStr ALPHA_VANTAGE_KEY then missingKey
    else
      let params := historyParams symbol month
      let calls := [{ params with apikey := ALPHA_VANTAGE_KEY }]
      match fetchAlphaVantageData ALPHA_VANTAGE_KEY upstream params with
      | .error message =>
        { reply := .fail 500 "Error fetching stock history" (some message), calls := calls }
      | .ok data =>
        match data.series5min with
        | none => { reply := .fail 404 "No data available for this symbol" none, calls := calls }
        | some timeSeries =>
          match (((jsSort (objectKeys timeSeries)).reverse.take 10).mapM
              (historyPoint big timeSeries)) with
          | .error message =>
            { reply := .fail 500 "Error fetching stock history" (some message), calls := calls }
          | .ok historyData =>
            { reply := .ok { symbol := symbol, data := historyData }, calls := calls }

/-! ## Sample inputs -/

/-- A point with the given fields. -/
def samplePoint (o h l c v : String) : RawPoint :=
  { open1 := some o, high2 := some h, low3 := some l, close4 := some c, volume5 := some v }

/-- An intraday series of two points, oldest first. -/
def sampleSeries : Series :=
  [("2025-11-02 09:55:00", samplePoint "94.10" "95.40" "93.80" "95.00" "1200"),
   ("2025-11-02 10:00:00", samplePoint "95.00" "100.50" "94.90" "100.00" "1800")]

/-- A series of one point. -/
def singlePointSeries : Series :=
  [("2025-11-02 10:00:00", samplePoint "95.00" "100.50" "94.90" "100.00" "1800")]

/-- A series of six points. -/
def sixPointSeries : Series :=
  [("2025-10-27", samplePoint "90.00" "91.00" "89.00" "90.50" "1000"),
   ("2025-10-28", samplePoint "90.50" "92.00" "90.00" "91.50" "1100"),
   ("2025-10-29", samplePoint "91.50" "93.00" "91.00" "92.50" "1200"),
   ("2025-10-30", samplePoint "92.50" "94.00" "92.00" "93.50" "1300"),
   ("2025-10-31", samplePoint "93.50" "95.00" "93.00" "94.50" "1400"),
   ("2025-11-03", samplePoint "94.50" "96.00" "94.00" "95.50" "1500")]

/-- A body that carries the intraday series `ts` and the daily series `ts`. -/
def sampleBody (ts : Series) : ResponseData :=
  { errorMessage := none, note := none, series5min := some ts, seriesDaily := some ts }

/-- A body that carries only the quota notice. -/
def noteBody : ResponseData :=
  { errorMessage := none
    note := some "Thank you for using Alpha Vantage! Our standard API rate limit is 25 requests per day."
    series5min := none, seriesDaily := none }

/-- An upstream that answers the given symbol with the quota notice and every
other symbol with the sample series. -/
def quotaUpstream (limited : String) : Upstream :=
  fun request =>
    if request.symbol = limited then .resolved noteBody
    else .resolved (sampleBody sampleSeries)

/-- A body that carries both the provider's error message and the quota notice. -/
def errorAndNoteBody : ResponseData :=
  { errorMessage := some "Invalid API call."
    note := some "Thank you for using Alpha Vantage!"
    series5min := none, seriesDaily := none }

/-- A point that has only the close field. -/
def closeOnly (c : String) : RawPoint :=
  { open1 := none, high2 := none, low3 := none, close4 := some c, volume5 := none }

/-- The series of the example `{"10:00": {close: 100}, "09:55": {close: 95}}`. -/
def exampleSeries : Series :=
  [("10:00", closeOnly "100"), ("09:55", closeOnly "95")]

/-- How a single-symbol handler surfaces the failures of its upstream call: with
`reply` the handler's reply, `answer` the result of its `axios.get`, `series` the
field of the body it reads and `failure` its own failure message, a rejected call, a
provider error message and a quota notice all give status 500 with the cause in
`error`, and a body without the series gives status 404. -/
def SurfacesFailures {α : Type} (reply : Reply α) (answer : AxiosResult)
    (series : ResponseData → Option Series) (failure : String) : Prop :=
  (∀ message, answer = .rejected message → reply = .fail 500 failure (some message)) ∧
  (∀ data message, answer = .resolved data → data.errorMessage = some message →
    message ≠ "" → reply = .fail 500 failure (some message)) ∧
  (∀ data, answer = .resolved data → truthyStr data.errorMessage = false →
    truthyStr data.note = true →
    reply = .fail 500 failure (some "API rate limit exceeded. Please try again later.")) ∧
  (∀ data, answer = .resolved data → truthyStr data.errorMessage = false →
    truthyStr data.note = false → series data = none →
    reply = .fail 404 "No data available for this symbol" none)

/-- The body of the example: the series under `'Time Series (5min)'`. -/
def exampleBody : ResponseData :=
  { errorMessage := none, note := none, series5min := some exampleSeries, seriesDaily := none }

/-- The series of the example with the older point stored under the empty key. -/
def emptyKeySeries : Series :=
  [("10:00", closeOnly "100"), ("", closeOnly "95")]

/-- A series of one point stored under the empty key. -/
def emptyKeyPoint : Series :=
  [("", closeOnly "100")]

/-- A series of one point whose prices lie just below a half hundredth in binary64. -/
def roundingSeries : Series :=
  [("2025-11-03 10:00:00", samplePoint "1.005" "2.675" "2.675" "1.115" "1800")]

end Stocks

/-! # Bearer authentication: `Backend/middleware/auth.js`

The libraries are parameters: `jwtVerify` is `jwt.verify`, `findById` is the query
`User.findById(id).select('-password')` on the user model, of documents `User`. -/

namespace Auth

/-- Result of `jwt.verify(token, secret)`: the decoded payload, of which only
`userId` is read (`none` when the payload has no such field), or a thrown error, of
which only `name` is read. -/
inductive Verified where
  | decoded (userId : Option String)
  | threw (name : String)
  deriving DecidableEq

/-- Result of the user query: a document, `null`, or a thrown error. -/
inductive Found (User : Type) where
  | document (user : User)
  | null
  | threw (name : String)
  deriving DecidableEq

/-- What the middleware does: `req.user = user; next()`, or
`res.status(status).json({success: false, message})`. -/
inductive Result (User : Type) where
  | next (user : User)
  | reply (status : Nat) (message : String)
  deriving DecidableEq

/-- The call `s.split(' ')`. -/
def splitSpace : List Char → List String
  | [] => [""]
  | c :: cs =>
    match splitSpace cs with
    | [] => [""]
    | w :: ws => if c = ' ' then "" :: w :: ws else String.mk (c :: w.toList) :: ws

/-- The `catch` block of `authMiddleware`, by `error.name`. -/
def onError {User : Type} (name : String) : Result User :=
  if name = "JsonWebTokenError" then .reply 401 "Invalid token."
  else if name = "TokenExpiredError" then .reply 401 "Token has expired."
  else .reply 500 "Server error during authentication."

/-- The middleware `authMiddleware`; `authorization` is `req.headers.authorization`. -/
def authMiddleware {User : Type} (jwtVerify : Option String → Option String → Verified)
    (JWT_SECRET : Option String) (findById : Option String → Found User)
    (authorization : Option String) : Result User :=
  match authorization with
  | none => .reply 401 "No token provided. Authorization denied."
  | some authHeader =>
    if authHeader = "" ∨ ¬ "Bearer ".toList.isPrefixOf authHeader.toList then
      .reply 401 "No token provided. Authorization denied."
    else
      let token := (splitSpace authHeader.toList)[1]?
      match jwtVerify token JWT_SECRET with
      | .threw name => onError name
      | .decoded userId =>
        match findById userId with
        | .threw name => onError name
        | .null => .reply 401 "Token is not valid. User not found."
        | .document user => .next user

/-- A token check that accepts the token "good" for the user id "u1", reports
"late" as expired and rejects every other token. -/
def sampleVerify (token : Option String) (_secret : Option String) : Verified :=
  if token = some "good" then .decoded (some "u1")
  else if token = some "late" then .threw "TokenExpiredError"
  else .threw "JsonWebTokenError"

/-- A user query that knows the single user "alice" under the id "u1". -/
def sampleFind (userId : Option String) : Found String :=
  if userId = some "u1" then .document "alice" else .null

end Auth

/-! # SIP calculator: `Backend/routes/sip.js` -/

namespace Sip

open Stocks Stocks.JSNum

/-- A field of the JSON request body: absent, `null`, a boolean, a number, given by
the value of its JSON literal, or a string (arrays and objects are left out). -/
inductive BodyValue where
  | missing
  | null
  | bool (b : Bool)
  | num (q : ℚ)
  | str (s : String)
  deriving DecidableEq

/-- Truthiness of a body field; a number is the Number value of its JSON literal. -/
def BodyValue.truthy : BodyValue → Bool
  | .missing => false
  | .null => false
  | .bool b => b
  | .num q => (round64 q).truthy
  | .str s => decide (s ≠ "")

/-- The call `parseFloat(value)` on a body field: a number, the Number value of its
JSON literal, converts to its decimal string and back to itself; `null`, booleans
and `undefined` convert to strings that are not numbers. -/
def parseFloatValue : BodyValue → JSNum
  | .num q => round64 q
  | .str s => parseFloat (some s)
  | _ => nan

/-- The body `{ monthlyInvestment, rate, years }`. -/
structure SipBody where
  monthlyInvestment : BodyValue
  rate : BodyValue
  years : BodyValue
  deriving DecidableEq

/-- The `data` object of a successful reply. -/
structure SipData where
  monthlyInvestment : JSNum
  annualRate : JSNum
  years : JSNum
  totalInvested : JSNum
  estimatedReturns : JSNum
  finalAmount : JSNum
  deriving DecidableEq

/-- The expression `Math.round(x * 100) / 100`. -/
def round2 (x : JSNum) : JSNum :=
  ((x.mul (fin 100)).round).div (fin 100)

/-- The maturity amount computed by the handler from `P`, the monthly rate `r` and
the number of months `n`. -/
def maturityAmount (powImpl : ℚ → ℚ → JSNum) (P r n : JSNum) : JSNum :=
  if r = fin 0 then P.mul n
  else
    let compoundFactor := pow powImpl ((fin 1).add r) n
    (P.mul ((compoundFactor.sub (fin 1)).div r)).mul ((fin 1).add r)

/-- The handler of `POST /calculate`. -/
def calculate (powImpl : ℚ → ℚ → JSNum) (body : SipBody) : Reply SipData :=
  if !body.monthlyInvestment.truthy || !body.rate.truthy || !body.years.truthy then
    .fail 400 "Please provide monthlyInvestment, rate, and years" none
  else
    let P := parseFloatValue body.monthlyInvestment
    let r := ((parseFloatValue body.rate).div (fin 100)).div (fin 12)
    let n := (parseFloatValue body.years).mul (fin 12)
    if P.leZero || r.ltZero || n.leZero then
      .fail 400 "Invalid input values. All values must be positive." none
    else
      let maturity := maturityAmount powImpl P r n
      let totalInvested := P.mul n
      let estimatedReturns := maturity.sub totalInvested
      .ok { monthlyInvestment := P
            annualRate := parseFloatValue body.rate
            years := parseFloatValue body.years
            totalInvested := round2 totalInvested
            estimatedReturns := round2 estimatedReturns
            finalAmount := round2 maturity }

/-- The SIP formula of the comment in the handler,
M = P × [{(1 + r)^n - 1} / r] × (1 + r), for a whole number of months. -/
def sipFormula (P r : ℚ) (n : Nat) : ℚ :=
  P * (((1 + r) ^ n - 1) / r) * (1 + r)

/-- A rational rounded to 2 decimals, a tie going up. -/
def roundCents (x : ℚ) : ℚ :=
  (Rat.floor (x * 100 + 1 / 2) : ℤ) / 100

/-- A request for 5000 a month at 12 % a year over 1 year, the fields as strings. -/
def sampleRequest : SipBody :=
  { monthlyInvestment := .str "5000", rate := .str "12", years := .str "1" }

/-- A request without the rate. -/
def requestWithoutRate : SipBody :=
  { monthlyInvestment := .num 5000, rate := .missing, years := .num 10 }

/-- A request with a negative monthly investment. -/
def negativeRequest : SipBody :=
  { monthlyInvestment := .str "-5000", rate := .str "12", years := .num 10 }

/-- The unrounded maturity amount as a rational: the simple sum at rate 0, the SIP
formula otherwise. -/
def maturityValue (P r : ℚ) (n : Nat) : ℚ :=
  if r = 0 then P * n else sipFormula P r n

/-- The request the dashboard sends for 5000 a month at a rate of 0 over 10 years:
the three fields are numbers. -/
def zeroRateNumber : SipBody :=
  { monthlyInvestment := .num 5000, rate := .num 0, years := .num 10 }

/-- The same request with the rate as the string "0". -/
def zeroRateString : SipBody :=
  { monthlyInvestment := .num 5000, rate := .str "0", years := .num 10 }

/-- A request whose monthly investment is not a number. -/
def unparsableRequest : SipBody :=
  { monthlyInvestment := .str "abc", rate := .str "12", years := .str "10" }

/-- A request whose monthly investment is the string "Infinity". -/
def infiniteRequest : SipBody :=
  { monthlyInvestment := .str "Infinity", rate := .str "12", years := .str "10" }

/-- A request for a thousandth a month over a quarter of a year. -/
def tinyRequest : SipBody :=
  { monthlyInvestment := .str "0.001", rate := .str "12", years := .str "0.25" }

/-- A `Math.pow` that is correctly rounded at a positive base and a whole exponent
that is not negative: it returns the binary64 value nearest to the power.  At other
arguments, which the examples below do not reach, it answers `NaN`. -/
def wholePow (b e : ℚ) : JSNum :=
  if 0 < b ∧ e.den = 1 ∧ 0 ≤ e.num then
    round64 (((b.num.natAbs ^ e.num.toNat : ℕ) : ℚ) / ((b.den ^ e.num.toNat : ℕ) : ℚ))
  else nan

/-- A request for 100000 a month at 15 % a year over 40 years, the fields as
numbers. -/
def largeRequest : SipBody :=
  { monthlyInvestment := .num 100000, rate := .num 15, years := .num 40 }

/-- A request for 5000 a month at a rate of 1e-15 % a year over 10 years. -/
def smallRateRequest : SipBody :=
  { monthlyInvestment := .num 5000, rate := .num (natPow 10 (-15)), years := .num 10 }

/-- A request whose rate is the string "-1e-322". -/
def negativeTinyRateRequest : SipBody :=
  { monthlyInvestment := .num 5000, rate := .str "-1e-322", years := .num 10 }

/-- A request for 1e308 a month at 12 % a year over 100 years. -/
def overflowRequest : SipBody :=
  { monthlyInvestment := .str "1e308", rate := .str "12", years := .str "100" }

/-- A request for 5000.01 a month at 120 % a year over 50 years. -/
def absorbedRequest : SipBody :=
  { monthlyInvestment := .str "5000.01", rate := .str "120", years := .str "50" }

/-- A request for 100.001 a month at 6 % a year over 1 year. -/
def fractionRequest : SipBody :=
  { monthlyInvestment := .str "100.001", rate := .str "6", years := .str "1" }

end Sip

namespace Stocks

open JSNum

/-! ## Properties -/

/-! ### Rounding to binary64 -/

theorem natPow_eq (b : ℕ) (e : ℤ) : natPow b e = (b : ℚ) ^ e := by
  unfold natPow
  split
  · rename_i h
    have he : e = (e.toNat : ℤ) := (Int.toNat_of_nonneg h).symm
    conv_rhs => rw [he]
    rw [zpow_natCast]
    push_cast
    rfl
  · rename_i h
    have h' : 0 ≤ -e := by omega
    have he : e = -((-e).toNat : ℤ) := by rw [Int.toNat_of_nonneg h']; ring
    conv_rhs => rw [he]
    rw [zpow_neg, zpow_natCast]
    push_cast
    rw [one_div]

theorem natPow_two (e : ℤ) : natPow 2 e = (2 : ℚ) ^ e := by
  rw [natPow_eq]; norm_num

theorem binadeSearch_ge (a : ℚ) : ∀ (k : Nat) (lo : ℤ), lo ≤ binadeSearch a k lo := by
  intro k
  induction k with
  | zero => intro lo; exact le_refl _
  | succ k ih =>
    intro lo
    unfold binadeSearch
    have hp : (0 : ℤ) ≤ 2 ^ k := by positivity
    split
    · exact le_trans (by omega) (ih (lo + 2 ^ k))
    · exact ih lo

theorem binadeSearch_le (a : ℚ) (L : ℤ) : ∀ (k : Nat) (lo : ℤ),
    (lo = L ∨ (2 : ℚ) ^ lo ≤ a) →
    (binadeSearch a k lo = L ∨ (2 : ℚ) ^ (binadeSearch a k lo) ≤ a) := by
  intro k
  induction k with
  | zero => intro lo h; exact h
  | succ k ih =>
    intro lo h
    unfold binadeSearch
    split
    · rename_i hc
      rw [natPow_two] at hc
      exact ih _ (Or.inr hc)
    · exact ih lo h

theorem binade_ge (a : ℚ) : -1022 ≤ binade a :=
  binadeSearch_ge a 11 (-1022)

theorem binade_le (a : ℚ) : binade a = -1022 ∨ (2 : ℚ) ^ (binade a) ≤ a :=
  binadeSearch_le a (-1022) 11 (-1022) (Or.inl rfl)

theorem floor_le_roundHalfEven (m : ℚ) : ⌊m⌋ ≤ roundHalfEven m := by
  unfold roundHalfEven
  have hfl : Rat.floor m = ⌊m⌋ := rfl
  simp only [hfl]
  split_ifs <;> omega

theorem roundHalfEven_close (m : ℚ) : abs ((roundHalfEven m : ℚ) - m) ≤ 1 / 2 := by
  unfold roundHalfEven
  have hfl : Rat.floor m = ⌊m⌋ := rfl
  simp only [hfl]
  have h1 := Int.floor_le m
  have h2 := Int.lt_floor_add_one m
  rw [abs_le]
  split_ifs with c1 c2 c3
  · constructor <;> linarith
  · push_cast; constructor <;> linarith
  · constructor <;> linarith
  · push_cast
    have : m - ⌊m⌋ = 1 / 2 := le_antisymm (not_lt.mp c2) (not_lt.mp c1)
    constructor <;> linarith

theorem roundHalfEven_ge (m : ℚ) (k : ℤ) (h : (k : ℚ) ≤ m) : k ≤ roundHalfEven m :=
  le_trans (Int.le_floor.mpr h) (floor_le_roundHalfEven m)

theorem spacing_pos (a : ℚ) : 0 < natPow 2 (binade a - 52) := by
  rw [natPow_two]; positivity

theorem spacing_ge (a : ℚ) : 1 / 2 ^ 1074 ≤ natPow 2 (binade a - 52) := by
  rw [natPow_two]
  have h := binade_ge a
  have h1 : (2 : ℚ) ^ (-1074 : ℤ) ≤ 2 ^ (binade a - 52) :=
    zpow_le_zpow_right₀ (by norm_num) (by omega)
  have h2 : (2 : ℚ) ^ (-1074 : ℤ) = 1 / 2 ^ 1074 := by
    rw [zpow_neg, one_div]
    norm_cast
  rw [← h2]
  exact h1

theorem spacing_le (a : ℚ) (ha : 0 ≤ a) :
    natPow 2 (binade a - 52) / 2 ≤ a / 2 ^ 53 + 1 / 2 ^ 1075 ∧
      (1 / 2 ^ 1074 ≤ a → natPow 2 (binade a - 52) ≤ a) := by
  rw [natPow_two]
  rcases binade_le a with h | h
  · rw [h]
    have h2 : (2 : ℚ) ^ ((-1022 : ℤ) - 52) = 1 / 2 ^ 1074 := by
      rw [show ((-1022 : ℤ) - 52) = -(1074 : ℕ) by norm_num, zpow_neg, zpow_natCast, one_div]
    rw [h2]
    constructor
    · have h3 : (1 : ℚ) / 2 ^ 1074 / 2 = 1 / 2 ^ 1075 := by
        rw [div_div, ← pow_succ]
      rw [h3]
      have : 0 ≤ a / 2 ^ 53 := by positivity
      linarith
    · exact fun h => h
  · have h2 : (2 : ℚ) ^ (binade a - 52) = 2 ^ (binade a) / 2 ^ 52 := by
      rw [zpow_sub₀ (by norm_num : (2 : ℚ) ≠ 0)]
      norm_cast
    rw [h2]
    have hp : (0 : ℚ) < 2 ^ (binade a) := by positivity
    constructor
    · have h3 : (2 : ℚ) ^ (binade a) / 2 ^ 52 / 2 = 2 ^ (binade a) / 2 ^ 53 := by
        rw [div_div, ← pow_succ]
      rw [h3]
      have h4 : (2 : ℚ) ^ (binade a) / 2 ^ 53 ≤ a / 2 ^ 53 :=
        div_le_div_of_nonneg_right h (by positivity)
      have : (0 : ℚ) ≤ 1 / 2 ^ 1075 := by positivity
      linarith
    · intro _
      have h5 : (2 : ℚ) ^ (binade a) / 2 ^ 52 ≤ 2 ^ (binade a) :=
        div_le_self (le_of_lt hp) (by norm_num)
      linarith

theorem roundMagnitude_nonneg (a : ℚ) (ha : 0 ≤ a) : 0 ≤ roundMagnitude a := by
  unfold roundMagnitude
  have hu := spacing_pos a
  have hk : (0 : ℤ) ≤ roundHalfEven (a / natPow 2 (binade a - 52)) :=
    roundHalfEven_ge _ 0 (by push_cast; positivity)
  have hk' : (0 : ℚ) ≤ (roundHalfEven (a / natPow 2 (binade a - 52)) : ℚ) := by
    exact_mod_cast hk
  positivity

theorem roundMagnitude_grid (a : ℚ) (ha : 0 ≤ a) :
    roundMagnitude a = 0 ∨ 1 / 2 ^ 1074 ≤ roundMagnitude a := by
  unfold roundMagnitude
  have hu := spacing_pos a
  have hg := spacing_ge a
  have hk : (0 : ℤ) ≤ roundHalfEven (a / natPow 2 (binade a - 52)) :=
    roundHalfEven_ge _ 0 (by push_cast; positivity)
  rcases lt_or_eq_of_le hk with h | h
  · right
    have h1 : (1 : ℚ) ≤ (roundHalfEven (a / natPow 2 (binade a - 52)) : ℚ) := by
      exact_mod_cast (by omega : (1 : ℤ) ≤ roundHalfEven (a / natPow 2 (binade a - 52)))
    calc 1 / 2 ^ 1074 ≤ natPow 2 (binade a - 52) := hg
      _ = 1 * natPow 2 (binade a - 52) := (one_mul _).symm
      _ ≤ _ := mul_le_mul_of_nonneg_right h1 (le_of_lt hu)
  · left
    simp only
    rw [← h]
    simp

theorem roundMagnitude_close (a : ℚ) (ha : 0 ≤ a) :
    abs (roundMagnitude a - a) ≤ a / 2 ^ 53 + 1 / 2 ^ 1075 := by
  have hu := spacing_pos a
  have hc := roundHalfEven_close (a / natPow 2 (binade a - 52))
  have hs := (spacing_le a ha).1
  unfold roundMagnitude
  simp only
  set u := natPow 2 (binade a - 52) with hu_def
  set k : ℚ := (roundHalfEven (a / u) : ℚ) with hk_def
  have h1 : k * u - a = (k - a / u) * u := by
    field_simp
  rw [h1, abs_mul, abs_of_pos hu]
  calc abs (k - a / u) * u ≤ 1 / 2 * u := mul_le_mul_of_nonneg_right hc (le_of_lt hu)
    _ = u / 2 := by ring
    _ ≤ _ := hs

theorem roundMagnitude_pos (a : ℚ) (ha : 1 / 2 ^ 1074 ≤ a) :
    1 / 2 ^ 1074 ≤ roundMagnitude a := by
  have h0 : (0 : ℚ) < 1 / 2 ^ 1074 := by positivity
  have hu := spacing_pos a
  have hg := spacing_ge a
  have hs := (spacing_le a (by linarith)).2 ha
  unfold roundMagnitude
  simp only
  set u := natPow 2 (binade a - 52) with hu_def
  have h1 : ((1 : ℤ) : ℚ) ≤ a / u := by
    rw [le_div_iff₀ hu]
    push_cast
    linarith
  have hk := roundHalfEven_ge (a / u) 1 h1
  have hk' : (1 : ℚ) ≤ (roundHalfEven (a / u) : ℚ) := by exact_mod_cast hk
  calc 1 / 2 ^ 1074 ≤ u := hg
    _ = 1 * u := (one_mul _).symm
    _ ≤ _ := mul_le_mul_of_nonneg_right hk' (le_of_lt hu)

theorem round64_zero : round64 0 = fin 0 := by
  simp [round64]

theorem round64_ne_nan (q : ℚ) : round64 q ≠ nan := by
  unfold round64
  split_ifs <;> simp

theorem round64_pos (q : ℚ) (hq : 0 < q) :
    round64 q = posInf ∨ round64 q = fin (roundMagnitude q) := by
  unfold round64
  rw [if_neg (ne_of_gt hq), abs_of_pos hq]
  split_ifs
  · left; rfl
  · right; rfl

theorem round64_neg (q : ℚ) (hq : q < 0) :
    round64 q = negInf ∨ round64 q = fin (-roundMagnitude (-q)) := by
  unfold round64
  rw [if_neg (ne_of_lt hq), abs_of_neg hq]
  have : ¬ (0 < q) := not_lt.mpr (le_of_lt hq)
  split_ifs
  · left; rfl
  · right; rfl

/-- A finite result of rounding is within half a unit in the last place. -/
theorem round64_fin_close (q x : ℚ) (h : round64 q = fin x) :
    abs (x - q) ≤ abs q / 2 ^ 53 + 1 / 2 ^ 1075 := by
  rcases lt_trichotomy q 0 with hq | hq | hq
  · rcases round64_neg q hq with h' | h'
    · rw [h'] at h; cases h
    · rw [h'] at h
      cases h
      have := roundMagnitude_close (-q) (by linarith)
      rw [abs_of_neg hq]
      have e : -roundMagnitude (-q) - q = -(roundMagnitude (-q) - -q) := by ring
      rw [e, abs_neg]
      exact this
  · subst hq
    rw [round64_zero] at h
    cases h
    simp
  · rcases round64_pos q hq with h' | h'
    · rw [h'] at h; cases h
    · rw [h'] at h
      cases h
      rw [abs_of_pos hq]
      exact roundMagnitude_close q (le_of_lt hq)

theorem round64_fin_nonneg (q x : ℚ) (h : round64 q = fin x) (hq : 0 ≤ q) : 0 ≤ x := by
  rcases eq_or_lt_of_le hq with hq | hq
  · subst hq
    rw [round64_zero] at h
    cases h
    exact le_refl _
  · rcases round64_pos q hq with h' | h'
    · rw [h'] at h; cases h
    · rw [h'] at h
      cases h
      exact roundMagnitude_nonneg q (le_of_lt hq)

theorem round64_fin_nonpos (q x : ℚ) (h : round64 q = fin x) (hq : q ≤ 0) : x ≤ 0 := by
  rcases eq_or_lt_of_le hq with hq | hq
  · subst hq
    rw [round64_zero] at h
    cases h
    exact le_refl _
  · rcases round64_neg q hq with h' | h'
    · rw [h'] at h; cases h
    · rw [h'] at h
      cases h
      have := roundMagnitude_nonneg (-q) (by linarith)
      linarith

theorem round64_fin_grid (q x : ℚ) (h : round64 q = fin x) :
    x = 0 ∨ 1 / 2 ^ 1074 ≤ abs x := by
  rcases lt_trichotomy q 0 with hq | hq | hq
  · rcases round64_neg q hq with h' | h'
    · rw [h'] at h; cases h
    · rw [h'] at h
      cases h
      rcases roundMagnitude_grid (-q) (by linarith) with g | g
      · left; rw [g]; simp
      · right; rw [abs_neg, abs_of_nonneg (roundMagnitude_nonneg (-q) (by linarith))]; exact g
  · subst hq
    rw [round64_zero] at h
    cases h
    left; rfl
  · rcases round64_pos q hq with h' | h'
    · rw [h'] at h; cases h
    · rw [h'] at h
      cases h
      rcases roundMagnitude_grid q (le_of_lt hq) with g | g
      · left; exact g
      · right; rw [abs_of_nonneg (roundMagnitude_nonneg q (le_of_lt hq))]; exact g

theorem round64_fin_pos (q x : ℚ) (h : round64 q = fin x) (hq : 1 / 2 ^ 1074 ≤ q) :
    1 / 2 ^ 1074 ≤ x := by
  have h0 : (0 : ℚ) < 1 / 2 ^ 1074 := by positivity
  rcases round64_pos q (by linarith) with h' | h'
  · rw [h'] at h; cases h
  · rw [h'] at h
    cases h
    exact roundMagnitude_pos q hq

theorem round64_fin_neg (q x : ℚ) (h : round64 q = fin x) (hq : q ≤ -(1 / 2 ^ 1074)) :
    x ≤ -(1 / 2 ^ 1074) := by
  have h0 : (0 : ℚ) < 1 / 2 ^ 1074 := by positivity
  rcases round64_neg q (by linarith) with h' | h'
  · rw [h'] at h; cases h
  · rw [h'] at h
    cases h
    have := roundMagnitude_pos (-q) (by linarith)
    linarith

/-! ### The handlers -/

theorem summarize_symbol (big : ℚ → String) (symbol : String) (data : ResponseData)
    (entry : SummaryEntry) (h : summarize big symbol data = .ok entry) :
    entry.symbol = symbol := by
  unfold summarize at h
  split at h
  · cases h; rfl
  · dsimp only at h
    split at h
    · cases h
    · split at h
      · cases h
      · cases h; rfl

theorem summaryEntry_symbol (big : ℚ → String) (key : Option String) (upstream : Upstream)
    (symbol : String) : (summaryEntry big key upstream symbol).symbol = symbol := by
  unfold summaryEntry
  cases hf : fetchAlphaVantageData key upstream (summaryParams symbol) with
  | error m => rfl
  | ok data =>
    show (match summarize big symbol data with
      | .ok entry => entry
      | .error message => errorEntry symbol message).symbol = symbol
    cases hs : summarize big symbol data with
    | error m => rfl
    | ok entry => exact summarize_symbol big symbol data entry hs

theorem stockPromises_entries (big : ℚ → String) (key : Option String) (upstream : Upstream)
    (symbols : List String) :
    (stockPromises big key upstream symbols).map SummaryTask.entry
      = symbols.map (summaryEntry big key upstream) := by
  unfold stockPromises
  rw [List.map_map]
  conv_rhs => rw [← List.enum_map_snd symbols, List.map_map]
  rfl

theorem stockPromises_delays (big : ℚ → String) (key : Option String) (upstream : Upstream)
    (symbols : List String) :
    (stockPromises big key upstream symbols).map SummaryTask.delay
      = (List.range symbols.length).map dispatchDelay := by
  unfold stockPromises
  rw [List.map_map]
  conv_rhs => rw [← List.enum_map_fst symbols, List.map_map]
  rfl

theorem summaryHandler_reply (big : ℚ → String) (key : Option String) (upstream : Upstream)
    (symbols : List String) (hkey : truthyStr key = true) :
    (summaryHandler big key upstream symbols).reply
      = .ok (symbols.map (summaryEntry big key upstream)) := by
  unfold summaryHandler
  simp [hkey, stockPromises_entries]

/-- C1. With a configured API key the `/summary` handler replies with success and a
data list holding exactly one entry per configured symbol, the i-th entry carrying
the i-th symbol, whatever the upstream answers for each symbol. -/
theorem summary_one_entry_per_symbol (big : ℚ → String) (key : Option String)
    (upstream : Upstream) (symbols : List String) (hkey : truthyStr key = true) :
    ∃ data : List SummaryEntry,
      (summaryHandler big key upstream symbols).reply = .ok data ∧
      data.length = symbols.length ∧
      data.map SummaryEntry.symbol = symbols := by
  refine ⟨symbols.map (summaryEntry big key upstream),
    summaryHandler_reply big key upstream symbols hkey, by simp, ?_⟩
  rw [List.map_map]
  conv_rhs => rw [← List.map_id symbols]
  apply List.map_congr_left
  intro s _
  exact summaryEntry_symbol big key upstream s

theorem summary_one_entry_per_symbol_witness :
    truthyStr (some "demo") = true ∧
    ∃ data : List SummaryEntry,
      (summaryHandler (fun _ => "") (some "demo") (fun _ => .rejected "timeout")
        TOP_STOCKS).reply = .ok data ∧
      data.length = TOP_STOCKS.length ∧
      data.map SummaryEntry.symbol = TOP_STOCKS :=
  ⟨by decide, summary_one_entry_per_symbol _ _ _ _ (by decide)⟩

theorem dispatchDelay_eq (i : Nat) : dispatchDelay i = i * 12000 := by
  unfold dispatchDelay
  split <;> omega

theorem window_count (N : Nat) (t : ℚ) :
    ((List.range N).filter fun i =>
      decide (t ≤ (dispatchDelay i : ℚ) ∧ (dispatchDelay i : ℚ) < t + 60000)).length ≤ 5 := by
  set l := (List.range N).filter fun i =>
    decide (t ≤ (dispatchDelay i : ℚ) ∧ (dispatchDelay i : ℚ) < t + 60000) with hl
  have hnd : l.Nodup := (List.nodup_range N).filter _
  rw [← List.toFinset_card_of_nodup hnd]
  have hsub : l.toFinset ⊆ Finset.Ico ⌈t / 12000⌉₊ (⌈t / 12000⌉₊ + 5) := by
    intro i hi
    rw [List.mem_toFinset, hl, List.mem_filter] at hi
    have h := of_decide_eq_true hi.2
    rw [dispatchDelay_eq] at h
    push_cast at h
    rw [Finset.mem_Ico]
    constructor
    · rw [Nat.ceil_le]
      rw [div_le_iff₀ (by norm_num)]
      exact h.1
    · have h1 : t / 12000 ≤ (⌈t / 12000⌉₊ : ℚ) := Nat.le_ceil _
      have h2 : (i : ℚ) < (⌈t / 12000⌉₊ : ℚ) + 5 := by
        have h3 : (i : ℚ) < t / 12000 + 5 := by
          rw [div_add' _ _ _ (by norm_num : (12000 : ℚ) ≠ 0), lt_div_iff₀ (by norm_num)]
          linarith [h.2]
        linarith
      exact_mod_cast h2
  calc l.toFinset.card ≤ (Finset.Ico ⌈t / 12000⌉₊ (⌈t / 12000⌉₊ + 5)).card :=
        Finset.card_le_card hsub
    _ = 5 := by simp

/-- C4. With the delays the `/summary` handler assigns (position i waits
i * 12000 ms), every window of 60 seconds, whatever its start t, holds at most 5 of
the dispatch offsets of a batch of any size. -/
theorem summary_window_quota (big : ℚ → String) (key : Option String) (upstream : Upstream)
    (symbols : List String) (t : ℚ) :
    ((stockPromises big key upstream symbols).filter fun task =>
      decide (t ≤ (task.delay : ℚ) ∧ (task.delay : ℚ) < t + 60000)).length ≤ 5 := by
  have hcount : ∀ p : Nat → Bool,
      ((stockPromises big key upstream symbols).filter (p ∘ SummaryTask.delay)).length
        = ((List.range symbols.length).filter (p ∘ dispatchDelay)).length := by
    intro p
    rw [← List.length_map _ SummaryTask.delay, ← List.filter_map, stockPromises_delays,
      List.filter_map, List.length_map]
  exact (hcount fun d => decide (t ≤ (d : ℚ) ∧ (d : ℚ) < t + 60000)).trans_le
    (window_count symbols.length t)

/-- C5. The task at position i of the `/summary` batch waits i * (60000 / 5) ms, that
is i * 12000 ms; position 0 waits 0 ms; the delays are non-decreasing in i. -/
theorem summary_delay_linear (big : ℚ → String) (key : Option String) (upstream : Upstream)
    (symbols : List String) :
    (stockPromises big key upstream symbols).map SummaryTask.delay
        = (List.range symbols.length).map (fun i => i * (60000 / 5)) ∧
      (∀ i, dispatchDelay i = i * 12000) ∧
      dispatchDelay 0 = 0 ∧
      ∀ i j, i ≤ j → dispatchDelay i ≤ dispatchDelay j := by
  refine ⟨?_, dispatchDelay_eq, rfl, ?_⟩
  · rw [stockPromises_delays]
    apply List.map_congr_left
    intro i _
    rw [dispatchDelay_eq]
  · intro i j hij
    rw [dispatchDelay_eq, dispatchDelay_eq]
    omega

theorem toDigitsCore_acc (b : Nat) : ∀ (fuel n : Nat) (ds : List Char),
    Nat.toDigitsCore b fuel n ds = Nat.toDigitsCore b fuel n [] ++ ds := by
  intro fuel
  induction fuel with
  | zero => intro n ds; simp [Nat.toDigitsCore]
  | succ fuel ih =>
    intro n ds
    simp only [Nat.toDigitsCore]
    split
    · simp
    · rw [ih (n / b) (Nat.digitChar (n % b) :: ds), ih (n / b) [Nat.digitChar (n % b)]]
      simp

theorem toDigitsCore_fuel : ∀ (fuel fuel' n : Nat) (ds : List Char), n < fuel → n < fuel' →
    Nat.toDigitsCore 10 fuel n ds = Nat.toDigitsCore 10 fuel' n ds := by
  intro fuel
  induction fuel with
  | zero => intro fuel' n ds h; omega
  | succ fuel ih =>
    intro fuel' n ds h h'
    cases fuel' with
    | zero => omega
    | succ fuel' =>
      simp only [Nat.toDigitsCore]
      split
      · rfl
      · rename_i hne
        have : n / 10 < n := Nat.div_lt_self (by omega) (by omega)
        exact ih fuel' (n / 10) _ (by omega) (by omega)

theorem toDigits_small (n : Nat) (h : n < 10) : Nat.toDigits 10 n = [Nat.digitChar n] := by
  simp [Nat.toDigits, Nat.toDigitsCore, Nat.div_eq_of_lt h, Nat.mod_eq_of_lt h]

theorem toDigits_step (n : Nat) (h : 10 ≤ n) :
    Nat.toDigits 10 n = Nat.toDigits 10 (n / 10) ++ [Nat.digitChar (n % 10)] := by
  have hne : n / 10 ≠ 0 := by omega
  have : n / 10 < n := Nat.div_lt_self (by omega) (by omega)
  have h1 : Nat.toDigits 10 n = Nat.toDigitsCore 10 n (n / 10) [Nat.digitChar (n % 10)] := by
    simp [Nat.toDigits, Nat.toDigitsCore, hne]
  rw [h1, toDigitsCore_acc, toDigitsCore_fuel n (n / 10 + 1) (n / 10) [] (by omega) (by omega)]
  rfl

theorem toDigits_length_pos (n : Nat) : 0 < (Nat.toDigits 10 n).length := by
  by_cases h : n < 10
  · simp [toDigits_small n h]
  · rw [toDigits_step n (by omega)]; simp

theorem fixedDigits_two (n : Nat) :
    fixedDigits n 2 = String.mk (Nat.toDigits 10 (n / 100) ++
      ['.', Nat.digitChar (n / 10 % 10), Nat.digitChar (n % 10)]) := by
  by_cases h1 : n < 10
  · have e1 : n / 100 = 0 := by omega
    have e2 : n / 10 % 10 = 0 := by omega
    have e3 : n % 10 = n := by omega
    have z1 : Nat.toDigits 10 0 = ['0'] := rfl
    have z2 : Nat.digitChar 0 = '0' := rfl
    simp [fixedDigits, toDigits_small n h1, e1, e2, e3, List.replicate, z1, z2]
  · by_cases h2 : n < 100
    · have e1 : n / 100 = 0 := by omega
      have e2 : n / 10 % 10 = n / 10 := by omega
      have z1 : Nat.toDigits 10 0 = ['0'] := rfl
      rw [e1, e2]
      simp [fixedDigits, toDigits_step n (by omega), toDigits_small (n / 10) (by omega),
        List.replicate, z1]
    · have e1 : n / 10 / 10 = n / 100 := by omega
      have hl := toDigits_length_pos (n / 100)
      simp only [fixedDigits, toDigits_step n (by omega), toDigits_step (n / 10) (by omega), e1]
      have hne : Nat.toDigits 10 (n / 100) ≠ [] := by
        intro h0; rw [h0] at hl; simp at hl
      simp [hne]

theorem nearest_close (a : ℚ) (ha : 0 ≤ a) :
    abs ((nearest a 2 : ℚ) / 100 - a) ≤ 1 / 200 := by
  unfold nearest
  have hfl : Rat.floor (a * 10 ^ 2 + 1 / 2) = ⌊a * 10 ^ 2 + 1 / 2⌋ := rfl
  rw [hfl]
  have h0 : 0 ≤ ⌊a * 10 ^ 2 + 1 / 2⌋ := Int.floor_nonneg.mpr (by positivity)
  have hcast : ((⌊a * 10 ^ 2 + 1 / 2⌋.toNat : ℕ) : ℚ) = (⌊a * 10 ^ 2 + 1 / 2⌋ : ℚ) := by
    have := Int.toNat_of_nonneg h0
    exact_mod_cast this
  rw [hcast]
  have h1 := Int.floor_le (a * 10 ^ 2 + 1 / 2)
  have h2 := Int.lt_floor_add_one (a * 10 ^ 2 + 1 / 2)
  rw [abs_le]
  constructor <;> linarith

theorem toFixed_small (big : ℚ → String) (q : ℚ) (h : |q| < 10 ^ 21) :
    toFixed big (fin q) 2 = (if q < 0 then "-" else "") ++ fixedDigits (nearest |q| 2) 2 := by
  simp [toFixed, not_le.mpr h]

/-- Below `10^21` the printed number does not depend on `Number::toString`. -/
theorem toFixed_congr (big big' : ℚ → String) (x : JSNum) (f : Nat)
    (h : x.printsFixed = true) : toFixed big x f = toFixed big' x f := by
  cases x with
  | nan => rfl
  | posInf => rfl
  | negInf => rfl
  | fin q =>
    have hq : |q| < 10 ^ 21 := by simpa [printsFixed] using h
    simp [toFixed, not_le.mpr hq]

theorem calculateChange_fin (big : ℚ → String) (c p : ℚ) (hp : p ≠ 0) :
    calculateChange big (fin c) (some (fin p))
      = (if ((((fin c).sub (fin p)).div (fin p)).mul (fin 100)).geZero then "+" else "")
          ++ toFixed big ((((fin c).sub (fin p)).div (fin p)).mul (fin 100)) 2 ++ "%" := by
  simp [calculateChange, JSNum.truthy, hp]

theorem calculateChange_congr (big big' : ℚ → String) (c p : ℚ)
    (h : ((((fin c).sub (fin p)).div (fin p)).mul (fin 100)).printsFixed = true) :
    calculateChange big (fin c) (some (fin p)) = calculateChange big' (fin c) (some (fin p)) := by
  by_cases hp : p = 0
  · simp [calculateChange, JSNum.truthy, hp]
  · rw [calculateChange_fin big c p hp, calculateChange_fin big' c p hp,
      toFixed_congr big big' _ 2 h]

/-- C2 (as the code has it). For a finite current price and a finite previous
price > 0, let the change be ((current - previous) / previous) * 100 as the code
computes it, each operation rounded to binary64.  When the change is a finite number
below 10^21 in magnitude, `calculateChange` returns "+" when the change is >= 0 and
"-" when it is negative, then the decimal digits of n / 100 with two fractional
digits, then "%", where n is the number of hundredths nearest to the magnitude of the
change.  For a current price that is not a number the result is "NaN%". -/
theorem calculateChange_signed_percent (big : ℚ → String) (current previous change : ℚ)
    (hprev : 0 < previous)
    (hchange : (((fin current).sub (fin previous)).div (fin previous)).mul (fin 100)
      = fin change)
    (hmag : |change| < 10 ^ 21) :
    calculateChange big (fin current) (some (fin previous))
        = (if 0 ≤ change then "+" else "-")
          ++ String.mk (Nat.toDigits 10 (nearest |change| 2 / 100)
              ++ ['.', Nat.digitChar (nearest |change| 2 / 10 % 10),
                Nat.digitChar (nearest |change| 2 % 10)])
          ++ "%" ∧
      abs ((nearest |change| 2 : ℚ) / 100 - |change|) ≤ 1 / 200 ∧
      calculateChange big nan (some (fin previous)) = "NaN%" := by
  have hne : previous ≠ 0 := ne_of_gt hprev
  refine ⟨?_, nearest_close _ (abs_nonneg _), ?_⟩
  · rw [← fixedDigits_two, calculateChange_fin big current previous hne, hchange,
      toFixed_small big change hmag]
    by_cases hs : 0 ≤ change
    · have hnl : ¬ (change < 0) := not_lt.mpr hs
      simp [JSNum.geZero, hs, hnl]
    · have hl : change < 0 := not_le.mp hs
      simp [JSNum.geZero, hs, hl]
  · simp [calculateChange, JSNum.truthy, hne, JSNum.sub, JSNum.div, JSNum.mul, JSNum.geZero,
      toFixed]

theorem calculateChange_signed_percent_witness :
    (0 : ℚ) < 95 ∧
      (((fin 100).sub (fin 95)).div (fin 95)).mul (fin 100)
        = fin (5925788983382231 / 1125899906842624) ∧
      calculateChange (fun _ => "") (fin 100) (some (fin 95)) = "+5.26%" := by
  have h1 : (0 : ℚ) < 95 := by norm_num
  have h2 : (((fin 100).sub (fin 95)).div (fin 95)).mul (fin 100)
      = fin (5925788983382231 / 1125899906842624) := by decide!
  have h3 : |(5925788983382231 / 1125899906842624 : ℚ)| < 10 ^ 21 := by norm_num [abs_lt]
  refine ⟨h1, h2, ?_⟩
  have h := (calculateChange_signed_percent (fun _ => "") 100 95 _ h1 h2 h3).1
  rw [h]
  decide!

/-- C2, counterexample. For the prices 183 and 160 the change is 14.375, which
rounds to 14.38, but `calculateChange` returns "+14.37%": the binary64 value of
23 / 160 * 100 lies below 14.375.  For a current price that is not a number the
result is "NaN%", with no sign. -/
theorem calculateChange_binary64_rounding :
    calculateChange (fun _ => "") (fin 183) (some (fin 160)) = "+14.37%" ∧
      ((183 : ℚ) - 160) / 160 * 100 = 14375 / 1000 ∧
      nearest |((183 : ℚ) - 160) / 160 * 100| 2 = 1438 ∧
      calculateChange (fun _ => "") nan (some (fin 95)) = "NaN%" := by
  decide!

/-- C3 (as the code has it). When the previous price is missing, 0 or NaN,
`calculateChange` returns the literal "0.00%" whatever the current price is. -/
theorem calculateChange_no_previous (big : ℚ → String) (currentPrice : JSNum) :
    calculateChange big currentPrice none = "0.00%" ∧
      calculateChange big currentPrice (some (fin 0)) = "0.00%" ∧
      calculateChange big currentPrice (some nan) = "0.00%" := by
  refine ⟨rfl, ?_, ?_⟩ <;> simp [calculateChange, JSNum.truthy]

/-- C3, counterexample. With previous price 0 the result is "0.00%", not "N/A". -/
theorem calculateChange_zero_previous_not_NA :
    calculateChange (fun _ => "") (fin 100) (some (fin 0)) = "0.00%" ∧
      calculateChange (fun _ => "") (fin 100) none = "0.00%" ∧
      calculateChange (fun _ => "") (fin 100) (some (fin 0)) ≠ "N/A" ∧
      calculateChange (fun _ => "") (fin 100) none ≠ "N/A" := by
  decide

theorem utf16_inj_append (c d : Char) (r s : List Nat) (h : utf16 c ++ r = utf16 d ++ s) :
    c = d ∧ r = s := by
  have hc := c.valid
  have hd := d.valid
  have hcn : c.toNat = c.val.toNat := rfl
  have hdn : d.toNat = d.val.toNat := rfl
  have hext : c.toNat = d.toNat → c = d := by
    intro e
    apply Char.ext
    apply UInt32.ext
    rw [hcn, hdn] at e
    exact e
  unfold UInt32.isValidChar Nat.isValidChar at hc hd
  rw [← hcn] at hc
  rw [← hdn] at hd
  unfold utf16 at h
  by_cases h1 : c.toNat < 0x10000 <;> by_cases h2 : d.toNat < 0x10000
  · simp only [h1, h2, if_true, List.singleton_append, List.cons.injEq] at h
    exact ⟨hext h.1, h.2⟩
  · simp only [h1, h2, if_true, if_false, List.singleton_append, List.cons_append,
      List.cons.injEq] at h
    omega
  · simp only [h1, h2, if_true, if_false, List.singleton_append, List.cons_append,
      List.cons.injEq] at h
    omega
  · simp only [h1, h2, if_false, List.cons_append, List.nil_append, List.cons.injEq] at h
    refine ⟨hext ?_, h.2.2⟩
    omega

theorem utf16_ne_nil (c : Char) : utf16 c ≠ [] := by
  unfold utf16; split <;> simp

theorem flatMap_utf16_injective : ∀ l₁ l₂ : List Char,
    l₁.flatMap utf16 = l₂.flatMap utf16 → l₁ = l₂ := by
  intro l₁
  induction l₁ with
  | nil =>
    intro l₂ h
    cases l₂ with
    | nil => rfl
    | cons d l₂ =>
      exfalso
      simp only [List.flatMap_nil, List.flatMap_cons] at h
      have := utf16_ne_nil d
      cases hd : utf16 d with
      | nil => exact this hd
      | cons x xs => rw [hd] at h; simp at h
  | cons c l₁ ih =>
    intro l₂ h
    cases l₂ with
    | nil =>
      exfalso
      simp only [List.flatMap_nil, List.flatMap_cons] at h
      have := utf16_ne_nil c
      cases hc : utf16 c with
      | nil => exact this hc
      | cons x xs => rw [hc] at h; simp at h
    | cons d l₂ =>
      simp only [List.flatMap_cons] at h
      obtain ⟨hcd, hrest⟩ := utf16_inj_append c d _ _ h
      rw [hcd, ih l₂ hrest]

theorem codeUnits_injective (a b : String) (h : codeUnits a = codeUnits b) : a = b := by
  unfold codeUnits at h
  have := flatMap_utf16_injective _ _ h
  exact String.ext this

instance : IsTotal String sortLE := ⟨fun a b => le_total (codeUnits a) (codeUnits b)⟩

instance : IsTrans String sortLE :=
  ⟨fun a b c (h₁ : codeUnits a ≤ codeUnits b) (h₂ : codeUnits b ≤ codeUnits c) => le_trans h₁ h₂⟩

/-- The key sequence `Object.keys(series).sort().reverse()` of a series with unique
keys is strictly descending. -/
theorem sorted_reverse_desc (keys : List String) (hnd : keys.Nodup) :
    (jsSort keys).reverse.Pairwise (fun a b => sortLT b a) := by
  rw [List.pairwise_reverse]
  have hs : (jsSort keys).Pairwise sortLE := List.sorted_insertionSort sortLE keys
  have hn : (jsSort keys).Nodup := (List.perm_insertionSort sortLE keys).nodup_iff.mpr hnd
  refine (hs.and hn).imp ?_
  intro a b hab
  obtain ⟨hle, hne⟩ := hab
  have hne' : codeUnits a ≠ codeUnits b := fun e => hne (codeUnits_injective a b e)
  exact lt_of_le_of_ne hle hne'

theorem sorted_reverse_perm (keys : List String) : (jsSort keys).reverse.Perm keys :=
  (List.reverse_perm _).trans (List.perm_insertionSort sortLE keys)

/-- C6. For a series with unique keys, the key sequence
`Object.keys(series).sort().reverse()` is a permutation of the keys, strictly
descending, and for every N its first N elements are the N greatest keys: each of
them is greater than every key left out. -/
theorem normalised_keys_descending (timeSeries : Series)
    (hnd : (objectKeys timeSeries).Nodup) :
    (jsSort (objectKeys timeSeries)).reverse.Perm (objectKeys timeSeries) ∧
      (jsSort (objectKeys timeSeries)).reverse.Pairwise (fun a b => sortLT b a) ∧
      ∀ N : Nat,
        (((jsSort (objectKeys timeSeries)).reverse.take N) ++
            ((jsSort (objectKeys timeSeries)).reverse.drop N)).Perm (objectKeys timeSeries) ∧
          ((jsSort (objectKeys timeSeries)).reverse.take N).length
            = min N (objectKeys timeSeries).length ∧
          ∀ a ∈ (jsSort (objectKeys timeSeries)).reverse.take N,
            ∀ b ∈ (jsSort (objectKeys timeSeries)).reverse.drop N, sortLT b a := by
  have hperm := sorted_reverse_perm (objectKeys timeSeries)
  have hdesc := sorted_reverse_desc (objectKeys timeSeries) hnd
  refine ⟨hperm, hdesc, fun N => ⟨?_, ?_, ?_⟩⟩
  · rw [List.take_append_drop]; exact hperm
  · rw [List.length_take, hperm.length_eq]
  · intro a ha b hb
    have h := hdesc
    rw [← List.take_append_drop N (jsSort (objectKeys timeSeries)).reverse,
      List.pairwise_append] at h
    exact h.2.2 a ha b hb

theorem normalised_keys_descending_witness :
    (objectKeys sampleSeries).Nodup ∧
      (jsSort (objectKeys sampleSeries)).reverse
        = ["2025-11-02 10:00:00", "2025-11-02 09:55:00"] ∧
      (jsSort (objectKeys sampleSeries)).reverse.Pairwise (fun a b => sortLT b a) :=
  ⟨by decide, by decide, (normalised_keys_descending sampleSeries (by decide)).2.1⟩

theorem lookup_of_mem_keys (timeSeries : Series) (k : String)
    (hk : k ∈ objectKeys timeSeries) :
    ∃ pt, getPoint timeSeries (some k) = some pt ∧ (k, pt) ∈ timeSeries := by
  unfold getPoint objectKeys at *
  induction timeSeries with
  | nil => simp at hk
  | cons kv rest ih =>
    obtain ⟨k', pt'⟩ := kv
    by_cases hkk : k = k'
    · subst hkk
      exact ⟨pt', by simp [List.lookup], by simp⟩
    · have hmem : k ∈ List.map Prod.fst rest := by
        simp only [List.map_cons, List.mem_cons] at hk
        rcases hk with h | h
        · exact absurd h hkk
        · exact h
      obtain ⟨pt, h1, h2⟩ := ih hmem
      refine ⟨pt, ?_, List.mem_cons_of_mem _ h2⟩
      simp only [Option.getD_some] at h1 ⊢
      rw [List.lookup_cons]
      have : (k == k') = false := by simpa using hkk
      rw [this]
      exact h1

theorem daily_rows (big : ℚ → String) (timeSeries : Series) :
    ∀ keys : List String, (∀ k ∈ keys, k ∈ objectKeys timeSeries) →
      ∃ rows : List DailyEntry,
        keys.mapM (dailyPoint big timeSeries) = .ok rows ∧
        rows.map DailyEntry.date = keys ∧
        ∀ e ∈ rows, ∃ pt, (e.date, pt) ∈ timeSeries ∧
          e = { date := e.date
                open_ := toFixed big (parseFloat pt.open1) 2
                close := toFixed big (parseFloat pt.close4) 2
                high := toFixed big (parseFloat pt.high2) 2
                low := toFixed big (parseFloat pt.low3) 2
                volume := pt.volume5 } := by
  intro keys
  induction keys with
  | nil => intro _; exact ⟨[], rfl, rfl, by simp⟩
  | cons k ks ih =>
    intro hmem
    obtain ⟨rows, h1, h2, h3⟩ := ih (fun k' hk' => hmem k' (List.mem_cons_of_mem _ hk'))
    obtain ⟨pt, hp, hin⟩ := lookup_of_mem_keys timeSeries k (hmem k (List.mem_cons_self _ _))
    refine ⟨{ date := k
              open_ := toFixed big (parseFloat pt.open1) 2
              close := toFixed big (parseFloat pt.close4) 2
              high := toFixed big (parseFloat pt.high2) 2
              low := toFixed big (parseFloat pt.low3) 2
              volume := pt.volume5 } :: rows, ?_, ?_, ?_⟩
    · rw [List.mapM_cons, h1]
      simp only [dailyPoint, hp]
      rfl
    · simp [h2]
    · intro e he
      rcases List.mem_cons.mp he with h | h
      · subst h
        exact ⟨pt, hin, rfl⟩
      · exact h3 e h

theorem history_rows (big : ℚ → String) (timeSeries : Series) :
    ∀ keys : List String, (∀ k ∈ keys, k ∈ objectKeys timeSeries) →
      ∃ rows : List HistoryEntry,
        keys.mapM (historyPoint big timeSeries) = .ok rows ∧
        rows.map HistoryEntry.timestamp = keys ∧
        ∀ e ∈ rows, ∃ pt, (e.timestamp, pt) ∈ timeSeries ∧
          e = { timestamp := e.timestamp
                open_ := toFixed big (parseFloat pt.open1) 2
                high := toFixed big (parseFloat pt.high2) 2
                low := toFixed big (parseFloat pt.low3) 2
                close := toFixed big (parseFloat pt.close4) 2
                volume := pt.volume5 } := by
  intro keys
  induction keys with
  | nil => intro _; exact ⟨[], rfl, rfl, by simp⟩
  | cons k ks ih =>
    intro hmem
    obtain ⟨rows, h1, h2, h3⟩ := ih (fun k' hk' => hmem k' (List.mem_cons_of_mem _ hk'))
    obtain ⟨pt, hp, hin⟩ := lookup_of_mem_keys timeSeries k (hmem k (List.mem_cons_self _ _))
    refine ⟨{ timestamp := k
              open_ := toFixed big (parseFloat pt.open1) 2
              high := toFixed big (parseFloat pt.high2) 2
              low := toFixed big (parseFloat pt.low3) 2
              close := toFixed big (parseFloat pt.close4) 2
              volume := pt.volume5 } :: rows, ?_, ?_, ?_⟩
    · rw [List.mapM_cons, h1]
      simp only [historyPoint, hp]
      rfl
    · simp [h2]
    · intro e he
      rcases List.mem_cons.mp he with h | h
      · subst h
        exact ⟨pt, hin, rfl⟩
      · exact h3 e h

theorem head_keys_mem (timeSeries : Series) (n : Nat) :
    ∀ k ∈ (jsSort (objectKeys timeSeries)).reverse.take n, k ∈ objectKeys timeSeries :=
  fun _ hk => (sorted_reverse_perm (objectKeys timeSeries)).subset (List.mem_of_mem_take hk)

theorem dailyHandler_reply (big : ℚ → String) (key : Option String) (upstream : Upstream)
    (symbol : String) (data : ResponseData) (timeSeries : Series)
    (hsym : symbol ≠ "") (hkey : truthyStr key = true)
    (hfetch : fetchAlphaVantageData key upstream (dailyParams symbol) = .ok data)
    (hts : data.seriesDaily = some timeSeries) :
    ∃ rows : List DailyEntry,
      (dailyHandler big key upstream (some symbol)).reply
        = .ok { symbol := symbol, data := rows } ∧
      rows.map DailyEntry.date = (jsSort (objectKeys timeSeries)).reverse.take 5 ∧
      ∀ e ∈ rows, ∃ pt, (e.date, pt) ∈ timeSeries ∧
        e = { date := e.date
              open_ := toFixed big (parseFloat pt.open1) 2
              close := toFixed big (parseFloat pt.close4) 2
              high := toFixed big (parseFloat pt.high2) 2
              low := toFixed big (parseFloat pt.low3) 2
              volume := pt.volume5 } := by
  obtain ⟨rows, h1, h2, h3⟩ := daily_rows big timeSeries _ (head_keys_mem timeSeries 5)
  refine ⟨rows, ?_, h2, h3⟩
  simp only [dailyHandler, hsym, hkey, hfetch, hts, h1, if_false, Bool.not_true,
    Bool.false_eq_true]

theorem historyHandler_reply (big : ℚ → String) (key : Option String) (upstream : Upstream)
    (symbol : String) (month : Option String) (data : ResponseData) (timeSeries : Series)
    (hsym : symbol ≠ "") (hkey : truthyStr key = true)
    (hfetch : fetchAlphaVantageData key upstream (historyParams symbol month) = .ok data)
    (hts : data.series5min = some timeSeries) :
    ∃ rows : List HistoryEntry,
      (historyHandler big key upstream (some symbol) month).reply
        = .ok { symbol := symbol, data := rows } ∧
      rows.map HistoryEntry.timestamp = (jsSort (objectKeys timeSeries)).reverse.take 10 ∧
      ∀ e ∈ rows, ∃ pt, (e.timestamp, pt) ∈ timeSeries ∧
        e = { timestamp := e.timestamp
              open_ := toFixed big (parseFloat pt.open1) 2
              high := toFixed big (parseFloat pt.high2) 2
              low := toFixed big (parseFloat pt.low3) 2
              close := toFixed big (parseFloat pt.close4) 2
              volume := pt.volume5 } := by
  obtain ⟨rows, h1, h2, h3⟩ := history_rows big timeSeries _ (head_keys_mem timeSeries 10)
  refine ⟨rows, ?_, h2, h3⟩
  simp only [historyHandler, hsym, hkey, hfetch, hts, h1, if_false, Bool.not_true,
    Bool.false_eq_true]

/-- The first n keys of the descending key sequence: their number, their order, and
that every key left out is smaller than each of them. -/
theorem head_keys_spec (timeSeries : Series) (hnd : (objectKeys timeSeries).Nodup) (n : Nat) :
    ((jsSort (objectKeys timeSeries)).reverse.take n).length = min timeSeries.length n ∧
      ((jsSort (objectKeys timeSeries)).reverse.take n).Pairwise (fun a b => sortLT b a) ∧
      ∀ k ∈ objectKeys timeSeries, k ∉ (jsSort (objectKeys timeSeries)).reverse.take n →
        ∀ d ∈ (jsSort (objectKeys timeSeries)).reverse.take n, sortLT k d := by
  have hperm := sorted_reverse_perm (objectKeys timeSeries)
  have hdesc := sorted_reverse_desc (objectKeys timeSeries) hnd
  refine ⟨?_, ?_, ?_⟩
  · rw [List.length_take, hperm.length_eq, objectKeys, List.length_map, Nat.min_comm]
  · exact hdesc.sublist (List.take_sublist _ _)
  · intro k hk hnot d hd
    have hk' : k ∈ (jsSort (objectKeys timeSeries)).reverse := hperm.mem_iff.mpr hk
    rw [← List.take_append_drop n (jsSort (objectKeys timeSeries)).reverse,
      List.mem_append] at hk'
    have hdrop : k ∈ (jsSort (objectKeys timeSeries)).reverse.drop n := by
      rcases hk' with h | h
      · exact absurd h hnot
      · exact h
    have h := hdesc
    rw [← List.take_append_drop n (jsSort (objectKeys timeSeries)).reverse,
      List.pairwise_append] at h
    exact h.2.2 d hd k hdrop

/-- C7. Called with a symbol and a configured key: whenever the upstream call of
`/daily` succeeds with a daily series of k points (unique keys), `/daily` replies with
success and exactly min(k, 5) entries, never more than 5; whenever the upstream call
of `/history` succeeds with an intraday series of k points, `/history` replies with
success and exactly min(k, 10) entries.  In both the entries are in strictly
descending key order, every key of the series that is left out is smaller than every
key shown, and each entry holds the formatted fields of the point stored under its
key. -/
theorem daily_history_slices (big : ℚ → String) (key : Option String) (upstream : Upstream)
    (symbol : String) (hsym : symbol ≠ "") (hkey : truthyStr key = true) :
    (∀ (data : ResponseData) (daily : Series),
      fetchAlphaVantageData key upstream (dailyParams symbol) = .ok data →
      data.seriesDaily = some daily → (objectKeys daily).Nodup →
      ∃ rows : List DailyEntry,
        (dailyHandler big key upstream (some symbol)).reply
          = .ok { symbol := symbol, data := rows } ∧
        rows.length = min daily.length 5 ∧ rows.length ≤ 5 ∧
        (rows.map DailyEntry.date).Pairwise (fun a b => sortLT b a) ∧
        (∀ k ∈ objectKeys daily, k ∉ rows.map DailyEntry.date →
          ∀ d ∈ rows.map DailyEntry.date, sortLT k d) ∧
        ∀ e ∈ rows, ∃ pt, (e.date, pt) ∈ daily ∧
          e = { date := e.date
                open_ := toFixed big (parseFloat pt.open1) 2
                close := toFixed big (parseFloat pt.close4) 2
                high := toFixed big (parseFloat pt.high2) 2
                low := toFixed big (parseFloat pt.low3) 2
                volume := pt.volume5 }) ∧
    (∀ (month : Option String) (data : ResponseData) (intraday : Series),
      fetchAlphaVantageData key upstream (historyParams symbol month) = .ok data →
      data.series5min = some intraday → (objectKeys intraday).Nodup →
      ∃ rows : List HistoryEntry,
        (historyHandler big key upstream (some symbol) month).reply
          = .ok { symbol := symbol, data := rows } ∧
        rows.length = min intraday.length 10 ∧
        (rows.map HistoryEntry.timestamp).Pairwise (fun a b => sortLT b a) ∧
        (∀ k ∈ objectKeys intraday, k ∉ rows.map HistoryEntry.timestamp →
          ∀ d ∈ rows.map HistoryEntry.timestamp, sortLT k d) ∧
        ∀ e ∈ rows, ∃ pt, (e.timestamp, pt) ∈ intraday ∧
          e = { timestamp := e.timestamp
                open_ := toFixed big (parseFloat pt.open1) 2
                high := toFixed big (parseFloat pt.high2) 2
                low := toFixed big (parseFloat pt.low3) 2
                close := toFixed big (parseFloat pt.close4) 2
                volume := pt.volume5 }) := by
  constructor
  · intro data daily hfetch hD hnd
    obtain ⟨rows, h1, h2, h3⟩ :=
      dailyHandler_reply big key upstream symbol data daily hsym hkey hfetch hD
    obtain ⟨s1, s2, s3⟩ := head_keys_spec daily hnd 5
    have hlen : rows.length = min daily.length 5 := by
      rw [← s1, ← h2, List.length_map]
    refine ⟨rows, h1, hlen, ?_, ?_, ?_, h3⟩
    · rw [hlen]; exact Nat.min_le_right _ _
    · rw [h2]; exact s2
    · rw [h2]; exact s3
  · intro month data intraday hfetch hH hnd
    obtain ⟨rows, h1, h2, h3⟩ :=
      historyHandler_reply big key upstream symbol month data intraday hsym hkey hfetch hH
    obtain ⟨s1, s2, s3⟩ := head_keys_spec intraday hnd 10
    have hlen : rows.length = min intraday.length 10 := by
      rw [← s1, ← h2, List.length_map]
    refine ⟨rows, h1, hlen, ?_, ?_, h3⟩
    · rw [h2]; exact s2
    · rw [h2]; exact s3

theorem daily_history_slices_witness :
    "TCS.BSE" ≠ "" ∧ truthyStr (some "demo") = true ∧
      fetchAlphaVantageData (some "demo") (fun _ => .resolved (sampleBody sixPointSeries))
        (dailyParams "TCS.BSE") = .ok (sampleBody sixPointSeries) ∧
      (objectKeys sixPointSeries).Nodup ∧
      (∃ rows : List DailyEntry,
        (dailyHandler (fun _ => "") (some "demo")
            (fun _ => .resolved (sampleBody sixPointSeries)) (some "TCS.BSE")).reply
          = .ok { symbol := "TCS.BSE", data := rows } ∧
        rows.length = 5 ∧
        rows.map DailyEntry.date
          = ["2025-11-03", "2025-10-31", "2025-10-30", "2025-10-29", "2025-10-28"]) ∧
      ∃ rows : List HistoryEntry,
        (historyHandler (fun _ => "") (some "demo")
            (fun _ => .resolved (sampleBody sixPointSeries)) (some "TCS.BSE") none).reply
          = .ok { symbol := "TCS.BSE", data := rows } ∧
        rows.length = 6 := by
  have h := daily_history_slices (fun _ => "") (some "demo")
    (fun _ => .resolved (sampleBody sixPointSeries)) "TCS.BSE" (by decide) (by decide)
  obtain ⟨rowsD, d1, d2, _⟩ := h.1 (sampleBody sixPointSeries) sixPointSeries rfl rfl
    (by decide)
  obtain ⟨rowsH, h1, h2, _⟩ := h.2 none (sampleBody sixPointSeries) sixPointSeries rfl rfl
    (by decide)
  refine ⟨by decide, by decide, rfl, by decide, ⟨rowsD, d1, d2, ?_⟩, ⟨rowsH, h1, h2⟩⟩
  have hv : (dailyHandler (fun _ => "") (some "demo")
      (fun _ => .resolved (sampleBody sixPointSeries)) (some "TCS.BSE")).reply
      = .ok { symbol := "TCS.BSE"
              data := [
                { date := "2025-11-03", open_ := "94.50", close := "95.50", high := "96.00",
                  low := "94.00", volume := some "1500" },
                { date := "2025-10-31", open_ := "93.50", close := "94.50", high := "95.00",
                  low := "93.00", volume := some "1400" },
                { date := "2025-10-30", open_ := "92.50", close := "93.50", high := "94.00",
                  low := "92.00", volume := some "1300" },
                { date := "2025-10-29", open_ := "91.50", close := "92.50", high := "93.00",
                  low := "91.00", volume := some "1200" },
                { date := "2025-10-28", open_ := "90.50", close := "91.50", high := "92.00",
                  low := "90.00", volume := some "1100" }] } := by decide!
  rw [hv] at d1
  injection d1 with d1
  injection d1 with _ d1
  rw [← d1]
  rfl

theorem toFixed_zero (big : ℚ → String) : toFixed big (fin 0) 2 = "0.00" := by
  have h1 : ¬ ((10 : ℚ) ^ 21 ≤ 0) := by norm_num
  have h2 : nearest 0 2 = 0 := by
    unfold nearest
    have hfl : Rat.floor ((0 : ℚ) * 10 ^ 2 + 1 / 2) = ⌊(0 : ℚ) * 10 ^ 2 + 1 / 2⌋ := rfl
    rw [hfl]
    norm_num
  simp only [toFixed, lt_self_iff_false, if_false, abs_zero, h1, h2]
  decide

/-- The change of a price against itself, by the kind of number it is. -/
theorem calculateChange_self (big : ℚ → String) (x : JSNum) :
    calculateChange big x (some x) =
      match x with
      | fin c => if c = 0 then "0.00%" else "+0.00%"
      | nan => "0.00%"
      | _ => "NaN%" := by
  cases x with
  | nan => simp [calculateChange, JSNum.truthy]
  | posInf =>
    simp [calculateChange, JSNum.truthy, JSNum.sub, JSNum.div, JSNum.mul, JSNum.geZero, toFixed]
  | negInf =>
    simp [calculateChange, JSNum.truthy, JSNum.sub, JSNum.div, JSNum.mul, JSNum.geZero, toFixed]
  | fin c =>
    by_cases hc : c = 0
    · simp [calculateChange, JSNum.truthy, hc]
    · have hz := toFixed_zero big
      have h1 : (fin c).sub (fin c) = fin 0 := by simp [JSNum.sub, round64_zero]
      have h2 : (fin 0).div (fin c) = fin 0 := by simp [JSNum.div, hc, round64_zero]
      have h3 : (fin 0).mul (fin 100) = fin 0 := by simp [JSNum.mul, round64_zero]
      rw [calculateChange_fin big c c hc, h1, h2, h3, hz]
      simp [JSNum.geZero, hc]

theorem calculateChange_self_ne_NA (big : ℚ → String) (x : JSNum) :
    calculateChange big x (some x) ≠ "N/A" := by
  rw [calculateChange_self]
  cases x with
  | nan => decide
  | posInf => decide
  | negInf => decide
  | fin c => by_cases hc : c = 0 <;> simp [hc]

theorem jsSort_singleton (k : String) : jsSort [k] = [k] := rfl

theorem summarize_single (big : ℚ → String) (symbol : String) (data : ResponseData)
    (k : String) (pt : RawPoint) (hts : data.series5min = some [(k, pt)]) :
    summarize big symbol data = .ok
      { symbol := symbol
        price := toFixed big (parseFloat pt.close4) 2
        change := calculateChange big (parseFloat pt.close4) (some (parseFloat pt.close4))
        time := formatTime (some k)
        error := none } := by
  simp [summarize, hts, objectKeys, jsSort_singleton, truthyStr, getPoint, List.lookup]

theorem summaryEntry_of_fetch (big : ℚ → String) (key : Option String) (upstream : Upstream)
    (symbol : String) (data : ResponseData) (entry : SummaryEntry)
    (hfetch : fetchAlphaVantageData key upstream (summaryParams symbol) = .ok data)
    (hsum : summarize big symbol data = .ok entry) :
    summaryEntry big key upstream symbol = entry := by
  unfold summaryEntry
  rw [hfetch]
  show (match summarize big symbol data with
    | .ok entry => entry
    | .error message => errorEntry symbol message) = entry
  rw [hsum]

/-- C8 (as the code has it). For a symbol whose upstream series holds exactly one
point, the `/summary` entry carries no error, and its change is the change of the
close against itself: "+0.00%" when the close parses to a non-zero finite number,
"0.00%" when it parses to 0 or to no number, "NaN%" when it parses to an infinity; it
is never "N/A". -/
theorem single_point_change_zero (big : ℚ → String) (key : Option String)
    (upstream : Upstream) (symbol : String) (data : ResponseData) (k : String) (pt : RawPoint)
    (hfetch : fetchAlphaVantageData key upstream (summaryParams symbol) = .ok data)
    (hts : data.series5min = some [(k, pt)]) :
    (summaryEntry big key upstream symbol).error = none ∧
      (summaryEntry big key upstream symbol).change ≠ "N/A" ∧
      (∀ c : ℚ, parseFloat pt.close4 = fin c → c ≠ 0 →
        (summaryEntry big key upstream symbol).change = "+0.00%") ∧
      (parseFloat pt.close4 = fin 0 ∨ parseFloat pt.close4 = nan →
        (summaryEntry big key upstream symbol).change = "0.00%") ∧
      (parseFloat pt.close4 = posInf ∨ parseFloat pt.close4 = negInf →
        (summaryEntry big key upstream symbol).change = "NaN%") := by
  rw [summaryEntry_of_fetch big key upstream symbol data _ hfetch
    (summarize_single big symbol data k pt hts)]
  refine ⟨rfl, calculateChange_self_ne_NA big _, ?_, ?_, ?_⟩
  · intro c hc hne
    show calculateChange big (parseFloat pt.close4) (some (parseFloat pt.close4)) = "+0.00%"
    rw [calculateChange_self, hc]
    simp [hne]
  · intro h
    show calculateChange big (parseFloat pt.close4) (some (parseFloat pt.close4)) = "0.00%"
    rw [calculateChange_self]
    rcases h with h | h <;> simp [h]
  · intro h
    show calculateChange big (parseFloat pt.close4) (some (parseFloat pt.close4)) = "NaN%"
    rw [calculateChange_self]
    rcases h with h | h <;> simp [h]

theorem single_point_change_zero_witness :
    fetchAlphaVantageData (some "demo") (fun _ => .resolved (sampleBody singlePointSeries))
        (summaryParams "TCS.BSE") = .ok (sampleBody singlePointSeries) ∧
      (summaryEntry (fun _ => "") (some "demo")
        (fun _ => .resolved (sampleBody singlePointSeries)) "TCS.BSE").error = none ∧
      (summaryEntry (fun _ => "") (some "demo")
        (fun _ => .resolved (sampleBody singlePointSeries)) "TCS.BSE").change = "+0.00%" ∧
      parseFloat (some "1e400") = posInf ∧
      (summaryEntry (fun _ => "") (some "demo")
        (fun _ => .resolved (sampleBody [("2025-11-02 10:00:00", closeOnly "1e400")]))
        "TCS.BSE").change = "NaN%" ∧
      parseFloat (some "1e-400") = fin 0 ∧
      (summaryEntry (fun _ => "") (some "demo")
        (fun _ => .resolved (sampleBody [("2025-11-02 10:00:00", closeOnly "1e-400")]))
        "TCS.BSE").change = "0.00%" :=
  ⟨rfl,
    (single_point_change_zero (fun _ => "") (some "demo")
      (fun _ => .resolved (sampleBody singlePointSeries)) "TCS.BSE"
      (sampleBody singlePointSeries) _ _ rfl rfl).1,
    (single_point_change_zero (fun _ => "") (some "demo")
      (fun _ => .resolved (sampleBody singlePointSeries)) "TCS.BSE"
      (sampleBody singlePointSeries) _ _ rfl rfl).2.2.1 100 (by decide!) (by norm_num),
    by decide!,
    (single_point_change_zero (fun _ => "") (some "demo")
      (fun _ => .resolved (sampleBody [("2025-11-02 10:00:00", closeOnly "1e400")])) "TCS.BSE"
      (sampleBody [("2025-11-02 10:00:00", closeOnly "1e400")]) _ _ rfl rfl).2.2.2.2
      (Or.inl (by decide!)),
    by decide!,
    (single_point_change_zero (fun _ => "") (some "demo")
      (fun _ => .resolved (sampleBody [("2025-11-02 10:00:00", closeOnly "1e-400")])) "TCS.BSE"
      (sampleBody [("2025-11-02 10:00:00", closeOnly "1e-400")]) _ _ rfl rfl).2.2.2.1
      (Or.inl (by decide!))⟩

/-- C8, counterexample. For a series of one point with close "100.00" the entry's
change is "+0.00%", not "N/A". -/
theorem single_point_change_not_NA :
    summaryEntry (fun _ => "") (some "demo")
        (fun _ => .resolved (sampleBody singlePointSeries)) "TCS.BSE"
      = { symbol := "TCS.BSE", price := "100.00", change := "+0.00%", time := "10:00",
          error := none } ∧
    (summaryEntry (fun _ => "") (some "demo")
        (fun _ => .resolved (sampleBody singlePointSeries)) "TCS.BSE").change ≠ "N/A" := by
  decide!

theorem summarize_two (big : ℚ → String) (symbol : String) (data : ResponseData)
    (timeSeries : Series) (k0 k1 : String) (rest : List String)
    (hts : data.series5min = some timeSeries)
    (hkeys : (jsSort (objectKeys timeSeries)).reverse = k0 :: k1 :: rest) (hk1 : k1 ≠ "") :
    ∃ p0 p1, getPoint timeSeries (some k0) = some p0 ∧ getPoint timeSeries (some k1) = some p1 ∧
      (k0, p0) ∈ timeSeries ∧ (k1, p1) ∈ timeSeries ∧
      summarize big symbol data = .ok
        { symbol := symbol
          price := toFixed big (parseFloat p0.close4) 2
          change := calculateChange big (parseFloat p0.close4) (some (parseFloat p1.close4))
          time := formatTime (some k0)
          error := none } := by
  have hsub := (sorted_reverse_perm (objectKeys timeSeries)).subset
  rw [hkeys] at hsub
  obtain ⟨p0, g0, m0⟩ := lookup_of_mem_keys timeSeries k0 (hsub (by simp))
  obtain ⟨p1, g1, m1⟩ := lookup_of_mem_keys timeSeries k1 (hsub (by simp))
  refine ⟨p0, p1, g0, g1, m0, m1, ?_⟩
  simp [summarize, hts, hkeys, truthyStr, hk1, g0, g1]

theorem summarize_two_empty (big : ℚ → String) (symbol : String) (data : ResponseData)
    (timeSeries : Series) (k0 : String) (rest : List String)
    (hts : data.series5min = some timeSeries)
    (hkeys : (jsSort (objectKeys timeSeries)).reverse = k0 :: "" :: rest) :
    ∃ p0, getPoint timeSeries (some k0) = some p0 ∧ (k0, p0) ∈ timeSeries ∧
      summarize big symbol data = .ok
        { symbol := symbol
          price := toFixed big (parseFloat p0.close4) 2
          change := calculateChange big (parseFloat p0.close4) (some (parseFloat p0.close4))
          time := formatTime (some k0)
          error := none } := by
  have hsub := (sorted_reverse_perm (objectKeys timeSeries)).subset
  rw [hkeys] at hsub
  obtain ⟨p0, g0, m0⟩ := lookup_of_mem_keys timeSeries k0 (hsub (by simp))
  refine ⟨p0, g0, m0, ?_⟩
  simp [summarize, hts, hkeys, truthyStr, g0]

/-- C9 (as the code has it). In the `/summary` computation the latest point is the
one stored under the first key of the descending key sequence.  The previous point is
the one under the second key when that key is not the empty string; when the second
key is the empty string, and when the series has one point only, the previous point
is the latest point again, and the change then reported for a non-zero finite close
is "+0.00%". -/
theorem summary_latest_previous (big : ℚ → String) (symbol : String) (data : ResponseData)
    (timeSeries : Series) (hts : data.series5min = some timeSeries) :
    (∀ (k0 k1 : String) (rest : List String),
      (jsSort (objectKeys timeSeries)).reverse = k0 :: k1 :: rest → k1 ≠ "" →
      ∃ p0 p1, getPoint timeSeries (some k0) = some p0 ∧
        getPoint timeSeries (some k1) = some p1 ∧
        (k0, p0) ∈ timeSeries ∧ (k1, p1) ∈ timeSeries ∧
        summarize big symbol data = .ok
          { symbol := symbol
            price := toFixed big (parseFloat p0.close4) 2
            change := calculateChange big (parseFloat p0.close4) (some (parseFloat p1.close4))
            time := formatTime (some k0)
            error := none }) ∧
    (∀ (k0 : String) (rest : List String),
      (jsSort (objectKeys timeSeries)).reverse = k0 :: "" :: rest →
      ∃ p0, getPoint timeSeries (some k0) = some p0 ∧ (k0, p0) ∈ timeSeries ∧
        summarize big symbol data = .ok
          { symbol := symbol
            price := toFixed big (parseFloat p0.close4) 2
            change := calculateChange big (parseFloat p0.close4) (some (parseFloat p0.close4))
            time := formatTime (some k0)
            error := none }) ∧
    (∀ (k : String) (pt : RawPoint), timeSeries = [(k, pt)] →
      summarize big symbol data = .ok
        { symbol := symbol
          price := toFixed big (parseFloat pt.close4) 2
          change := calculateChange big (parseFloat pt.close4) (some (parseFloat pt.close4))
          time := formatTime (some k)
          error := none }) ∧
    (∀ (x : JSNum) (c : ℚ), x = fin c → c ≠ 0 →
      calculateChange big x (some x) = "+0.00%") := by
  refine ⟨fun k0 k1 rest hkeys hk1 =>
    summarize_two big symbol data timeSeries k0 k1 rest hts hkeys hk1,
    fun k0 rest hkeys => summarize_two_empty big symbol data timeSeries k0 rest hts hkeys,
    fun k pt hone => summarize_single big symbol data k pt (hone ▸ hts), ?_⟩
  intro x c hc hne
  rw [calculateChange_self, hc]
  simp [hne]

theorem summary_latest_previous_witness :
    (sampleBody sampleSeries).series5min = some sampleSeries ∧
      (∃ p0 p1, getPoint sampleSeries (some "2025-11-02 10:00:00") = some p0 ∧
        getPoint sampleSeries (some "2025-11-02 09:55:00") = some p1 ∧
        ("2025-11-02 10:00:00", p0) ∈ sampleSeries ∧
        ("2025-11-02 09:55:00", p1) ∈ sampleSeries ∧
        summarize (fun _ => "") "TCS.BSE" (sampleBody sampleSeries) = .ok
          { symbol := "TCS.BSE"
            price := toFixed (fun _ => "") (parseFloat p0.close4) 2
            change := calculateChange (fun _ => "") (parseFloat p0.close4)
              (some (parseFloat p1.close4))
            time := formatTime (some "2025-11-02 10:00:00")
            error := none }) ∧
      summaryEntry (fun _ => "") (some "demo") (fun _ => .resolved (sampleBody sampleSeries))
          "TCS.BSE"
        = { symbol := "TCS.BSE", price := "100.00", change := "+5.26%", time := "10:00",
            error := none } :=
  ⟨rfl, (summary_latest_previous (fun _ => "") "TCS.BSE" (sampleBody sampleSeries)
    sampleSeries rfl).1 _ _ [] (by decide) (by decide), by decide!⟩

/-- C9, counterexample. In the series {"10:00": close 100, "": close 95} the key at
index 1 of the descending sequence is the empty string; the previous point is then
the point at index 0 again, and the change is "+0.00%", not the "+5.26%" of the close
100 against the close 95 stored at index 1. -/
theorem summary_previous_empty_key :
    (jsSort (objectKeys emptyKeySeries)).reverse = ["10:00", ""] ∧
      getPoint emptyKeySeries (some "") = some (closeOnly "95") ∧
      summaryEntry (fun _ => "") (some "demo")
          (fun _ => .resolved (sampleBody emptyKeySeries)) "A.BSE"
        = { symbol := "A.BSE", price := "100.00", change := "+0.00%", time := "10:00",
            error := none } ∧
      calculateChange (fun _ => "") (parseFloat (some "100")) (some (parseFloat (some "95")))
        = "+5.26%" := by
  decide!

theorem summaryEntry_congr (big : ℚ → String) (key : Option String)
    (upstream upstream' : Upstream) (symbol : String)
    (h : upstream' { summaryParams symbol with apikey := key }
      = upstream { summaryParams symbol with apikey := key }) :
    summaryEntry big key upstream' symbol = summaryEntry big key upstream symbol := by
  unfold summaryEntry fetchAlphaVantageData
  rw [h]

theorem summaryEntry_rate_limited (big : ℚ → String) (key : Option String)
    (upstream : Upstream) (symbol : String) (data : ResponseData)
    (hresp : upstream { summaryParams symbol with apikey := key } = .resolved data)
    (herr : truthyStr data.errorMessage = false) (hnote : truthyStr data.note = true) :
    summaryEntry big key upstream symbol
      = { symbol := symbol, price := "N/A", change := "N/A", time := "N/A",
          error := some "API rate limit exceeded. Please try again later." } := by
  unfold summaryEntry fetchAlphaVantageData
  rw [hresp]
  simp only [herr, hnote, if_true, Bool.false_eq_true, if_false]
  rfl

/-- C10. When the upstream body for one symbol carries the quota notice and no error
message, the `/summary` entry of that symbol is the rate-limit record, and every other
entry is the one the handler produces against any upstream that answers the other
symbols alike, whatever it answers for that symbol. -/
theorem summary_rate_limit_frame (big : ℚ → String) (key : Option String)
    (upstream upstream' : Upstream) (symbols : List String) (limited : String)
    (data : ResponseData) (hkey : truthyStr key = true)
    (hresp : upstream { summaryParams limited with apikey := key } = .resolved data)
    (herr : truthyStr data.errorMessage = false) (hnote : truthyStr data.note = true)
    (hsame : ∀ other : String, other ≠ limited →
      upstream' { summaryParams other with apikey := key }
        = upstream { summaryParams other with apikey := key }) :
    (summaryHandler big key upstream symbols).reply
        = .ok (symbols.map fun symbol =>
            if symbol = limited then
              { symbol := limited, price := "N/A", change := "N/A", time := "N/A",
                error := some "API rate limit exceeded. Please try again later." }
            else summaryEntry big key upstream' symbol) ∧
      (summaryHandler big key upstream' symbols).reply
        = .ok (symbols.map (summaryEntry big key upstream')) := by
  rw [summaryHandler_reply big key upstream symbols hkey,
    summaryHandler_reply big key upstream' symbols hkey]
  refine ⟨?_, rfl⟩
  congr 1
  apply List.map_congr_left
  intro symbol _
  by_cases hs : symbol = limited
  · subst hs
    simp only [if_true]
    exact summaryEntry_rate_limited big key upstream symbol data hresp herr hnote
  · simp only [hs, if_false]
    exact (summaryEntry_congr big key upstream upstream' symbol (hsame symbol hs)).symm

theorem summary_rate_limit_frame_witness :
    truthyStr (some "demo") = true ∧
      quotaUpstream "TCS.BSE" { summaryParams "TCS.BSE" with apikey := some "demo" }
        = .resolved noteBody ∧
      truthyStr noteBody.errorMessage = false ∧ truthyStr noteBody.note = true ∧
      (summaryHandler (fun _ => "") (some "demo") (quotaUpstream "TCS.BSE") TOP_STOCKS).reply
        = .ok (TOP_STOCKS.map fun symbol =>
            if symbol = "TCS.BSE" then
              { symbol := "TCS.BSE", price := "N/A", change := "N/A", time := "N/A",
                error := some "API rate limit exceeded. Please try again later." }
            else summaryEntry (fun _ => "") (some "demo")
              (fun _ => .resolved (sampleBody sampleSeries)) symbol) :=
  ⟨by decide, by decide, by decide, by decide,
    (summary_rate_limit_frame (fun _ => "") (some "demo") (quotaUpstream "TCS.BSE")
      (fun _ => .resolved (sampleBody sampleSeries)) TOP_STOCKS "TCS.BSE" noteBody
      (by decide) (by decide) (by decide) (by decide)
      (fun other hne => by simp [quotaUpstream, summaryParams, hne])).1⟩

theorem fetch_of_resolved (key : Option String) (upstream : Upstream) (params : Request)
    (data : ResponseData) (hresp : upstream { params with apikey := key } = .resolved data) :
    fetchAlphaVantageData key upstream params =
      if truthyStr data.errorMessage then .error (data.errorMessage.getD "")
      else if truthyStr data.note then .error "API rate limit exceeded. Please try again later."
      else .ok data := by
  unfold fetchAlphaVantageData
  rw [hresp]

theorem fetch_of_rejected (key : Option String) (upstream : Upstream) (params : Request)
    (message : String) (hresp : upstream { params with apikey := key } = .rejected message) :
    fetchAlphaVantageData key upstream params = .error message := by
  unfold fetchAlphaVantageData
  rw [hresp]

theorem truthyStr_some (message : String) (h : message ≠ "") :
    truthyStr (some message) = true := by
  simp [truthyStr, h]

/-- C11 (as the code has it). For a resolved upstream call, `fetchAlphaVantageData`
fails with the provider's message whenever the body has a non-empty error message,
also when the quota notice is present too; it fails with the rate-limit message when
the quota notice is present and no error message is; it returns the body unchanged
when neither is present. -/
theorem fetch_classification (key : Option String) (upstream : Upstream) (params : Request)
    (data : ResponseData) (hresp : upstream { params with apikey := key } = .resolved data) :
    (∀ message, data.errorMessage = some message → message ≠ "" →
      fetchAlphaVantageData key upstream params = .error message) ∧
    (truthyStr data.errorMessage = false → truthyStr data.note = true →
      fetchAlphaVantageData key upstream params
        = .error "API rate limit exceeded. Please try again later.") ∧
    (truthyStr data.errorMessage = false → truthyStr data.note = false →
      fetchAlphaVantageData key upstream params = .ok data) := by
  rw [fetch_of_resolved key upstream params data hresp]
  refine ⟨?_, ?_, ?_⟩
  · intro message hm hne
    rw [hm, truthyStr_some message hne]
    rfl
  · intro h1 h2
    simp [h1, h2]
  · intro h1 h2
    simp [h1, h2]

theorem fetch_classification_witness :
    (fun _ => AxiosResult.resolved noteBody : Upstream)
        { liveParams "TCS.BSE" with apikey := some "demo" } = .resolved noteBody ∧
      fetchAlphaVantageData (some "demo") (fun _ => .resolved noteBody) (liveParams "TCS.BSE")
        = .error "API rate limit exceeded. Please try again later." :=
  ⟨rfl, (fetch_classification (some "demo") (fun _ => .resolved noteBody)
    (liveParams "TCS.BSE") noteBody rfl).2.1 (by decide) (by decide)⟩

/-- C11, counterexample. A body with both the error message and the quota notice
fails with the provider's message, not with the rate-limit message. -/
theorem fetch_error_before_note :
    truthyStr errorAndNoteBody.note = true ∧
      fetchAlphaVantageData (some "demo") (fun _ => .resolved errorAndNoteBody)
        (liveParams "TCS.BSE") = .error "Invalid API call." ∧
      fetchAlphaVantageData (some "demo") (fun _ => .resolved errorAndNoteBody)
        (liveParams "TCS.BSE") ≠ .error "API rate limit exceeded. Please try again later." := by
  refine ⟨by decide, rfl, ?_⟩
  intro h
  have h' : Except.error (ε := String) (α := ResponseData) "Invalid API call."
      = .error "API rate limit exceeded. Please try again later." := h
  injection h' with h'
  revert h'
  decide

theorem liveHandler_failure (big : ℚ → String) (key : Option String) (upstream : Upstream)
    (symbol : String) (hsym : symbol ≠ "") (hkey : truthyStr key = true) :
    (∀ message, fetchAlphaVantageData key upstream (liveParams symbol) = .error message →
      (liveHandler big key upstream (some symbol)).reply
        = .fail 500 "Error fetching live stock data" (some message)) ∧
    (∀ data, fetchAlphaVantageData key upstream (liveParams symbol) = .ok data →
      data.series5min = none →
      (liveHandler big key upstream (some symbol)).reply
        = .fail 404 "No data available for this symbol" none) := by
  constructor
  · intro message h
    simp only [liveHandler, hsym, hkey, h, if_false, Bool.not_true, Bool.false_eq_true]
  · intro data h hnone
    simp only [liveHandler, hsym, hkey, h, hnone, if_false, Bool.not_true, Bool.false_eq_true]

theorem dailyHandler_failure (big : ℚ → String) (key : Option String) (upstream : Upstream)
    (symbol : String) (hsym : symbol ≠ "") (hkey : truthyStr key = true) :
    (∀ message, fetchAlphaVantageData key upstream (dailyParams symbol) = .error message →
      (dailyHandler big key upstream (some symbol)).reply
        = .fail 500 "Error fetching daily stock data" (some message)) ∧
    (∀ data, fetchAlphaVantageData key upstream (dailyParams symbol) = .ok data →
      data.seriesDaily = none →
      (dailyHandler big key upstream (some symbol)).reply
        = .fail 404 "No data available for this symbol" none) := by
  constructor
  · intro message h
    simp only [dailyHandler, hsym, hkey, h, if_false, Bool.not_true, Bool.false_eq_true]
  · intro data h hnone
    simp only [dailyHandler, hsym, hkey, h, hnone, if_false, Bool.not_true, Bool.false_eq_true]

theorem historyHandler_failure (big : ℚ → String) (key : Option String) (upstream : Upstream)
    (symbol : String) (month : Option String) (hsym : symbol ≠ "")
    (hkey : truthyStr key = true) :
    (∀ message,
      fetchAlphaVantageData key upstream (historyParams symbol month) = .error message →
      (historyHandler big key upstream (some symbol) month).reply
        = .fail 500 "Error fetching stock history" (some message)) ∧
    (∀ data, fetchAlphaVantageData key upstream (historyParams symbol month) = .ok data →
      data.series5min = none →
      (historyHandler big key upstream (some symbol) month).reply
        = .fail 404 "No data available for this symbol" none) := by
  constructor
  · intro message h
    simp only [historyHandler, hsym, hkey, h, if_false, Bool.not_true, Bool.false_eq_true]
  · intro data h hnone
    simp only [historyHandler, hsym, hkey, h, hnone, if_false, Bool.not_true,
      Bool.false_eq_true]

/-- From the two failure replies of a handler, stated on the result of
`fetchAlphaVantageData`, to the table of `SurfacesFailures`, stated on the answer of
the upstream. -/
theorem surfaces_of_fetch {α : Type} (reply : Reply α) (key : Option String)
    (upstream : Upstream) (params : Request) (series : ResponseData → Option Series)
    (failure : String)
    (herr : ∀ message, fetchAlphaVantageData key upstream params = .error message →
      reply = .fail 500 failure (some message))
    (hnone : ∀ data, fetchAlphaVantageData key upstream params = .ok data →
      series data = none → reply = .fail 404 "No data available for this symbol" none) :
    SurfacesFailures reply (upstream { params with apikey := key }) series failure := by
  refine ⟨?_, ?_, ?_, ?_⟩
  · intro message h
    exact herr message (fetch_of_rejected key upstream params message h)
  · intro data message h hm hne
    apply herr message
    rw [fetch_of_resolved key upstream params data h, hm, truthyStr_some message hne]
    rfl
  · intro data h h1 h2
    apply herr
    rw [fetch_of_resolved key upstream params data h]
    simp [h1, h2]
  · intro data h h1 h2 hs
    apply hnone data _ hs
    rw [fetch_of_resolved key upstream params data h]
    simp [h1, h2]

theorem liveHandler_status (big : ℚ → String) (key : Option String) (upstream : Upstream)
    (symbol : Option String) :
    (liveHandler big key upstream symbol).reply.status ∈ [200, 400, 404, 500] := by
  cases symbol with
  | none => simp [liveHandler, missingSymbol, Reply.status]
  | some s =>
    by_cases hs : s = ""
    · simp [liveHandler, hs, missingSymbol, Reply.status]
    · cases hk : truthyStr key
      · simp [liveHandler, hs, hk, missingKey, Reply.status]
      · cases hf : fetchAlphaVantageData key upstream (liveParams s) with
        | error m => simp [liveHandler, hs, hk, hf, Reply.status]
        | ok data =>
          cases hd : data.series5min with
          | none => simp [liveHandler, hs, hk, hf, hd, Reply.status]
          | some ts =>
            cases hg : getPoint ts (jsSort (objectKeys ts)).reverse[0]? <;>
              simp [liveHandler, hs, hk, hf, hd, hg, Reply.status]

theorem dailyHandler_status (big : ℚ → String) (key : Option String) (upstream : Upstream)
    (symbol : Option String) :
    (dailyHandler big key upstream symbol).reply.status ∈ [200, 400, 404, 500] := by
  cases symbol with
  | none => simp [dailyHandler, missingSymbol, Reply.status]
  | some s =>
    by_cases hs : s = ""
    · simp [dailyHandler, hs, missingSymbol, Reply.status]
    · cases hk : truthyStr key
      · simp [dailyHandler, hs, hk, missingKey, Reply.status]
      · cases hf : fetchAlphaVantageData key upstream (dailyParams s) with
        | error m => simp [dailyHandler, hs, hk, hf, Reply.status]
        | ok data =>
          cases hd : data.seriesDaily with
          | none => simp [dailyHandler, hs, hk, hf, hd, Reply.status]
          | some ts =>
            cases hg : ((jsSort (objectKeys ts)).reverse.take 5).mapM (dailyPoint big ts) <;>
              simp only [dailyHandler, hs, hk, hf, hd, hg, if_false, Bool.not_true,
                Bool.false_eq_true] <;>
              simp [Reply.status]

theorem historyHandler_status (big : ℚ → String) (key : Option String) (upstream : Upstream)
    (symbol month : Option String) :
    (historyHandler big key upstream symbol month).reply.status ∈ [200, 400, 404, 500] := by
  cases symbol with
  | none => simp [historyHandler, missingSymbol, Reply.status]
  | some s =>
    by_cases hs : s = ""
    · simp [historyHandler, hs, missingSymbol, Reply.status]
    · cases hk : truthyStr key
      · simp [historyHandler, hs, hk, missingKey, Reply.status]
      · cases hf : fetchAlphaVantageData key upstream (historyParams s month) with
        | error m => simp [historyHandler, hs, hk, hf, Reply.status]
        | ok data =>
          cases hd : data.series5min with
          | none => simp [historyHandler, hs, hk, hf, hd, Reply.status]
          | some ts =>
            cases hg : ((jsSort (objectKeys ts)).reverse.take 10).mapM
                (historyPoint big ts) <;>
              simp only [historyHandler, hs, hk, hf, hd, hg, if_false, Bool.not_true,
                Bool.false_eq_true] <;>
              simp [Reply.status]

/-- C12 (as the code has it). Called with a symbol and a configured key, each of
`/live`, `/daily` and `/history` answers a rejected upstream call, a provider error
message and a quota notice with status 500, its own failure message and the cause in
`error`, and a body without the expected series with status 404; no failure gives
status 429. -/
theorem single_symbol_error_status (big : ℚ → String) (key : Option String)
    (upstream : Upstream) (symbol : String) (month : Option String)
    (hsym : symbol ≠ "") (hkey : truthyStr key = true) :
    SurfacesFailures (liveHandler big key upstream (some symbol)).reply
        (upstream { liveParams symbol with apikey := key })
        (fun data => data.series5min) "Error fetching live stock data" ∧
      SurfacesFailures (dailyHandler big key upstream (some symbol)).reply
        (upstream { dailyParams symbol with apikey := key })
        (fun data => data.seriesDaily) "Error fetching daily stock data" ∧
      SurfacesFailures (historyHandler big key upstream (some symbol) month).reply
        (upstream { historyParams symbol month with apikey := key })
        (fun data => data.series5min) "Error fetching stock history" ∧
      (liveHandler big key upstream (some symbol)).reply.status ≠ 429 ∧
      (dailyHandler big key upstream (some symbol)).reply.status ≠ 429 ∧
      (historyHandler big key upstream (some symbol) month).reply.status ≠ 429 := by
  have h429 : ∀ n : Nat, n ∈ [200, 400, 404, 500] → n ≠ 429 := by
    intro n hn h
    subst h
    simp at hn
  refine ⟨?_, ?_, ?_, h429 _ (liveHandler_status big key upstream _),
    h429 _ (dailyHandler_status big key upstream _),
    h429 _ (historyHandler_status big key upstream _ month)⟩
  · exact surfaces_of_fetch _ key upstream _ _ _
      (liveHandler_failure big key upstream symbol hsym hkey).1
      (liveHandler_failure big key upstream symbol hsym hkey).2
  · exact surfaces_of_fetch _ key upstream _ _ _
      (dailyHandler_failure big key upstream symbol hsym hkey).1
      (dailyHandler_failure big key upstream symbol hsym hkey).2
  · exact surfaces_of_fetch _ key upstream _ _ _
      (historyHandler_failure big key upstream symbol month hsym hkey).1
      (historyHandler_failure big key upstream symbol month hsym hkey).2

theorem single_symbol_error_status_witness :
    "TCS.BSE" ≠ "" ∧ truthyStr (some "demo") = true ∧
      (liveHandler (fun _ => "") (some "demo") (fun _ => .resolved noteBody)
          (some "TCS.BSE")).reply
        = .fail 500 "Error fetching live stock data"
            (some "API rate limit exceeded. Please try again later.") :=
  ⟨by decide, by decide,
    (single_symbol_error_status (fun _ => "") (some "demo") (fun _ => .resolved noteBody)
      "TCS.BSE" none (by decide) (by decide)).1.2.2.1 noteBody rfl (by decide) (by decide)⟩

/-- C12, counterexample. An upstream that answers with the quota notice makes
`/live`, `/daily` and `/history` reply with status 500, not 429. -/
theorem rate_limited_status_500 :
    (liveHandler (fun _ => "") (some "demo") (fun _ => .resolved noteBody)
        (some "TCS.BSE")).reply
      = .fail 500 "Error fetching live stock data"
          (some "API rate limit exceeded. Please try again later.") ∧
    (dailyHandler (fun _ => "") (some "demo") (fun _ => .resolved noteBody)
        (some "TCS.BSE")).reply
      = .fail 500 "Error fetching daily stock data"
          (some "API rate limit exceeded. Please try again later.") ∧
    (historyHandler (fun _ => "") (some "demo") (fun _ => .resolved noteBody)
        (some "TCS.BSE") none).reply
      = .fail 500 "Error fetching stock history"
          (some "API rate limit exceeded. Please try again later.") := by
  decide

/-- C13. When the symbol parameter is missing or empty, each of `/live`, `/daily`
and `/history` replies with status 400 and the message "Please provide a symbol
parameter" and issues no upstream request, whatever the key, the upstream and the
month are. -/
theorem missing_symbol_rejected (big : ℚ → String) (key : Option String)
    (upstream : Upstream) (symbol month : Option String) (hsym : truthyStr symbol = false) :
    liveHandler big key upstream symbol
        = { reply := .fail 400 "Please provide a symbol parameter" none, calls := [] } ∧
      dailyHandler big key upstream symbol
        = { reply := .fail 400 "Please provide a symbol parameter" none, calls := [] } ∧
      historyHandler big key upstream symbol month
        = { reply := .fail 400 "Please provide a symbol parameter" none, calls := [] } := by
  cases symbol with
  | none => exact ⟨rfl, rfl, rfl⟩
  | some s =>
    have hs : s = "" := by simpa [truthyStr] using hsym
    subst hs
    exact ⟨rfl, rfl, rfl⟩

theorem missing_symbol_rejected_witness :
    truthyStr (some "") = false ∧
      liveHandler (fun _ => "") (some "demo") (fun _ => .resolved (sampleBody sampleSeries))
          (some "")
        = { reply := .fail 400 "Please provide a symbol parameter" none, calls := [] } :=
  ⟨by decide,
    (missing_symbol_rejected (fun _ => "") (some "demo")
      (fun _ => .resolved (sampleBody sampleSeries)) (some "") none (by decide)).1⟩

/-- C14 (as the code has it). When the API key is not configured, `/summary`, and
each of `/live`, `/daily` and `/history` called with a symbol, reply with status 500
and the message "Alpha Vantage API key is not configured" and issue no upstream
request. -/
theorem missing_key_rejected (big : ℚ → String) (key : Option String) (upstream : Upstream)
    (symbols : List String) (symbol : String) (month : Option String)
    (hkey : truthyStr key = false) (hsym : symbol ≠ "") :
    summaryHandler big key upstream symbols
        = { reply := .fail 500 "Alpha Vantage API key is not configured" none, calls := [] } ∧
      liveHandler big key upstream (some symbol)
        = { reply := .fail 500 "Alpha Vantage API key is not configured" none, calls := [] } ∧
      dailyHandler big key upstream (some symbol)
        = { reply := .fail 500 "Alpha Vantage API key is not configured" none, calls := [] } ∧
      historyHandler big key upstream (some symbol) month
        = { reply := .fail 500 "Alpha Vantage API key is not configured" none,
            calls := [] } := by
  refine ⟨?_, ?_, ?_, ?_⟩
  · simp [summaryHandler, hkey]
  · simp [liveHandler, hsym, hkey, missingKey]
  · simp [dailyHandler, hsym, hkey, missingKey]
  · simp [historyHandler, hsym, hkey, missingKey]

theorem missing_key_rejected_witness :
    truthyStr none = false ∧ "TCS.BSE" ≠ "" ∧
      summaryHandler (fun _ => "") none (fun _ => .resolved (sampleBody sampleSeries))
          TOP_STOCKS
        = { reply := .fail 500 "Alpha Vantage API key is not configured" none, calls := [] } :=
  ⟨by decide, by decide,
    (missing_key_rejected (fun _ => "") none (fun _ => .resolved (sampleBody sampleSeries))
      TOP_STOCKS "TCS.BSE" none (by decide) (by decide)).1⟩

/-- C14, counterexample. Without a key and without a symbol, `/live`, `/daily` and
`/history` reply with status 400, not 500. -/
theorem missing_key_without_symbol_400 :
    (liveHandler (fun _ => "") none (fun _ => .resolved (sampleBody sampleSeries)) none).reply
      = .fail 400 "Please provide a symbol parameter" none ∧
    (dailyHandler (fun _ => "") none (fun _ => .resolved (sampleBody sampleSeries)) none).reply
      = .fail 400 "Please provide a symbol parameter" none ∧
    (historyHandler (fun _ => "") none (fun _ => .resolved (sampleBody sampleSeries))
        none none).reply
      = .fail 400 "Please provide a symbol parameter" none := by
  decide

theorem fixedDigits_two_ne_NA (n : Nat) (sign : String) (hsign : sign = "" ∨ sign = "-") :
    sign ++ fixedDigits n 2 ≠ "N/A" := by
  rw [fixedDigits_two]
  intro h
  have hd := congrArg String.data h
  have hlen := congrArg List.length hd
  have hpos := toDigits_length_pos (n / 100)
  rcases hsign with hs | hs
  · subst hs
    simp at hlen
    rw [hlen] at hpos
    simp at hpos
  · subst hs
    simp only [String.data_append, List.length_append, List.length_cons, List.length_nil] at hlen
    have h3 : "N/A".data.length = 3 := by decide
    have h1 : "-".data.length = 1 := by decide
    omega

theorem toFixed_ne_NA (big : ℚ → String) (hbig : ∀ q, big q ≠ "N/A") (x : JSNum) :
    toFixed big x 2 ≠ "N/A" := by
  cases x with
  | nan => simp [toFixed]
  | posInf => simp [toFixed]
  | negInf => simp [toFixed]
  | fin q =>
    simp only [toFixed]
    by_cases hq : q < 0
    · simp only [hq, if_true]
      split
      · intro h
        have hd := congrArg String.data h
        simp at hd
      · exact fixedDigits_two_ne_NA _ "-" (Or.inr rfl)
    · simp only [hq, if_false]
      split
      · intro h
        apply hbig |q|
        rw [← h]
        simp
      · exact fixedDigits_two_ne_NA _ "" (Or.inl rfl)

theorem calculateChange_ne_NA (big : ℚ → String) (x : JSNum) (y : Option JSNum) :
    calculateChange big x y ≠ "N/A" := by
  unfold calculateChange
  split
  · decide
  · split
    · decide
    · intro h
      have hd := congrArg (fun t => t.data.reverse) h
      simp at hd

theorem matchTime_some : ∀ (l : List Char) (m : String), matchTime l = some m →
    m.length = 5 := by
  intro l
  induction l with
  | nil => intro m h; simp [matchTime] at h
  | cons a rest ih =>
    intro m h
    unfold matchTime at h
    split at h
    · split at h
      · cases h; rfl
      · exact ih m h
    · exact ih m h

theorem formatTime_ne_NA (k : String) (h1 : k ≠ "") (h2 : k ≠ "N/A") :
    formatTime (some k) ≠ "N/A" := by
  simp only [formatTime, h1, if_false]
  split
  · rename_i m hm
    intro h
    have := matchTime_some _ m hm
    rw [h] at this
    simp [String.length] at this
  · exact h2

theorem fetch_ok_resolved (key : Option String) (upstream : Upstream) (params : Request)
    (data : ResponseData) (h : fetchAlphaVantageData key upstream params = .ok data) :
    upstream { params with apikey := key } = .resolved data := by
  unfold fetchAlphaVantageData at h
  split at h
  · cases h
  · rename_i d hd
    split at h
    · cases h
    · split at h
      · cases h
      · cases h; exact hd

theorem errorEntry_shaped (symbol message : String) : (errorEntry symbol message).Shaped :=
  Or.inl ⟨by simp [errorEntry], rfl, rfl, rfl⟩

theorem keys_nil_of_sorted_nil (timeSeries : Series)
    (h : (jsSort (objectKeys timeSeries)).reverse = []) : timeSeries = [] := by
  have hp := (sorted_reverse_perm (objectKeys timeSeries)).length_eq
  rw [h] at hp
  simp only [List.length_nil, objectKeys, List.length_map] at hp
  exact List.length_eq_zero.mp hp.symm

theorem summarize_shaped (big : ℚ → String) (hbig : ∀ q, big q ≠ "N/A") (symbol : String)
    (data : ResponseData)
    (hkeys : ∀ ts k0 rest, data.series5min = some ts →
      (jsSort (objectKeys ts)).reverse = k0 :: rest → k0 ≠ "" ∧ k0 ≠ "N/A")
    (e : SummaryEntry) (h : summarize big symbol data = .ok e) : e.Shaped := by
  cases hts : data.series5min with
  | none =>
    simp only [summarize, hts] at h
    cases h
    exact errorEntry_shaped symbol _
  | some ts =>
    cases hl : (jsSort (objectKeys ts)).reverse with
    | nil =>
      have hnil := keys_nil_of_sorted_nil ts hl
      subst hnil
      simp [summarize, hts, getPoint, objectKeys, jsSort] at h
    | cons k0 rest =>
      obtain ⟨hne, hna⟩ := hkeys ts k0 rest hts hl
      simp only [summarize, hts, hl] at h
      split at h
      · cases h
      · split at h
        · cases h
        · cases h
          refine Or.inr ⟨rfl, ?_, ?_, ?_⟩
          · exact toFixed_ne_NA big hbig _
          · dsimp only
            exact calculateChange_ne_NA big _ _
          · simpa using formatTime_ne_NA k0 hne hna

theorem summaryEntry_shaped (big : ℚ → String) (hbig : ∀ q, big q ≠ "N/A")
    (key : Option String) (upstream : Upstream) (symbol : String)
    (hkeys : ∀ data ts k0 rest,
      upstream { summaryParams symbol with apikey := key } = .resolved data →
      data.series5min = some ts → (jsSort (objectKeys ts)).reverse = k0 :: rest →
      k0 ≠ "" ∧ k0 ≠ "N/A") :
    (summaryEntry big key upstream symbol).Shaped := by
  unfold summaryEntry
  cases hf : fetchAlphaVantageData key upstream (summaryParams symbol) with
  | error m => exact errorEntry_shaped symbol m
  | ok data =>
    show (match summarize big symbol data with
      | .ok entry => entry
      | .error message => errorEntry symbol message).Shaped
    cases hs : summarize big symbol data with
    | error m => exact errorEntry_shaped symbol m
    | ok entry =>
      exact summarize_shaped big hbig symbol data
        (fun ts k0 rest => hkeys data ts k0 rest (fetch_ok_resolved key upstream _ data hf))
        entry hs

theorem summaryEntry_of_error (big : ℚ → String) (key : Option String) (upstream : Upstream)
    (symbol message : String)
    (h : fetchAlphaVantageData key upstream (summaryParams symbol) = .error message) :
    summaryEntry big key upstream symbol = errorEntry symbol message := by
  unfold summaryEntry
  rw [h]
  rfl

/-- C15 (as the code has it). With a configured key the data list of `/summary`
holds the entry of each symbol, and every entry is fully error-shaped or fully
success-shaped, provided the latest (greatest) key of every returned series is
neither the empty string nor the marker "N/A" itself, and the number printer never
prints "N/A"; a rejected call, a provider error message and a quota notice give the
error-shaped entry with the symbol and the failure's message, a body without the
series gives it with "No data available". -/
theorem summary_entries_shaped (big : ℚ → String) (key : Option String) (upstream : Upstream)
    (symbols : List String) (hkey : truthyStr key = true) (hbig : ∀ q, big q ≠ "N/A")
    (hkeys : ∀ symbol ∈ symbols, ∀ data ts k0 rest,
      upstream { summaryParams symbol with apikey := key } = .resolved data →
      data.series5min = some ts → (jsSort (objectKeys ts)).reverse = k0 :: rest →
      k0 ≠ "" ∧ k0 ≠ "N/A") :
    (summaryHandler big key upstream symbols).reply
        = .ok (symbols.map (summaryEntry big key upstream)) ∧
      (∀ e ∈ symbols.map (summaryEntry big key upstream), e.Shaped) ∧
      (∀ symbol message, upstream { summaryParams symbol with apikey := key }
          = .rejected message →
        summaryEntry big key upstream symbol
          = { symbol := symbol, price := "N/A", change := "N/A", time := "N/A",
              error := some message }) ∧
      (∀ symbol data message, upstream { summaryParams symbol with apikey := key }
          = .resolved data → data.errorMessage = some message → message ≠ "" →
        summaryEntry big key upstream symbol
          = { symbol := symbol, price := "N/A", change := "N/A", time := "N/A",
              error := some message }) ∧
      (∀ symbol data, upstream { summaryParams symbol with apikey := key }
          = .resolved data → truthyStr data.errorMessage = false →
        truthyStr data.note = true →
        summaryEntry big key upstream symbol
          = { symbol := symbol, price := "N/A", change := "N/A", time := "N/A",
              error := some "API rate limit exceeded. Please try again later." }) ∧
      (∀ symbol data, upstream { summaryParams symbol with apikey := key }
          = .resolved data → truthyStr data.errorMessage = false →
        truthyStr data.note = false → data.series5min = none →
        summaryEntry big key upstream symbol
          = { symbol := symbol, price := "N/A", change := "N/A", time := "N/A",
              error := some "No data available" }) := by
  refine ⟨summaryHandler_reply big key upstream symbols hkey, ?_, ?_, ?_, ?_, ?_⟩
  · intro e he
    obtain ⟨symbol, hs, rfl⟩ := List.mem_map.mp he
    exact summaryEntry_shaped big hbig key upstream symbol (hkeys symbol hs)
  · intro symbol message h
    exact summaryEntry_of_error big key upstream symbol message
      (fetch_of_rejected key upstream _ message h)
  · intro symbol data message h hm hne
    apply summaryEntry_of_error
    rw [fetch_of_resolved key upstream _ data h, hm, truthyStr_some message hne]
    rfl
  · intro symbol data h h1 h2
    apply summaryEntry_of_error
    rw [fetch_of_resolved key upstream _ data h]
    simp [h1, h2]
  · intro symbol data h h1 h2 hnone
    have hf : fetchAlphaVantageData key upstream (summaryParams symbol) = .ok data := by
      rw [fetch_of_resolved key upstream _ data h]
      simp [h1, h2]
    exact summaryEntry_of_fetch big key upstream symbol data _ hf
      (by simp [summarize, hnone, errorEntry])

theorem summary_entries_shaped_witness :
    truthyStr (some "demo") = true ∧
      (∀ e ∈ TOP_STOCKS.map (summaryEntry (fun _ => "") (some "demo") (quotaUpstream "TCS.BSE")),
        e.Shaped) ∧
      TOP_STOCKS.map (summaryEntry (fun _ => "") (some "demo") (quotaUpstream "TCS.BSE"))
        = [{ symbol := "RELIANCE.BSE", price := "100.00", change := "+5.26%", time := "10:00",
             error := none },
           { symbol := "TCS.BSE", price := "N/A", change := "N/A", time := "N/A",
             error := some "API rate limit exceeded. Please try again later." },
           { symbol := "INFY.BSE", price := "100.00", change := "+5.26%", time := "10:00",
             error := none },
           { symbol := "HDFCBANK.BSE", price := "100.00", change := "+5.26%", time := "10:00",
             error := none },
           { symbol := "SBIN.BSE", price := "100.00", change := "+5.26%", time := "10:00",
             error := none }] :=
  ⟨by decide,
    (summary_entries_shaped (fun _ => "") (some "demo") (quotaUpstream "TCS.BSE") TOP_STOCKS
      (by decide) (fun _ => by show "" ≠ "N/A"; decide)
      (fun symbol _ data ts k0 rest hres hts hl => by
        simp only [quotaUpstream, summaryParams] at hres
        split at hres
        · cases hres
          simp [noteBody] at hts
        · cases hres
          simp only [sampleBody, Option.some.injEq] at hts
          subst hts
          have e : (jsSort (objectKeys sampleSeries)).reverse
              = ["2025-11-02 10:00:00", "2025-11-02 09:55:00"] := by decide
          rw [e] at hl
          injection hl with h0 _
          subst h0
          decide)).2.1,
    by decide!⟩

/-- C15, counterexample. A series of one point stored under the empty key gives an
entry without an error field whose price and change are numbers and whose time is
"N/A": neither fully success-shaped nor fully error-shaped. -/
theorem summary_entry_empty_key_time :
    summaryEntry (fun _ => "") (some "demo")
        (fun _ => .resolved (sampleBody emptyKeyPoint)) "TCS.BSE"
      = { symbol := "TCS.BSE", price := "100.00", change := "+0.00%", time := "N/A",
          error := none } ∧
    ¬ (summaryEntry (fun _ => "") (some "demo")
        (fun _ => .resolved (sampleBody emptyKeyPoint)) "TCS.BSE").Shaped := by
  have h : summaryEntry (fun _ => "") (some "demo")
      (fun _ => .resolved (sampleBody emptyKeyPoint)) "TCS.BSE"
      = { symbol := "TCS.BSE", price := "100.00", change := "+0.00%", time := "N/A",
          error := none } := by decide!
  refine ⟨h, ?_⟩
  rw [h]
  unfold SummaryEntry.Shaped
  decide

theorem example_entry (big : ℚ → String) :
    summarize big "A.BSE" exampleBody = .ok
      { symbol := "A.BSE", price := "100.00", change := "+5.26%", time := "10:00",
        error := none } := by
  have hl : (jsSort (objectKeys exampleSeries)).reverse = ["10:00", "09:55"] := by decide
  obtain ⟨p0, p1, g0, g1, _, _, h⟩ :=
    summarize_two big "A.BSE" exampleBody exampleSeries "10:00" "09:55" [] rfl hl (by decide)
  have v0 : getPoint exampleSeries (some "10:00") = some (closeOnly "100") := by decide
  have v1 : getPoint exampleSeries (some "09:55") = some (closeOnly "95") := by decide
  have e0 : p0 = closeOnly "100" := Option.some.inj (g0.symm.trans v0)
  have e1 : p1 = closeOnly "95" := Option.some.inj (g1.symm.trans v1)
  subst e0 e1
  rw [h]
  have c0 : parseFloat (closeOnly "100").close4 = fin 100 := by decide!
  have c1 : parseFloat (closeOnly "95").close4 = fin 95 := by decide!
  have hprice : toFixed big (fin 100) 2 = "100.00" := by
    rw [toFixed_congr big (fun _ => "") _ 2 (by decide!)]
    decide!
  have hchange : calculateChange big (fin 100) (some (fin 95)) = "+5.26%" := by
    rw [calculateChange_congr big (fun _ => "") 100 95 (by decide!)]
    decide!
  have htime : formatTime (some "10:00") = "10:00" := by decide
  simp only [c0, c1, hprice, hchange, htime]

theorem sorted_two_of_length (timeSeries : Series) (hlen : 2 ≤ timeSeries.length) :
    ∃ k0 k1 rest, (jsSort (objectKeys timeSeries)).reverse = k0 :: k1 :: rest := by
  have hp := (sorted_reverse_perm (objectKeys timeSeries)).length_eq
  simp only [objectKeys, List.length_map] at hp
  match hl : (jsSort (List.map Prod.fst timeSeries)).reverse with
  | [] => rw [hl] at hp; simp at hp; omega
  | [_] => rw [hl] at hp; simp at hp; omega
  | k0 :: k1 :: rest => exact ⟨k0, k1, rest, rfl⟩

/-- C16 (as the code has it). For the series {"10:00": close 100, "09:55": close 95}
and the symbol "A.BSE" the entry has price "100.00", change "+5.26%" and time
"10:00".  For every series of at least two points with unique keys, with k0 its
greatest key and k1 its second greatest, the entry's price is the close under k0 to 2
decimals and its time is `formatTime` of k0; its change is `calculateChange` of the
close under k0 and the close under k1 when k1 is not the empty string, and of the
close under k0 and itself when k1 is the empty string. -/
theorem summary_entry_two_latest (big : ℚ → String) (key : Option String)
    (upstream : Upstream) (symbol : String) (data : ResponseData) (timeSeries : Series)
    (hfetch : fetchAlphaVantageData key upstream (summaryParams symbol) = .ok data)
    (hts : data.series5min = some timeSeries) (hnd : (objectKeys timeSeries).Nodup)
    (hlen : 2 ≤ timeSeries.length) :
    summaryEntry big (some "demo") (fun _ => .resolved exampleBody) "A.BSE"
        = { symbol := "A.BSE", price := "100.00", change := "+5.26%", time := "10:00",
            error := none } ∧
      ∃ k0 k1 p0 p1, (k0, p0) ∈ timeSeries ∧ (k1, p1) ∈ timeSeries ∧ sortLT k1 k0 ∧
        (∀ k ∈ objectKeys timeSeries, k ≠ k0 → sortLT k k0 ∧ (k ≠ k1 → sortLT k k1)) ∧
        (k1 ≠ "" →
          summaryEntry big key upstream symbol
            = { symbol := symbol
                price := toFixed big (parseFloat p0.close4) 2
                change := calculateChange big (parseFloat p0.close4)
                  (some (parseFloat p1.close4))
                time := formatTime (some k0)
                error := none }) ∧
        (k1 = "" →
          summaryEntry big key upstream symbol
            = { symbol := symbol
                price := toFixed big (parseFloat p0.close4) 2
                change := calculateChange big (parseFloat p0.close4)
                  (some (parseFloat p0.close4))
                time := formatTime (some k0)
                error := none }) := by
  constructor
  · exact summaryEntry_of_fetch big (some "demo") _ "A.BSE" exampleBody _ rfl
      (example_entry big)
  · obtain ⟨k0, k1, rest, hl⟩ := sorted_two_of_length timeSeries hlen
    have hdesc := sorted_reverse_desc (objectKeys timeSeries) hnd
    rw [hl] at hdesc
    have hsub := (sorted_reverse_perm (objectKeys timeSeries)).symm.subset
    rw [hl] at hsub
    obtain ⟨h0, hrest⟩ := List.pairwise_cons.mp hdesc
    obtain ⟨h1, _⟩ := List.pairwise_cons.mp hrest
    have hmem : ∀ m ∈ (jsSort (objectKeys timeSeries)).reverse, m ∈ objectKeys timeSeries :=
      fun m hm => (sorted_reverse_perm (objectKeys timeSeries)).subset hm
    rw [hl] at hmem
    obtain ⟨p0, g0, m0⟩ := lookup_of_mem_keys timeSeries k0 (hmem k0 (by simp))
    obtain ⟨p1, g1, m1⟩ := lookup_of_mem_keys timeSeries k1 (hmem k1 (by simp))
    refine ⟨k0, k1, p0, p1, m0, m1, h0 k1 (by simp), ?_, ?_, ?_⟩
    · intro k hk hne0
      have hk' := hsub hk
      simp only [List.mem_cons] at hk'
      rcases hk' with h | h | h
      · exact absurd h hne0
      · subst h
        exact ⟨h0 k (by simp), fun hne => absurd rfl hne⟩
      · exact ⟨h0 k (by simp [h]), fun _ => h1 k h⟩
    · intro hk1
      obtain ⟨q0, q1, g0', g1', _, _, hsum⟩ :=
        summarize_two big symbol data timeSeries k0 k1 rest hts hl hk1
      have e0 : q0 = p0 := Option.some.inj (g0'.symm.trans g0)
      have e1 : q1 = p1 := Option.some.inj (g1'.symm.trans g1)
      subst e0 e1
      exact summaryEntry_of_fetch big key upstream symbol data _ hfetch hsum
    · intro hk1
      subst hk1
      obtain ⟨q0, g0', _, hsum⟩ :=
        summarize_two_empty big symbol data timeSeries k0 rest hts hl
      have e0 : q0 = p0 := Option.some.inj (g0'.symm.trans g0)
      subst e0
      exact summaryEntry_of_fetch big key upstream symbol data _ hfetch hsum

theorem summary_entry_two_latest_witness :
    fetchAlphaVantageData (some "demo") (fun _ => .resolved exampleBody)
        (summaryParams "A.BSE") = .ok exampleBody ∧
      exampleBody.series5min = some exampleSeries ∧
      (objectKeys exampleSeries).Nodup ∧ 2 ≤ exampleSeries.length ∧
      summaryEntry (fun _ => "") (some "demo") (fun _ => .resolved exampleBody) "A.BSE"
        = { symbol := "A.BSE", price := "100.00", change := "+5.26%", time := "10:00",
            error := none } :=
  ⟨rfl, rfl, by decide, by decide,
    (summary_entry_two_latest (fun _ => "") (some "demo") (fun _ => .resolved exampleBody)
      "A.BSE" exampleBody exampleSeries rfl rfl (by decide) (by decide)).1⟩

/-- C16, counterexample. The series {"10:00": close 100, "": close 95} has two
points with unique keys, the greatest key "10:00" and the second greatest "", yet the
entry's change is "+0.00%", not `calculateChange` of the closes 100 and 95, which is
"+5.26%". -/
theorem summary_entry_empty_second_key :
    2 ≤ emptyKeySeries.length ∧ (objectKeys emptyKeySeries).Nodup ∧
      (jsSort (objectKeys emptyKeySeries)).reverse = ["10:00", ""] ∧
      (summaryEntry (fun _ => "") (some "demo")
          (fun _ => .resolved (sampleBody emptyKeySeries)) "A.BSE").change = "+0.00%" ∧
      calculateChange (fun _ => "") (parseFloat (closeOnly "100").close4)
          (some (parseFloat (closeOnly "95").close4)) = "+5.26%" := by
  decide!

theorem sorted_head_greatest (timeSeries : Series) (k0 : String) (rest : List String)
    (hl : (jsSort (objectKeys timeSeries)).reverse = k0 :: rest) :
    ∀ k ∈ objectKeys timeSeries, sortLE k k0 := by
  have hs : (jsSort (objectKeys timeSeries)).Pairwise sortLE :=
    List.sorted_insertionSort sortLE (objectKeys timeSeries)
  rw [← List.pairwise_reverse, hl] at hs
  have hsub := (sorted_reverse_perm (objectKeys timeSeries)).symm.subset
  rw [hl] at hsub
  intro k hk
  rcases List.mem_cons.mp (hsub hk) with h | h
  · subst h
    exact le_refl (codeUnits k)
  · exact (List.pairwise_cons.mp hs).1 k h

theorem liveHandler_latest (big : ℚ → String) (key : Option String) (upstream : Upstream)
    (symbol : String) (data : ResponseData) (timeSeries : Series)
    (hsym : symbol ≠ "") (hkey : truthyStr key = true)
    (hfetch : fetchAlphaVantageData key upstream (liveParams symbol) = .ok data)
    (hts : data.series5min = some timeSeries) (hne : timeSeries ≠ []) :
    ∃ k0 latest, (k0, latest) ∈ timeSeries ∧ getPoint timeSeries (some k0) = some latest ∧
      (∀ k ∈ objectKeys timeSeries, sortLE k k0) ∧
      (liveHandler big key upstream (some symbol)).reply
        = .ok { symbol := symbol
                price := toFixed big (parseFloat latest.close4) 2
                open_ := toFixed big (parseFloat latest.open1) 2
                high := toFixed big (parseFloat latest.high2) 2
                low := toFixed big (parseFloat latest.low3) 2
                volume := latest.volume5
                lastUpdated := some k0 } := by
  cases hl : (jsSort (objectKeys timeSeries)).reverse with
  | nil => exact absurd (keys_nil_of_sorted_nil timeSeries hl) hne
  | cons k0 rest =>
    have hk0 : k0 ∈ objectKeys timeSeries :=
      (sorted_reverse_perm (objectKeys timeSeries)).subset (by rw [hl]; simp)
    obtain ⟨latest, g0, m0⟩ := lookup_of_mem_keys timeSeries k0 hk0
    refine ⟨k0, latest, m0, g0, sorted_head_greatest timeSeries k0 rest hl, ?_⟩
    simp [liveHandler, hsym, hkey, hfetch, hts, hl, g0]

/-- The reply of `/live` for the series `roundingSeries`, whatever `Number::toString`
prints. -/
theorem liveHandler_rounding (big : ℚ → String) :
    (liveHandler big (some "demo") (fun _ => .resolved (sampleBody roundingSeries))
        (some "TCS.BSE")).reply
      = .ok { symbol := "TCS.BSE", price := "1.11", open_ := "1.00", high := "2.67",
              low := "2.67", volume := some "1800",
              lastUpdated := some "2025-11-03 10:00:00" } := by
  obtain ⟨k0, latest, hmem, _, _, hreply⟩ := liveHandler_latest big (some "demo")
    (fun _ => .resolved (sampleBody roundingSeries)) "TCS.BSE" (sampleBody roundingSeries)
    roundingSeries (by decide) (by decide) rfl rfl (by decide)
  have hpair : (k0, latest)
      = ("2025-11-03 10:00:00", samplePoint "1.005" "2.675" "2.675" "1.115" "1800") := by
    simpa [roundingSeries] using hmem
  injection hpair with hk hp
  subst hk hp
  rw [hreply]
  have h1 : toFixed big (parseFloat (some "1.115")) 2 = "1.11" := by
    rw [toFixed_congr big (fun _ => "") _ 2 (by decide!)]
    decide!
  have h2 : toFixed big (parseFloat (some "1.005")) 2 = "1.00" := by
    rw [toFixed_congr big (fun _ => "") _ 2 (by decide!)]
    decide!
  have h3 : toFixed big (parseFloat (some "2.675")) 2 = "2.67" := by
    rw [toFixed_congr big (fun _ => "") _ 2 (by decide!)]
    decide!
  simp only [samplePoint, h1, h2, h3]

/-- C17. For a non-empty intraday series, `/live` replies with success and reports
the point stored under the greatest key: price, open, high and low are its close,
open, high and low parsed to binary64 and printed by `toFixed(2)`, volume is its
volume field unchanged, and lastUpdated is that key.  A number below 10^21 in
magnitude is printed as its sign, the decimal digits of n / 100 with two fractional
digits, n being the number of hundredths nearest to its magnitude.  For the point
with open "1.005", high and low "2.675" and close "1.115", whose binary64 values lie
just below the half hundredth, the reply shows price "1.11", open "1.00", high and
low "2.67". -/
theorem live_reports_latest (big : ℚ → String) (key : Option String) (upstream : Upstream)
    (symbol : String) (data : ResponseData) (timeSeries : Series)
    (hsym : symbol ≠ "") (hkey : truthyStr key = true)
    (hfetch : fetchAlphaVantageData key upstream (liveParams symbol) = .ok data)
    (hts : data.series5min = some timeSeries) (hne : timeSeries ≠ []) :
    (∃ k0 latest, (k0, latest) ∈ timeSeries ∧ getPoint timeSeries (some k0) = some latest ∧
      (∀ k ∈ objectKeys timeSeries, sortLE k k0) ∧
      (liveHandler big key upstream (some symbol)).reply
        = .ok { symbol := symbol
                price := toFixed big (parseFloat latest.close4) 2
                open_ := toFixed big (parseFloat latest.open1) 2
                high := toFixed big (parseFloat latest.high2) 2
                low := toFixed big (parseFloat latest.low3) 2
                volume := latest.volume5
                lastUpdated := some k0 }) ∧
    (∀ q : ℚ, |q| < 10 ^ 21 →
      toFixed big (fin q) 2
          = (if q < 0 then "-" else "")
            ++ String.mk (Nat.toDigits 10 (nearest |q| 2 / 100)
              ++ ['.', Nat.digitChar (nearest |q| 2 / 10 % 10),
                Nat.digitChar (nearest |q| 2 % 10)]) ∧
        abs ((nearest |q| 2 : ℚ) / 100 - |q|) ≤ 1 / 200) ∧
    (liveHandler big (some "demo") (fun _ => .resolved (sampleBody roundingSeries))
        (some "TCS.BSE")).reply
      = .ok { symbol := "TCS.BSE", price := "1.11", open_ := "1.00", high := "2.67",
              low := "2.67", volume := some "1800",
              lastUpdated := some "2025-11-03 10:00:00" } := by
  refine ⟨liveHandler_latest big key upstream symbol data timeSeries hsym hkey hfetch hts hne,
    ?_, liveHandler_rounding big⟩
  intro q hq
  refine ⟨?_, nearest_close _ (abs_nonneg _)⟩
  rw [toFixed_small big q hq, fixedDigits_two]

theorem live_reports_latest_witness :
    "TCS.BSE" ≠ "" ∧ truthyStr (some "demo") = true ∧ sampleSeries ≠ [] ∧
      (liveHandler (fun _ => "") (some "demo")
          (fun _ => .resolved (sampleBody sampleSeries)) (some "TCS.BSE")).reply
        = .ok { symbol := "TCS.BSE", price := "100.00", open_ := "95.00", high := "100.50",
                low := "94.90", volume := some "1800",
                lastUpdated := some "2025-11-02 10:00:00" } := by
  obtain ⟨k0, latest, hmem, hget, hmax, hreply⟩ :=
    (live_reports_latest (fun _ => "") (some "demo")
      (fun _ => .resolved (sampleBody sampleSeries)) "TCS.BSE" (sampleBody sampleSeries)
      sampleSeries (by decide) (by decide) rfl rfl (by decide)).1
  refine ⟨by decide, by decide, by decide, ?_⟩
  have hk : k0 = "2025-11-02 10:00:00" := by
    have h1 := hmax "2025-11-02 10:00:00" (by decide)
    have hk0 : (k0 = "2025-11-02 09:55:00" ∧ latest = samplePoint "94.10" "95.40" "93.80" "95.00" "1200") ∨
        (k0 = "2025-11-02 10:00:00" ∧
          latest = samplePoint "95.00" "100.50" "94.90" "100.00" "1800") := by
      simpa [sampleSeries] using hmem
    rcases hk0 with ⟨h, _⟩ | ⟨h, _⟩
    · subst h
      revert h1
      decide
    · exact h
  subst hk
  have hl : latest = samplePoint "95.00" "100.50" "94.90" "100.00" "1800" := by
    have hv : getPoint sampleSeries (some "2025-11-02 10:00:00")
        = some (samplePoint "95.00" "100.50" "94.90" "100.00" "1800") := by decide
    exact Option.some.inj (hget.symm.trans hv)
  subst hl
  rw [hreply]
  decide!

end Stocks

namespace Auth

theorem onError_ne_next {User : Type} (name : String) (user : User) :
    (onError name : Result User) ≠ .next user := by
  unfold onError
  split
  · simp
  · split <;> simp

theorem authMiddleware_no_bearer {User : Type}
    (jwtVerify : Option String → Option String → Verified) (JWT_SECRET : Option String)
    (findById : Option String → Found User) (authHeader : String)
    (hp : "Bearer ".toList.isPrefixOf authHeader.toList = false) :
    authMiddleware jwtVerify JWT_SECRET findById (some authHeader)
      = .reply 401 "No token provided. Authorization denied." := by
  show (if authHeader = "" ∨ ¬ "Bearer ".toList.isPrefixOf authHeader.toList = true then _
    else _) = _
  rw [if_pos (Or.inr (by rw [hp]; exact Bool.false_ne_true))]

theorem authMiddleware_bearer {User : Type}
    (jwtVerify : Option String → Option String → Verified) (JWT_SECRET : Option String)
    (findById : Option String → Found User) (authHeader : String)
    (hp : "Bearer ".toList.isPrefixOf authHeader.toList = true) :
    authMiddleware jwtVerify JWT_SECRET findById (some authHeader)
      = match jwtVerify ((splitSpace authHeader.toList)[1]?) JWT_SECRET with
        | .threw name => onError name
        | .decoded userId =>
          match findById userId with
          | .threw name => onError name
          | .null => .reply 401 "Token is not valid. User not found."
          | .document user => .next user := by
  have hne : authHeader ≠ "" := by
    intro he
    subst he
    revert hp
    decide
  show (if authHeader = "" ∨ ¬ "Bearer ".toList.isPrefixOf authHeader.toList = true then _
    else _) = _
  rw [if_neg (by
    intro h
    rcases h with h | h
    · exact hne h
    · exact h hp)]

/-- C18. The middleware `authMiddleware` calls next, with the resolved user, exactly
when the Authorization header starts with "Bearer ", the token (the text between the
first and the second space) verifies and the user query finds a document; a missing
header or one without the prefix, a `JsonWebTokenError`, a `TokenExpiredError` and a
user query that finds nothing each give status 401 and no call of next. -/
theorem auth_gate {User : Type} (jwtVerify : Option String → Option String → Verified)
    (JWT_SECRET : Option String) (findById : Option String → Found User)
    (authorization : Option String) :
    (∀ user, authMiddleware jwtVerify JWT_SECRET findById authorization = .next user ↔
      ∃ authHeader userId, authorization = some authHeader ∧
        "Bearer ".toList.isPrefixOf authHeader.toList = true ∧
        jwtVerify ((splitSpace authHeader.toList)[1]?) JWT_SECRET = .decoded userId ∧
        findById userId = .document user) ∧
    (authorization = none →
      authMiddleware jwtVerify JWT_SECRET findById authorization
        = .reply 401 "No token provided. Authorization denied.") ∧
    (∀ authHeader, authorization = some authHeader →
      "Bearer ".toList.isPrefixOf authHeader.toList = false →
      authMiddleware jwtVerify JWT_SECRET findById authorization
        = .reply 401 "No token provided. Authorization denied.") ∧
    (∀ authHeader, authorization = some authHeader →
      "Bearer ".toList.isPrefixOf authHeader.toList = true →
      jwtVerify ((splitSpace authHeader.toList)[1]?) JWT_SECRET = .threw "JsonWebTokenError" →
      authMiddleware jwtVerify JWT_SECRET findById authorization
        = .reply 401 "Invalid token.") ∧
    (∀ authHeader, authorization = some authHeader →
      "Bearer ".toList.isPrefixOf authHeader.toList = true →
      jwtVerify ((splitSpace authHeader.toList)[1]?) JWT_SECRET = .threw "TokenExpiredError" →
      authMiddleware jwtVerify JWT_SECRET findById authorization
        = .reply 401 "Token has expired.") ∧
    (∀ authHeader userId, authorization = some authHeader →
      "Bearer ".toList.isPrefixOf authHeader.toList = true →
      jwtVerify ((splitSpace authHeader.toList)[1]?) JWT_SECRET = .decoded userId →
      findById userId = .null →
      authMiddleware jwtVerify JWT_SECRET findById authorization
        = .reply 401 "Token is not valid. User not found.") := by
  refine ⟨?_, ?_, ?_, ?_, ?_, ?_⟩
  · intro user
    constructor
    · intro h
      cases hauth : authorization with
      | none =>
        rw [hauth] at h
        cases h
      | some authHeader =>
        rw [hauth] at h
        cases hp : "Bearer ".toList.isPrefixOf authHeader.toList with
        | false =>
          rw [authMiddleware_no_bearer jwtVerify JWT_SECRET findById authHeader hp] at h
          cases h
        | true =>
          rw [authMiddleware_bearer jwtVerify JWT_SECRET findById authHeader hp] at h
          cases hv : jwtVerify ((splitSpace authHeader.toList)[1]?) JWT_SECRET with
          | threw name =>
            simp only [hv] at h
            exact absurd h (onError_ne_next name user)
          | decoded userId =>
            simp only [hv] at h
            cases hf : findById userId with
            | threw name =>
              simp only [hf] at h
              exact absurd h (onError_ne_next name user)
            | null =>
              simp only [hf] at h
              cases h
            | document u =>
              simp only [hf] at h
              cases h
              exact ⟨authHeader, userId, rfl, hp, hv, hf⟩
    · rintro ⟨authHeader, userId, hauth, hp, hv, hf⟩
      rw [hauth, authMiddleware_bearer jwtVerify JWT_SECRET findById authHeader hp, hv]
      simp only [hf]
  · intro hauth
    rw [hauth]
    rfl
  · intro authHeader hauth hp
    rw [hauth]
    exact authMiddleware_no_bearer jwtVerify JWT_SECRET findById authHeader hp
  · intro authHeader hauth hp hv
    rw [hauth, authMiddleware_bearer jwtVerify JWT_SECRET findById authHeader hp, hv]
    rfl
  · intro authHeader hauth hp hv
    rw [hauth, authMiddleware_bearer jwtVerify JWT_SECRET findById authHeader hp, hv]
    rfl
  · intro authHeader userId hauth hp hv hf
    rw [hauth, authMiddleware_bearer jwtVerify JWT_SECRET findById authHeader hp, hv]
    simp only [hf]

end Auth

namespace Auth

theorem auth_gate_witness :
    authMiddleware sampleVerify none sampleFind (some "Bearer good") = .next "alice" ∧
      authMiddleware sampleVerify none sampleFind (some "Bearer bad")
        = .reply 401 "Invalid token." :=
  ⟨((auth_gate sampleVerify none sampleFind (some "Bearer good")).1 "alice").mpr
      ⟨"Bearer good", some "u1", rfl, by decide, by decide, by decide⟩,
    (auth_gate sampleVerify none sampleFind (some "Bearer bad")).2.2.2.1 "Bearer bad" rfl
      (by decide) (by decide)⟩

end Auth


namespace Stocks

open JSNum

theorem summarize_empty (big : ℚ → String) (symbol : String) (data : ResponseData)
    (hts : data.series5min = some []) :
    summarize big symbol data = .error (typeErrorMessage "4. close") := by
  simp [summarize, hts, objectKeys, jsSort, getPoint]

/-- C24. When the fetch for a symbol returns a body whose series is present but has
no points, the `/summary` entry of that symbol is the error-shaped one (price, change
and time "N/A" and an error message), and the handler still replies with success and
one entry per symbol, in order. -/
theorem empty_series_error_entry (big : ℚ → String) (key : Option String)
    (upstream : Upstream) (symbols : List String) (symbol : String) (data : ResponseData)
    (hkey : truthyStr key = true)
    (hfetch : fetchAlphaVantageData key upstream (summaryParams symbol) = .ok data)
    (hts : data.series5min = some []) :
    (∃ message, summaryEntry big key upstream symbol
        = { symbol := symbol, price := "N/A", change := "N/A", time := "N/A",
            error := some message }) ∧
      ∃ entries : List SummaryEntry,
        (summaryHandler big key upstream symbols).reply = .ok entries ∧
        entries.length = symbols.length ∧
        entries.map SummaryEntry.symbol = symbols := by
  constructor
  · refine ⟨typeErrorMessage "4. close", ?_⟩
    unfold summaryEntry
    rw [hfetch]
    show (match summarize big symbol data with
      | .ok entry => entry
      | .error message => errorEntry symbol message) = _
    rw [summarize_empty big symbol data hts]
    rfl
  · refine ⟨symbols.map (summaryEntry big key upstream),
      summaryHandler_reply big key upstream symbols hkey, by simp, ?_⟩
    rw [List.map_map]
    conv_rhs => rw [← List.map_id symbols]
    apply List.map_congr_left
    intro s _
    exact summaryEntry_symbol big key upstream s

theorem empty_series_error_entry_witness :
    truthyStr (some "demo") = true ∧
      fetchAlphaVantageData (some "demo") (fun _ => .resolved (sampleBody []))
        (summaryParams "TCS.BSE") = .ok (sampleBody []) ∧
      (sampleBody []).series5min = some [] ∧
      ∃ message, summaryEntry (fun _ => "") (some "demo")
          (fun _ => .resolved (sampleBody [])) "TCS.BSE"
        = { symbol := "TCS.BSE", price := "N/A", change := "N/A", time := "N/A",
            error := some message } :=
  ⟨by decide, rfl, rfl,
    (empty_series_error_entry (fun _ => "") (some "demo")
      (fun _ => .resolved (sampleBody [])) TOP_STOCKS "TCS.BSE" (sampleBody [])
      (by decide) rfl rfl).1⟩

end Stocks

namespace Sip
open Stocks Stocks.JSNum

theorem roundCents_close (x : ℚ) : abs (roundCents x - x) ≤ 1 / 200 := by
  unfold roundCents
  have hfl : Rat.floor (x * 100 + 1 / 2) = ⌊x * 100 + 1 / 2⌋ := rfl
  rw [hfl]
  have h1 := Int.floor_le (x * 100 + 1 / 2)
  have h2 := Int.lt_floor_add_one (x * 100 + 1 / 2)
  rw [abs_le]
  constructor <;> linarith

theorem natPow_two_nat (n : ℕ) : natPow 2 n = 2 ^ n := by
  rw [natPow_two]
  exact zpow_natCast 2 n

theorem natPow_two_1024 : natPow 2 1024 = 2 ^ 1024 :=
  natPow_two_nat 1024

/-- A finite binary64 value is below `2^1024` in magnitude. -/
theorem round64_fin_lt (q x : ℚ) (h : round64 q = fin x) : |x| < 2 ^ 1024 := by
  by_cases h0 : q = 0
  · subst h0
    rw [round64_zero] at h
    cases h
    simp
  · unfold round64 at h
    rw [if_neg h0] at h
    by_cases h1 : natPow 2 1024 ≤ roundMagnitude |q|
    · rw [if_pos h1] at h
      split_ifs at h
    · rw [if_neg h1] at h
      cases h
      rw [natPow_two_1024] at h1
      have hn := roundMagnitude_nonneg |q| (abs_nonneg q)
      split_ifs
      · rw [abs_of_nonneg hn]; exact not_le.mp h1
      · rw [abs_neg, abs_of_nonneg hn]; exact not_le.mp h1

/-- A real number of magnitude at most `2^1023` rounds to a finite value. -/
theorem round64_fin_of_le (q : ℚ) (h : |q| ≤ 2 ^ 1023) : ∃ x, round64 q = fin x := by
  by_cases h0 : q = 0
  · exact ⟨0, by rw [h0, round64_zero]⟩
  · have hc := roundMagnitude_close |q| (abs_nonneg q)
    have hlt : ¬ (natPow 2 1024 ≤ roundMagnitude |q|) := by
      rw [natPow_two_1024, not_le]
      have h1 := (abs_le.mp hc).2
      have hp : (0 : ℚ) < 2 ^ 1023 := by positivity
      have h2 : |q| / 2 ^ 53 ≤ 2 ^ 1023 / 2 ^ 53 := div_le_div_of_nonneg_right h (by positivity)
      have h4 : (2 : ℚ) ^ 1023 / 2 ^ 53 ≤ 2 ^ 1023 / 4 :=
        div_le_div_of_nonneg_left (le_of_lt hp) (by norm_num) (by norm_num)
      have h5 : (1 : ℚ) / 2 ^ 1075 ≤ 1 := by
        rw [div_le_one (by positivity)]
        exact one_le_pow₀ (by norm_num)
      have h6 : (4 : ℚ) ≤ 2 ^ 1023 := by
        calc (4 : ℚ) = 2 ^ 2 := by norm_num
          _ ≤ 2 ^ 1023 := pow_le_pow_right₀ (by norm_num) (by norm_num)
      have h7 : (2 : ℚ) ^ 1024 = 2 * 2 ^ 1023 := by rw [pow_succ]; ring
      rw [h7]
      linarith
    unfold round64
    rw [if_neg h0, if_neg hlt]
    exact ⟨_, rfl⟩

theorem parseFloat_shape (s : String) :
    parseFloat (some s) = nan ∨ parseFloat (some s) = posInf ∨ parseFloat (some s) = negInf ∨
      ∃ q, parseFloat (some s) = round64 q := by
  unfold parseFloat
  simp only
  split_ifs
  · right; right; left; rfl
  · right; left; rfl
  · left; rfl
  · right; right; right; exact ⟨_, rfl⟩
  · right; right; right; exact ⟨_, rfl⟩

theorem parseFloatValue_fin (v : BodyValue) (x : ℚ) (h : parseFloatValue v = fin x) :
    ∃ q, round64 q = fin x := by
  cases v with
  | missing => simp [parseFloatValue] at h
  | null => simp [parseFloatValue] at h
  | bool b => simp [parseFloatValue] at h
  | num q => exact ⟨q, h⟩
  | str s =>
    simp only [parseFloatValue] at h
    rcases parseFloat_shape s with h' | h' | h' | ⟨q, h'⟩
    · rw [h'] at h; cases h
    · rw [h'] at h; cases h
    · rw [h'] at h; cases h
    · exact ⟨q, by rw [← h', h]⟩

theorem parseFloat_empty : parseFloat (some "") = nan := by decide

theorem truthy_of_parse (v : BodyValue) (q : ℚ) (h : parseFloatValue v = fin q)
    (hq : q ≠ 0) : v.truthy = true := by
  cases v with
  | missing => simp [parseFloatValue] at h
  | null => simp [parseFloatValue] at h
  | bool b => simp [parseFloatValue] at h
  | num q' =>
    simp only [parseFloatValue] at h
    simp [BodyValue.truthy, h, JSNum.truthy, hq]
  | str s =>
    by_cases hs : s = ""
    · subst hs
      simp only [parseFloatValue] at h
      rw [parseFloat_empty] at h
      cases h
    · simp [BodyValue.truthy, hs]

/-- The handler by its two checks: what it replies when a field is falsy, when a
computed value fails the range check, and otherwise. -/
theorem calculate_cases (powImpl : ℚ → ℚ → JSNum) (body : SipBody) :
    calculate powImpl body =
      if body.monthlyInvestment.truthy = false ∨ body.rate.truthy = false ∨
          body.years.truthy = false then
        .fail 400 "Please provide monthlyInvestment, rate, and years" none
      else if (parseFloatValue body.monthlyInvestment).leZero = true ∨
          (((parseFloatValue body.rate).div (fin 100)).div (fin 12)).ltZero = true ∨
          ((parseFloatValue body.years).mul (fin 12)).leZero = true then
        .fail 400 "Invalid input values. All values must be positive." none
      else
        .ok { monthlyInvestment := parseFloatValue body.monthlyInvestment
              annualRate := parseFloatValue body.rate
              years := parseFloatValue body.years
              totalInvested := round2 ((parseFloatValue body.monthlyInvestment).mul
                ((parseFloatValue body.years).mul (fin 12)))
              estimatedReturns := round2
                ((maturityAmount powImpl (parseFloatValue body.monthlyInvestment)
                    (((parseFloatValue body.rate).div (fin 100)).div (fin 12))
                    ((parseFloatValue body.years).mul (fin 12))).sub
                  ((parseFloatValue body.monthlyInvestment).mul
                    ((parseFloatValue body.years).mul (fin 12))))
              finalAmount := round2
                (maturityAmount powImpl (parseFloatValue body.monthlyInvestment)
                  (((parseFloatValue body.rate).div (fin 100)).div (fin 12))
                  ((parseFloatValue body.years).mul (fin 12))) } := by
  unfold calculate
  dsimp only
  cases body.monthlyInvestment.truthy <;> cases body.rate.truthy <;>
    cases body.years.truthy <;>
    cases (parseFloatValue body.monthlyInvestment).leZero <;>
    cases (((parseFloatValue body.rate).div (fin 100)).div (fin 12)).ltZero <;>
    cases ((parseFloatValue body.years).mul (fin 12)).leZero <;> simp


/-! ### Signs of rounded results -/

theorem round64_leZero (q : ℚ) (hq : q ≤ 0) : (round64 q).leZero = true := by
  rcases eq_or_lt_of_le hq with h | h
  · rw [h, round64_zero]
    simp [JSNum.leZero]
  · rcases round64_neg q h with h' | h'
    · rw [h']; rfl
    · rw [h']
      have := roundMagnitude_nonneg (-q) (by linarith)
      simp [JSNum.leZero, this]

theorem round64_not_ltZero (q : ℚ) (hq : 0 ≤ q) : (round64 q).ltZero = false := by
  rcases eq_or_lt_of_le hq with h | h
  · rw [← h, round64_zero]
    simp [JSNum.ltZero]
  · rcases round64_pos q h with h' | h'
    · rw [h']; rfl
    · rw [h']
      have := roundMagnitude_nonneg q (le_of_lt h)
      simp [JSNum.ltZero, this]

theorem round64_not_leZero (q : ℚ) (hq : 1 / 2 ^ 1074 ≤ q) : (round64 q).leZero = false := by
  have h0 : (0 : ℚ) < 1 / 2 ^ 1074 := by positivity
  rcases round64_pos q (by linarith) with h' | h'
  · rw [h']; rfl
  · rw [h']
    have := roundMagnitude_pos q hq
    simp only [JSNum.leZero, decide_eq_false_iff_not, not_le]
    linarith

theorem round64_ltZero (q : ℚ) (hq : q ≤ -(1 / 2 ^ 1074)) : (round64 q).ltZero = true := by
  have h0 : (0 : ℚ) < 1 / 2 ^ 1074 := by positivity
  rcases round64_neg q (by linarith) with h' | h'
  · rw [h']; rfl
  · rw [h']
    have := roundMagnitude_pos (-q) (by linarith)
    simp only [JSNum.ltZero, decide_eq_true_eq]
    linarith

theorem div_fin (a b : ℚ) (hb : b ≠ 0) : (fin a).div (fin b) = round64 (a / b) := by
  simp [JSNum.div, hb]

theorem leZero_mul_twelve (x : JSNum) (h : x.leZero = true) :
    (x.mul (fin 12)).leZero = true := by
  cases x with
  | nan => simp [JSNum.leZero] at h
  | posInf => simp [JSNum.leZero] at h
  | negInf => norm_num [JSNum.mul, JSNum.leZero]
  | fin q =>
    have hq : q ≤ 0 := by simpa [JSNum.leZero] using h
    exact round64_leZero (q * 12) (by linarith)

/-- A negative rate gives a negative monthly rate unless the division underflows to
zero. -/
theorem ltZero_monthly (x : JSNum) (h : x.ltZero = true)
    (hne : (x.div (fin 100)).div (fin 12) ≠ fin 0) :
    ((x.div (fin 100)).div (fin 12)).ltZero = true := by
  cases x with
  | nan => simp [JSNum.ltZero] at h
  | posInf => simp [JSNum.ltZero] at h
  | negInf => norm_num [JSNum.div, JSNum.ltZero]
  | fin q =>
    have hq : q < 0 := by simpa [JSNum.ltZero] using h
    rw [div_fin q 100 (by norm_num)] at hne ⊢
    rcases round64_neg (q / 100) (by linarith) with h' | h'
    · rw [h']
      norm_num [JSNum.div, JSNum.ltZero]
    · rw [h'] at hne ⊢
      have hm := roundMagnitude_nonneg (-(q / 100)) (by linarith)
      rw [div_fin _ 12 (by norm_num)] at hne ⊢
      rcases eq_or_lt_of_le hm with h0 | h0
      · rw [← h0] at hne
        norm_num [round64_zero] at hne
      · rcases round64_neg (-roundMagnitude (-(q / 100)) / 12) (by linarith) with h'' | h''
        · rw [h'']; rfl
        · rw [h''] at hne ⊢
          have hm2 := roundMagnitude_nonneg (-(-roundMagnitude (-(q / 100)) / 12)) (by linarith)
          rcases eq_or_lt_of_le hm2 with h1 | h1
          · rw [← h1] at hne
            simp at hne
          · simp only [JSNum.ltZero, decide_eq_true_eq]
            linarith


/-- A rate of `-2^(-1060)` or below gives a negative monthly rate. -/
theorem monthly_ltZero_of_le (q : ℚ) (hq : q ≤ -(1 / 2 ^ 1060)) :
    (((fin q).div (fin 100)).div (fin 12)).ltZero = true := by
  have hc : (0 : ℚ) < 1 / 2 ^ 1075 := by positivity
  have e1 : (1 : ℚ) / 2 ^ 1074 = 2 * (1 / 2 ^ 1075) := by
    rw [show (1075 : ℕ) = 1074 + 1 from rfl, pow_succ]
    generalize (2 : ℚ) ^ 1074 = K
    ring
  have e2 : (1 : ℚ) / 2 ^ 1060 = 32768 * (1 / 2 ^ 1075) := by
    rw [show (1075 : ℕ) = 1060 + 15 from rfl, pow_add]
    have hK : (2 : ℚ) ^ 1060 ≠ 0 := by positivity
    generalize (2 : ℚ) ^ 1060 = K at hK
    field_simp
    norm_num
  rw [e2] at hq
  obtain ⟨c, hcdef⟩ : ∃ c : ℚ, c = 1 / 2 ^ 1075 := ⟨_, rfl⟩
  rw [← hcdef] at hc hq e1
  rw [div_fin q 100 (by norm_num)]
  rcases round64_neg (q / 100) (by linarith) with h' | h'
  · rw [h']
    norm_num [JSNum.div, JSNum.ltZero]
  · rw [h', div_fin _ 12 (by norm_num)]
    apply round64_ltZero
    rw [e1]
    have ha : 0 ≤ -(q / 100) := by linarith
    have hcl := roundMagnitude_close (-(q / 100)) ha
    rw [← hcdef] at hcl
    have h1 := (abs_le.mp hcl).1
    have h2 : -(q / 100) / 2 ^ 53 ≤ -(q / 100) / 2 :=
      div_le_div_of_nonneg_left ha (by norm_num) (by norm_num)
    linarith

/-- The monthly rate of a finite rate is finite, of magnitude at most `2^1021`, and has
the sign of the rate or is zero. -/
theorem monthly_rate_fin (rate : ℚ) (h : |rate| < 2 ^ 1024) :
    ∃ r, ((fin rate).div (fin 100)).div (fin 12) = fin r ∧ |r| ≤ 2 ^ 1021 ∧
      (0 ≤ rate → 0 ≤ r) ∧ (rate ≤ 0 → r ≤ 0) := by
  have hK : (1 : ℚ) ≤ 2 ^ 1021 := one_le_pow₀ (by norm_num)
  have e1 : (2 : ℚ) ^ 1024 = 8 * 2 ^ 1021 := by
    rw [show (1024 : ℕ) = 1021 + 3 from rfl, pow_add]
    ring
  have e2 : (2 : ℚ) ^ 1023 = 4 * 2 ^ 1021 := by
    rw [show (1023 : ℕ) = 1021 + 2 from rfl, pow_add]
    ring
  have hs : (1 : ℚ) / 2 ^ 1075 ≤ 1 := by
    rw [div_le_one (by positivity)]
    exact one_le_pow₀ (by norm_num)
  rw [div_fin rate 100 (by norm_num)]
  have h1 : |rate / 100| ≤ 2 ^ 1023 := by
    rw [abs_div, e2]
    rw [e1] at h
    have : |(100 : ℚ)| = 100 := abs_of_pos (by norm_num)
    rw [this, div_le_iff₀ (by norm_num)]
    linarith
  obtain ⟨d, hd⟩ := round64_fin_of_le _ h1
  have hdlt := round64_fin_lt _ _ hd
  rw [hd, div_fin d 12 (by norm_num)]
  have h2 : |d / 12| ≤ 2 ^ 1021 * (2 / 3) := by
    rw [abs_div]
    rw [e1] at hdlt
    have : |(12 : ℚ)| = 12 := abs_of_pos (by norm_num)
    rw [this, div_le_iff₀ (by norm_num)]
    linarith
  obtain ⟨r, hr⟩ := round64_fin_of_le (d / 12) (by rw [e2]; linarith)
  refine ⟨r, hr, ?_, ?_, ?_⟩
  · have hcl := round64_fin_close _ _ hr
    have h3 : |r| ≤ |d / 12| + |r - d / 12| := by
      have := abs_add (d / 12) (r - d / 12)
      simpa using this
    have h4 : |d / 12| / 2 ^ 53 ≤ |d / 12| / 4 :=
      div_le_div_of_nonneg_left (abs_nonneg _) (by norm_num) (by norm_num)
    linarith
  · intro h0
    exact round64_fin_nonneg _ _ hr
      (div_nonneg (round64_fin_nonneg _ _ hd (div_nonneg h0 (by norm_num))) (by norm_num))
  · intro h0
    have hd0 := round64_fin_nonpos _ _ hd (by
      have : rate / 100 ≤ 0 := div_nonpos_of_nonpos_of_nonneg h0 (by norm_num)
      exact this)
    exact round64_fin_nonpos _ _ hr (div_nonpos_of_nonpos_of_nonneg hd0 (by norm_num))

/-- For a monthly rate `r ≥ 0` the base `1 + r` is a positive finite number. -/
theorem one_add_fin (r : ℚ) (h0 : 0 ≤ r) (h : |r| ≤ 2 ^ 1021) :
    ∃ b, (fin 1).add (fin r) = fin b ∧ 0 < b := by
  have hK : (1 : ℚ) ≤ 2 ^ 1021 := one_le_pow₀ (by norm_num)
  have e2 : (2 : ℚ) ^ 1023 = 4 * 2 ^ 1021 := by
    rw [show (1023 : ℕ) = 1021 + 2 from rfl, pow_add]
    ring
  have hr : r ≤ 2 ^ 1021 := le_trans (le_abs_self r) h
  have h1 : |1 + r| ≤ 2 ^ 1023 := by
    rw [abs_of_nonneg (by linarith), e2]
    linarith
  obtain ⟨b, hb⟩ := round64_fin_of_le (1 + r) h1
  refine ⟨b, hb, ?_⟩
  have hs : (1 : ℚ) / 2 ^ 1074 ≤ 1 := by
    rw [div_le_one (by positivity)]
    exact one_le_pow₀ (by norm_num)
  have hp : (0 : ℚ) < 1 / 2 ^ 1074 := by positivity
  have := round64_fin_pos (1 + r) b hb (by linarith)
  linarith

/-- The maturity amount at a non-zero monthly rate, with `Math.pow` called at the base
`b` and the number of months `n`. -/
theorem maturityAmount_fin (powImpl : ℚ → ℚ → JSNum) (P r b n : ℚ) (hr : r ≠ 0)
    (hb : (fin 1).add (fin r) = fin b) (hb0 : 0 < b) (hn : n ≠ 0) :
    maturityAmount powImpl (fin P) (fin r) (fin n)
      = ((fin P).mul (((powImpl b n).sub (fin 1)).div (fin r))).mul (fin b) := by
  unfold maturityAmount
  have h0 : ¬ (fin r = fin 0) := fun h => hr (JSNum.fin.inj h)
  rw [if_neg h0]
  simp only [hb]
  have hp : pow powImpl (fin b) (fin n) = powImpl b n := by
    simp [pow, hn, ne_of_gt hb0, not_lt.mpr (le_of_lt hb0)]
  rw [hp]

theorem maturityAmount_zero (powImpl : ℚ → ℚ → JSNum) (P n : JSNum) :
    maturityAmount powImpl P (fin 0) n = P.mul n := by
  simp [maturityAmount]

/-- C19 (as the code has it). For a request whose fields parse to a monthly
investment P > 0, an annual rate > 0 and a number of years for which the computed
number of months n = years * 12 is a whole number > 0, the handler replies with
success.  With r the binary64 value of rate / 100 / 12 (finite and not negative) and
b that of 1 + r (positive), and with M the maturity amount the code computes, which
is P * (((1 + r)^n - 1) / r) * (1 + r) with every operation rounded to binary64 and
the power taken by `Math.pow` at b and n (and P * n should r underflow to 0), the
reply reports finalAmount `Math.round(M * 100) / 100`, totalInvested
`Math.round(P * n * 100) / 100` and estimatedReturns
`Math.round((M - P * n) * 100) / 100`, likewise evaluated in binary64. -/
theorem sip_amounts (powImpl : ℚ → ℚ → JSNum) (body : SipBody) (P rate years : ℚ) (n : ℕ)
    (hP : parseFloatValue body.monthlyInvestment = fin P)
    (hr : parseFloatValue body.rate = fin rate)
    (hy : parseFloatValue body.years = fin years)
    (hPpos : 0 < P) (hrpos : 0 < rate)
    (hn : (fin years).mul (fin 12) = fin n) (hnpos : 0 < n) :
    ∃ (r b : ℚ) (M : JSNum), 0 ≤ r ∧ 0 < b ∧
      ((fin rate).div (fin 100)).div (fin 12) = fin r ∧ (fin 1).add (fin r) = fin b ∧
      M = (if r = 0 then (fin P).mul (fin n)
        else ((fin P).mul (((powImpl b n).sub (fin 1)).div (fin r))).mul (fin b)) ∧
      calculate powImpl body = .ok
        { monthlyInvestment := fin P
          annualRate := fin rate
          years := fin years
          totalInvested := round2 ((fin P).mul (fin n))
          estimatedReturns := round2 (M.sub ((fin P).mul (fin n)))
          finalAmount := round2 M } := by
  obtain ⟨q, hq⟩ := parseFloatValue_fin _ rate hr
  obtain ⟨r, hr', hrb, hr0, _⟩ := monthly_rate_fin rate (round64_fin_lt q rate hq)
  have r0 : 0 ≤ r := hr0 (le_of_lt hrpos)
  obtain ⟨b, hb, hb0⟩ := one_add_fin r r0 hrb
  refine ⟨r, b, _, r0, hb0, hr', hb, rfl, ?_⟩
  have hnq : (0 : ℚ) < n := by exact_mod_cast hnpos
  have hy0 : years ≠ 0 := by
    intro h0
    rw [h0] at hn
    have h1 : (fin 0).mul (fin 12) = fin 0 := by simp [JSNum.mul, round64_zero]
    rw [h1] at hn
    have := JSNum.fin.inj hn
    linarith
  have t1 := truthy_of_parse _ P hP (ne_of_gt hPpos)
  have t2 := truthy_of_parse _ rate hr (ne_of_gt hrpos)
  have t3 := truthy_of_parse _ years hy hy0
  have c1 : (fin P).leZero = false := by simp [JSNum.leZero, hPpos]
  have c2 : (fin r).ltZero = false := by simp [JSNum.ltZero, r0]
  have c3 : (fin (n : ℚ)).leZero = false := by
    simp only [JSNum.leZero, decide_eq_false_iff_not, not_le]
    exact hnq
  rw [calculate_cases]
  simp only [t1, t2, t3, hP, hr, hy, hr', hn, c1, c2, c3, Bool.true_eq_false,
    Bool.false_eq_true, or_self, if_false]
  by_cases h0 : r = 0
  · subst h0
    rw [maturityAmount_zero]
    simp
  · rw [maturityAmount_fin powImpl P r b n h0 hb hb0 (ne_of_gt hnq)]
    simp [h0]

theorem sip_amounts_witness :
    parseFloatValue sampleRequest.monthlyInvestment = fin 5000 ∧
      parseFloatValue sampleRequest.rate = fin 12 ∧
      parseFloatValue sampleRequest.years = fin 1 ∧
      (fin 1).mul (fin 12) = fin ((12 : ℕ) : ℚ) ∧
      (∃ (r b : ℚ) (M : JSNum), 0 ≤ r ∧ 0 < b ∧
        ((fin 12).div (fin 100)).div (fin 12) = fin r ∧ (fin 1).add (fin r) = fin b ∧
        M = (if r = 0 then (fin 5000).mul (fin ((12 : ℕ) : ℚ))
          else ((fin 5000).mul (((wholePow b ((12 : ℕ) : ℚ)).sub (fin 1)).div (fin r))).mul
            (fin b)) ∧
        calculate wholePow sampleRequest = .ok
          { monthlyInvestment := fin 5000
            annualRate := fin 12
            years := fin 1
            totalInvested := round2 ((fin 5000).mul (fin ((12 : ℕ) : ℚ)))
            estimatedReturns := round2 (M.sub ((fin 5000).mul (fin ((12 : ℕ) : ℚ))))
            finalAmount := round2 M }) ∧
      calculate wholePow sampleRequest = .ok
        { monthlyInvestment := fin 5000
          annualRate := fin 12
          years := fin 1
          totalInvested := fin 60000
          estimatedReturns := round64 (404664 / 100)
          finalAmount := round64 (6404664 / 100) } :=
  ⟨by decide!, by decide!, by decide!, by decide!,
    sip_amounts wholePow sampleRequest 5000 12 1 12 (by decide!) (by decide!) (by decide!)
      (by norm_num) (by norm_num) (by decide!) (by norm_num),
    by decide!⟩

/-- C19, counterexample. For 100000 a month at 15 % a year over 40 years the formula
P * (((1 + r)^n - 1) / r) * (1 + r) with r = 15 / 100 / 12 and n = 480 is
3140375545.875..., which rounds to 3140375545.88, and less P * n = 48000000 it rounds
to 3092375545.88; the handler reports finalAmount 3140375545.87 and estimatedReturns
3092375545.87, with a correctly rounded `Math.pow` and also when `Math.pow` returns
either neighbour of the correctly rounded power. -/
theorem sip_amounts_binary64 :
    calculate wholePow largeRequest = .ok
        { monthlyInvestment := fin 100000
          annualRate := fin 15
          years := fin 40
          totalInvested := fin 48000000
          estimatedReturns := round64 (309237554587 / 100)
          finalAmount := round64 (314037554587 / 100) } ∧
      wholePow (4559894622712627 / 4503599627370496) 480
        = fin (6838094760410676 / 17592186044416) ∧
      calculate (fun _ _ => fin (6838094760410675 / 17592186044416)) largeRequest = .ok
        { monthlyInvestment := fin 100000
          annualRate := fin 15
          years := fin 40
          totalInvested := fin 48000000
          estimatedReturns := round64 (309237554587 / 100)
          finalAmount := round64 (314037554587 / 100) } ∧
      calculate (fun _ _ => fin (6838094760410677 / 17592186044416)) largeRequest = .ok
        { monthlyInvestment := fin 100000
          annualRate := fin 15
          years := fin 40
          totalInvested := fin 48000000
          estimatedReturns := round64 (309237554587 / 100)
          finalAmount := round64 (314037554587 / 100) } ∧
      roundCents (sipFormula 100000 (15 / 100 / 12) 480) = 314037554588 / 100 ∧
      roundCents (sipFormula 100000 (15 / 100 / 12) 480 - 100000 * 480)
        = 309237554588 / 100 := by
  refine ⟨by decide!, by decide!, by decide!, by decide!, ?_, ?_⟩
  · unfold roundCents sipFormula
    have hfl : ∀ q : ℚ, Rat.floor q = ⌊q⌋ := fun _ => rfl
    rw [hfl]
    have h : ⌊(100000 : ℚ) * (((1 + 15 / 100 / 12) ^ 480 - 1) / (15 / 100 / 12))
        * (1 + 15 / 100 / 12) * 100 + 1 / 2⌋ = 314037554588 := by
      rw [Int.floor_eq_iff]
      constructor <;> norm_num
    rw [h]
    norm_num
  · unfold roundCents sipFormula
    have hfl : ∀ q : ℚ, Rat.floor q = ⌊q⌋ := fun _ => rfl
    rw [hfl]
    have h : ⌊((100000 : ℚ) * (((1 + 15 / 100 / 12) ^ 480 - 1) / (15 / 100 / 12))
        * (1 + 15 / 100 / 12) - 100000 * 480) * 100 + 1 / 2⌋ = 309237554588 := by
      rw [Int.floor_eq_iff]
      constructor <;> norm_num
    rw [h]
    norm_num

/-- The reply when the computed monthly rate is zero. -/
theorem calculate_of_zero_rate (powImpl : ℚ → ℚ → JSNum) (body : SipBody)
    (t1 : body.monthlyInvestment.truthy = true) (t2 : body.rate.truthy = true)
    (t3 : body.years.truthy = true)
    (hr0 : ((parseFloatValue body.rate).div (fin 100)).div (fin 12) = fin 0)
    (c1 : (parseFloatValue body.monthlyInvestment).leZero = false)
    (c3 : ((parseFloatValue body.years).mul (fin 12)).leZero = false) :
    calculate powImpl body = .ok
      { monthlyInvestment := parseFloatValue body.monthlyInvestment
        annualRate := parseFloatValue body.rate
        years := parseFloatValue body.years
        totalInvested := round2 ((parseFloatValue body.monthlyInvestment).mul
          ((parseFloatValue body.years).mul (fin 12)))
        estimatedReturns := round2
          (((parseFloatValue body.monthlyInvestment).mul
              ((parseFloatValue body.years).mul (fin 12))).sub
            ((parseFloatValue body.monthlyInvestment).mul
              ((parseFloatValue body.years).mul (fin 12))))
        finalAmount := round2 ((parseFloatValue body.monthlyInvestment).mul
          ((parseFloatValue body.years).mul (fin 12))) } := by
  have c2 : (fin (0 : ℚ)).ltZero = false := by simp [JSNum.ltZero]
  rw [calculate_cases]
  simp only [t1, t2, t3, hr0, c1, c2, c3, Bool.true_eq_false, Bool.false_eq_true, or_self,
    if_false, maturityAmount_zero]

/-- C20 (as the code has it). The handler of `POST /calculate` replies with status
400 whenever one of monthlyInvestment, rate and years is missing from the body (or
otherwise falsy), and whenever the range check fails, which is made on the parsed
monthlyInvestment, on the monthly rate rate / 100 / 12 and on the number of months
years * 12 as computed in binary64: it fails for monthlyInvestment <= 0, for
years <= 0, for a negative rate whose monthly rate does not underflow to zero, and so
for every rate of -2^(-1060) or below.  It replies with success exactly when the
request fails neither check, and its reply is always one of these.  The request with
rate "-1e-322", a negative number, passes both checks and is answered with
success. -/
theorem sip_validation (powImpl : ℚ → ℚ → JSNum) (body : SipBody) :
    (body.monthlyInvestment = .missing ∨ body.rate = .missing ∨ body.years = .missing →
      calculate powImpl body
        = .fail 400 "Please provide monthlyInvestment, rate, and years" none) ∧
    (body.monthlyInvestment.truthy = false ∨ body.rate.truthy = false ∨
        body.years.truthy = false →
      calculate powImpl body
        = .fail 400 "Please provide monthlyInvestment, rate, and years" none) ∧
    (body.monthlyInvestment.truthy = true → body.rate.truthy = true →
      body.years.truthy = true →
      (parseFloatValue body.monthlyInvestment).leZero = true ∨
        (((parseFloatValue body.rate).div (fin 100)).div (fin 12)).ltZero = true ∨
        ((parseFloatValue body.years).mul (fin 12)).leZero = true →
      calculate powImpl body
        = .fail 400 "Invalid input values. All values must be positive." none) ∧
    (body.monthlyInvestment.truthy = true → body.rate.truthy = true →
      body.years.truthy = true →
      (parseFloatValue body.monthlyInvestment).leZero = true ∨
        (parseFloatValue body.years).leZero = true ∨
        ((parseFloatValue body.rate).ltZero = true ∧
          ((parseFloatValue body.rate).div (fin 100)).div (fin 12) ≠ fin 0) →
      calculate powImpl body
        = .fail 400 "Invalid input values. All values must be positive." none) ∧
    (body.monthlyInvestment.truthy = true → body.rate.truthy = true →
      body.years.truthy = true →
      ∀ rate : ℚ, parseFloatValue body.rate = fin rate → rate ≤ -(1 / 2 ^ 1060) →
      calculate powImpl body
        = .fail 400 "Invalid input values. All values must be positive." none) ∧
    ((∃ data, calculate powImpl body = .ok data) ↔
      body.monthlyInvestment.truthy = true ∧ body.rate.truthy = true ∧
        body.years.truthy = true ∧
        (parseFloatValue body.monthlyInvestment).leZero = false ∧
        (((parseFloatValue body.rate).div (fin 100)).div (fin 12)).ltZero = false ∧
        ((parseFloatValue body.years).mul (fin 12)).leZero = false) ∧
    ((∃ data, calculate powImpl body = .ok data) ∨
      ∃ message, calculate powImpl body = .fail 400 message none) ∧
    (parseFloatValue negativeTinyRateRequest.rate = fin (-(20 * natPow 2 (-1074))) ∧
      (parseFloatValue negativeTinyRateRequest.rate).ltZero = true ∧
      calculate powImpl negativeTinyRateRequest = .ok
        { monthlyInvestment := fin 5000
          annualRate := fin (-(20 * natPow 2 (-1074)))
          years := fin 10
          totalInvested := fin 600000
          estimatedReturns := fin 0
          finalAmount := fin 600000 }) := by
  have hfalsy : body.monthlyInvestment.truthy = false ∨ body.rate.truthy = false ∨
      body.years.truthy = false →
      calculate powImpl body
        = .fail 400 "Please provide monthlyInvestment, rate, and years" none := by
    intro h
    rw [calculate_cases, if_pos h]
  have hrange : body.monthlyInvestment.truthy = true → body.rate.truthy = true →
      body.years.truthy = true →
      (parseFloatValue body.monthlyInvestment).leZero = true ∨
        (((parseFloatValue body.rate).div (fin 100)).div (fin 12)).ltZero = true ∨
        ((parseFloatValue body.years).mul (fin 12)).leZero = true →
      calculate powImpl body
        = .fail 400 "Invalid input values. All values must be positive." none := by
    intro t1 t2 t3 h
    rw [calculate_cases, if_neg (by simp [t1, t2, t3]), if_pos h]
  refine ⟨?_, hfalsy, hrange, ?_, ?_, ?_, ?_, ?_⟩
  · intro h
    apply hfalsy
    rcases h with h | h | h <;> rw [h] <;> simp [BodyValue.truthy]
  · intro t1 t2 t3 h
    apply hrange t1 t2 t3
    rcases h with h | h | ⟨h, hne⟩
    · exact Or.inl h
    · exact Or.inr (Or.inr (leZero_mul_twelve _ h))
    · exact Or.inr (Or.inl (ltZero_monthly _ h hne))
  · intro t1 t2 t3 rate hr hle
    apply hrange t1 t2 t3
    rw [hr]
    exact Or.inr (Or.inl (monthly_ltZero_of_le rate hle))
  · rw [calculate_cases]
    cases body.monthlyInvestment.truthy <;> cases body.rate.truthy <;>
      cases body.years.truthy <;>
      cases (parseFloatValue body.monthlyInvestment).leZero <;>
      cases (((parseFloatValue body.rate).div (fin 100)).div (fin 12)).ltZero <;>
      cases ((parseFloatValue body.years).mul (fin 12)).leZero <;> simp
  · rw [calculate_cases]
    cases body.monthlyInvestment.truthy <;> cases body.rate.truthy <;>
      cases body.years.truthy <;>
      cases (parseFloatValue body.monthlyInvestment).leZero <;>
      cases (((parseFloatValue body.rate).div (fin 100)).div (fin 12)).ltZero <;>
      cases ((parseFloatValue body.years).mul (fin 12)).leZero <;> simp
  · refine ⟨by decide!, by decide!, ?_⟩
    rw [calculate_of_zero_rate powImpl negativeTinyRateRequest (by decide!) (by decide!)
      (by decide!) (by decide!) (by decide!) (by decide!)]
    decide!

theorem sip_validation_witness :
    calculate wholePow requestWithoutRate
        = .fail 400 "Please provide monthlyInvestment, rate, and years" none ∧
      calculate wholePow negativeRequest
        = .fail 400 "Invalid input values. All values must be positive." none ∧
      calculate wholePow negativeTinyRateRequest = .ok
        { monthlyInvestment := fin 5000
          annualRate := fin (-(20 * natPow 2 (-1074)))
          years := fin 10
          totalInvested := fin 600000
          estimatedReturns := fin 0
          finalAmount := fin 600000 } :=
  ⟨(sip_validation wholePow requestWithoutRate).1 (Or.inr (Or.inl rfl)),
    (sip_validation wholePow negativeRequest).2.2.2.1 (by decide!) (by decide!)
      (by decide!) (Or.inl (by decide!)),
    (sip_validation wholePow requestWithoutRate).2.2.2.2.2.2.2.2.2⟩

theorem round2_zero : round2 (fin 0) = fin 0 := by decide!

/-- The success reply of a request whose rate field is truthy and parses to 0. -/
theorem calculate_zero_rate (powImpl : ℚ → ℚ → JSNum) (body : SipBody) (P years : ℚ)
    (ht : body.rate.truthy = true) (hr : parseFloatValue body.rate = fin 0)
    (hP : parseFloatValue body.monthlyInvestment = fin P)
    (hy : parseFloatValue body.years = fin years) (hPpos : 0 < P) (hypos : 0 < years) :
    calculate powImpl body = .ok
        { monthlyInvestment := fin P
          annualRate := fin 0
          years := fin years
          totalInvested := round2 ((fin P).mul ((fin years).mul (fin 12)))
          estimatedReturns := round2
            (((fin P).mul ((fin years).mul (fin 12))).sub
              ((fin P).mul ((fin years).mul (fin 12))))
          finalAmount := round2 ((fin P).mul ((fin years).mul (fin 12))) } ∧
      ∀ t : ℚ, (fin P).mul ((fin years).mul (fin 12)) = fin t →
        round2 (((fin P).mul ((fin years).mul (fin 12))).sub
          ((fin P).mul ((fin years).mul (fin 12)))) = fin 0 := by
  have t1 := truthy_of_parse _ P hP (ne_of_gt hPpos)
  have t3 := truthy_of_parse _ years hy (ne_of_gt hypos)
  have c1 : (parseFloatValue body.monthlyInvestment).leZero = false := by
    rw [hP]
    simp [JSNum.leZero, hPpos]
  have c3 : ((parseFloatValue body.years).mul (fin 12)).leZero = false := by
    rw [hy]
    obtain ⟨q, hq⟩ := parseFloatValue_fin _ years hy
    have hg : 1 / 2 ^ 1074 ≤ years := by
      rcases round64_fin_grid q years hq with h | h
      · exact absurd h (ne_of_gt hypos)
      · rwa [abs_of_pos hypos] at h
    exact round64_not_leZero (years * 12) (by linarith)
  have hr0 : ((parseFloatValue body.rate).div (fin 100)).div (fin 12) = fin 0 := by
    rw [hr, div_fin 0 100 (by norm_num), zero_div, round64_zero, div_fin 0 12 (by norm_num),
      zero_div, round64_zero]
  constructor
  · rw [calculate_of_zero_rate powImpl body t1 ht t3 hr0 c1 c3, hP, hr, hy]
  · intro t ht'
    rw [ht']
    have : (fin t).sub (fin t) = fin 0 := by simp [JSNum.sub, round64_zero]
    rw [this, round2_zero]

/-- C21. The request the dashboard sends for a rate of 0, with the rate as the number
0, is answered 400 "Please provide monthlyInvestment, rate, and years".  The simple
sum P * n is reported only when the rate field is truthy and parses to 0, as the
string "0" does: then finalAmount and totalInvested are both P * n, computed in
binary64 and rounded to 2 decimals, and estimatedReturns is 0 whenever P * n is
finite. -/
theorem zero_rate_number_rejected (powImpl : ℚ → ℚ → JSNum) :
    calculate powImpl zeroRateNumber
        = .fail 400 "Please provide monthlyInvestment, rate, and years" none ∧
      calculate powImpl zeroRateString = .ok
        { monthlyInvestment := fin 5000
          annualRate := fin 0
          years := fin 10
          totalInvested := fin 600000
          estimatedReturns := fin 0
          finalAmount := fin 600000 } ∧
      ∀ (body : SipBody) (P years : ℚ), body.rate.truthy = true →
        parseFloatValue body.rate = fin 0 →
        parseFloatValue body.monthlyInvestment = fin P →
        parseFloatValue body.years = fin years → 0 < P → 0 < years →
        calculate powImpl body = .ok
            { monthlyInvestment := fin P
              annualRate := fin 0
              years := fin years
              totalInvested := round2 ((fin P).mul ((fin years).mul (fin 12)))
              estimatedReturns := round2
                (((fin P).mul ((fin years).mul (fin 12))).sub
                  ((fin P).mul ((fin years).mul (fin 12))))
              finalAmount := round2 ((fin P).mul ((fin years).mul (fin 12))) } ∧
          ∀ t : ℚ, (fin P).mul ((fin years).mul (fin 12)) = fin t →
            round2 (((fin P).mul ((fin years).mul (fin 12))).sub
              ((fin P).mul ((fin years).mul (fin 12)))) = fin 0 := by
  refine ⟨?_, ?_, fun body P years ht hr hP hy hPpos hypos =>
    calculate_zero_rate powImpl body P years ht hr hP hy hPpos hypos⟩
  · rw [calculate_cases, if_pos (Or.inr (Or.inl (by decide!)))]
  · rw [(calculate_zero_rate powImpl zeroRateString 5000 10 (by decide!) (by decide!)
      (by decide!) (by decide!) (by norm_num) (by norm_num)).1]
    decide!

theorem zero_rate_number_rejected_witness :
    zeroRateString.rate.truthy = true ∧ parseFloatValue zeroRateString.rate = fin 0 ∧
      parseFloatValue zeroRateString.monthlyInvestment = fin 5000 ∧
      parseFloatValue zeroRateString.years = fin 10 ∧
      calculate wholePow zeroRateString = .ok
        { monthlyInvestment := fin 5000
          annualRate := fin 0
          years := fin 10
          totalInvested := round2 ((fin 5000).mul ((fin 10).mul (fin 12)))
          estimatedReturns := round2
            (((fin 5000).mul ((fin 10).mul (fin 12))).sub
              ((fin 5000).mul ((fin 10).mul (fin 12))))
          finalAmount := round2 ((fin 5000).mul ((fin 10).mul (fin 12))) } ∧
      round2 ((fin 5000).mul ((fin 10).mul (fin 12))) = fin 600000 ∧
      calculate wholePow zeroRateNumber
        = .fail 400 "Please provide monthlyInvestment, rate, and years" none :=
  ⟨by decide!, by decide!, by decide!, by decide!,
    ((zero_rate_number_rejected wholePow).2.2 zeroRateString 5000 10 (by decide!)
      (by decide!) (by decide!) (by decide!) (by norm_num) (by norm_num)).1,
    by decide!, by decide!⟩

theorem maturityValue_sum (P r : ℚ) (n : Nat) :
    maturityValue P r n = P * ∑ k in Finset.range n, (1 + r) ^ (k + 1) := by
  unfold maturityValue
  by_cases h0 : r = 0
  · subst h0
    simp
  · rw [if_neg h0]
    unfold sipFormula
    have hne : (1 + r) ≠ 1 := by
      intro h
      apply h0
      linarith
    have hg := geom_sum_eq hne n
    have hsum : ∑ k in Finset.range n, (1 + r) ^ (k + 1)
        = (∑ k in Finset.range n, (1 + r) ^ k) * (1 + r) := by
      rw [Finset.sum_mul]
      apply Finset.sum_congr rfl
      intro k _
      rw [pow_succ]
    rw [hsum, hg]
    have hr1 : 1 + r - 1 = r := by ring
    rw [hr1]
    ring

theorem maturityValue_ge (P r : ℚ) (n : Nat) (hP : 0 < P) (hr : 0 ≤ r) :
    P * n ≤ maturityValue P r n := by
  rw [maturityValue_sum P r n]
  apply mul_le_mul_of_nonneg_left _ (le_of_lt hP)
  have h1 : ∀ k ∈ Finset.range n, (1 : ℚ) ≤ (1 + r) ^ (k + 1) := by
    intro k _
    exact one_le_pow₀ (by linarith)
  calc (n : ℚ) = ∑ _k in Finset.range n, (1 : ℚ) := by simp
    _ ≤ ∑ k in Finset.range n, (1 + r) ^ (k + 1) := Finset.sum_le_sum h1

theorem maturityValue_mono (P r r' : ℚ) (n : Nat) (hP : 0 < P) (hr : 0 ≤ r) (hrr : r ≤ r') :
    maturityValue P r n ≤ maturityValue P r' n := by
  rw [maturityValue_sum P r n, maturityValue_sum P r' n]
  apply mul_le_mul_of_nonneg_left _ (le_of_lt hP)
  apply Finset.sum_le_sum
  intro k _
  exact pow_le_pow_left₀ (by linarith) (by linarith) _

theorem roundCents_nonneg (x : ℚ) (hx : 0 ≤ x) : 0 ≤ roundCents x := by
  unfold roundCents
  have hfl : Rat.floor (x * 100 + 1 / 2) = ⌊x * 100 + 1 / 2⌋ := rfl
  rw [hfl]
  have h0 : 0 ≤ ⌊x * 100 + 1 / 2⌋ := Int.floor_nonneg.mpr (by positivity)
  have h1 : (0 : ℚ) ≤ (⌊x * 100 + 1 / 2⌋ : ℚ) := by exact_mod_cast h0
  positivity

/-- The reply to the request for 5000 a month at 1e-15 % a year over 10 years, for a
`Math.pow` that returns 1 for 1 to the power 120. -/
theorem calculate_small_rate (powImpl : ℚ → ℚ → JSNum) (hpow : powImpl 1 120 = fin 1) :
    calculate powImpl smallRateRequest = .ok
      { monthlyInvestment := fin 5000
        annualRate := round64 (natPow 10 (-15))
        years := fin 10
        totalInvested := fin 600000
        estimatedReturns := fin (-600000)
        finalAmount := fin 0 } := by
  have hP : parseFloatValue smallRateRequest.monthlyInvestment = fin 5000 := by decide!
  have hr : ((parseFloatValue smallRateRequest.rate).div (fin 100)).div (fin 12)
      = fin (8653828097558047 / 10384593717069655257060992658440192) := by decide!
  have hn : (parseFloatValue smallRateRequest.years).mul (fin 12) = fin 120 := by decide!
  have hb : (fin 1).add (fin (8653828097558047 / 10384593717069655257060992658440192))
      = fin 1 := by decide!
  have hm := maturityAmount_fin powImpl 5000
    (8653828097558047 / 10384593717069655257060992658440192) 1 120 (by norm_num) hb
    (by norm_num) (by norm_num)
  rw [calculate_cases, if_neg (by decide!), if_neg (by decide!), hP, hr, hn, hm, hpow]
  decide!

/-- C23 (as the formula has it, and as the code does not). For P > 0, a monthly rate
r >= 0 and a whole number n of months, the maturity amount of the formula
M = P * (((1 + r)^n - 1) / r) * (1 + r), and P * n at r = 0, is at least P * n, so the
returns M - P * n are not negative, before and after rounding to 2 decimals, and M
does not decrease when the rate grows.  The code computes the formula in binary64:
for 5000 a month at a rate of 1e-15 % a year over 10 years, 1 + r is 1 and, with a
`Math.pow` that returns 1 for 1 to the power 120, the handler reports finalAmount 0
and estimatedReturns -600000, less than the 600000 and 0 it reports at the rate
"0". -/
theorem maturity_at_least_invested (powImpl : ℚ → ℚ → JSNum) (P r r' : ℚ) (n : ℕ)
    (hP : 0 < P) (hr : 0 ≤ r) (hrr : r ≤ r') (hpow : powImpl 1 120 = fin 1) :
    P * n ≤ maturityValue P r n ∧
      0 ≤ maturityValue P r n - P * n ∧
      0 ≤ roundCents (maturityValue P r n - P * n) ∧
      maturityValue P r n ≤ maturityValue P r' n ∧
      (fin 1).add (((round64 (natPow 10 (-15))).div (fin 100)).div (fin 12)) = fin 1 ∧
      calculate powImpl smallRateRequest = .ok
        { monthlyInvestment := fin 5000
          annualRate := round64 (natPow 10 (-15))
          years := fin 10
          totalInvested := fin 600000
          estimatedReturns := fin (-600000)
          finalAmount := fin 0 } ∧
      calculate powImpl zeroRateString = .ok
        { monthlyInvestment := fin 5000
          annualRate := fin 0
          years := fin 10
          totalInvested := fin 600000
          estimatedReturns := fin 0
          finalAmount := fin 600000 } := by
  have hge := maturityValue_ge P r n hP hr
  refine ⟨hge, by linarith, roundCents_nonneg _ (by linarith),
    maturityValue_mono P r r' n hP hr hrr, by decide!, calculate_small_rate powImpl hpow, ?_⟩
  rw [(calculate_zero_rate powImpl zeroRateString 5000 10 (by decide!) (by decide!)
    (by decide!) (by decide!) (by norm_num) (by norm_num)).1]
  decide!

theorem maturity_at_least_invested_witness :
    (0 : ℚ) < 5000 ∧ (0 : ℚ) ≤ 0 ∧ (0 : ℚ) ≤ 1 / 100 ∧ wholePow 1 120 = fin 1 ∧
      (5000 : ℚ) * (120 : ℕ) ≤ maturityValue 5000 0 120 ∧
      maturityValue 5000 0 120 ≤ maturityValue 5000 (1 / 100) 120 ∧
      calculate wholePow smallRateRequest = .ok
        { monthlyInvestment := fin 5000
          annualRate := round64 (natPow 10 (-15))
          years := fin 10
          totalInvested := fin 600000
          estimatedReturns := fin (-600000)
          finalAmount := fin 0 } :=
  ⟨by norm_num, le_refl _, by norm_num, by decide!,
    (maturity_at_least_invested wholePow 5000 0 (1 / 100) 120 (by norm_num)
      (le_refl _) (by norm_num) (by decide!)).1,
    (maturity_at_least_invested wholePow 5000 0 (1 / 100) 120 (by norm_num)
      (le_refl _) (by norm_num) (by decide!)).2.2.2.1,
    (maturity_at_least_invested wholePow 5000 0 (1 / 100) 120 (by norm_num)
      (le_refl _) (by norm_num) (by decide!)).2.2.2.2.2.1⟩

/-! ### Values that are not `NaN` -/

theorem sub_fin_ne_nan (x : JSNum) (a : ℚ) (hx : x ≠ nan) : x.sub (fin a) ≠ nan := by
  cases x with
  | nan => exact absurd rfl hx
  | posInf => simp [JSNum.sub]
  | negInf => simp [JSNum.sub]
  | fin q => exact round64_ne_nan _

theorem div_pos_ne_nan (x : JSNum) (a : ℚ) (ha : 0 < a) (hx : x ≠ nan) :
    x.div (fin a) ≠ nan := by
  cases x with
  | nan => exact absurd rfl hx
  | posInf => simp [JSNum.div, not_lt.mpr (le_of_lt ha)]
  | negInf => simp [JSNum.div, not_lt.mpr (le_of_lt ha)]
  | fin q =>
    rw [div_fin q a (ne_of_gt ha)]
    exact round64_ne_nan _

theorem pos_mul_ne_nan (x : JSNum) (a : ℚ) (ha : 0 < a) (hx : x ≠ nan) :
    (fin a).mul x ≠ nan := by
  cases x with
  | nan => exact absurd rfl hx
  | posInf => simp [JSNum.mul, ne_of_gt ha, ha]
  | negInf => simp [JSNum.mul, ne_of_gt ha, ha]
  | fin q => exact round64_ne_nan _

theorem mul_pos_ne_nan (x : JSNum) (a : ℚ) (ha : 0 < a) (hx : x ≠ nan) :
    x.mul (fin a) ≠ nan := by
  cases x with
  | nan => exact absurd rfl hx
  | posInf => simp [JSNum.mul, ne_of_gt ha, ha]
  | negInf => simp [JSNum.mul, ne_of_gt ha, ha]
  | fin q => exact round64_ne_nan _

theorem round_ne_nan (x : JSNum) (hx : x ≠ nan) : x.round ≠ nan := by
  cases x <;> simp [JSNum.round] at hx ⊢

theorem round2_ne_nan (x : JSNum) (hx : x ≠ nan) : round2 x ≠ nan :=
  div_pos_ne_nan _ 100 (by norm_num) (round_ne_nan _ (mul_pos_ne_nan x 100 (by norm_num) hx))

/-- What `Math.round(x * 100) / 100` is for a finite `x`. -/
theorem round2_fin (X : ℚ) :
    (round64 (X * 100) = posInf ∧ round2 (fin X) = posInf) ∨
      (round64 (X * 100) = negInf ∧ round2 (fin X) = negInf) ∨
      ∃ Y, round64 (X * 100) = fin Y ∧
        round2 (fin X) = round64 ((⌊Y + 1 / 2⌋ : ℚ) / 100) := by
  have hm : (fin X).mul (fin 100) = round64 (X * 100) := rfl
  unfold round2
  rw [hm]
  cases h : round64 (X * 100) with
  | nan => exact absurd h (round64_ne_nan _)
  | posInf => left; exact ⟨rfl, by norm_num [JSNum.round, JSNum.div]⟩
  | negInf => right; left; exact ⟨rfl, by norm_num [JSNum.round, JSNum.div]⟩
  | fin Y =>
    right; right
    refine ⟨Y, rfl, ?_⟩
    simp only [JSNum.round]
    rw [div_fin _ 100 (by norm_num)]
    rfl

theorem round2_posInf : round2 posInf = posInf := by
  norm_num [round2, JSNum.mul, JSNum.round, JSNum.div]

/-- Rounding to 2 decimals keeps a value that is not negative so. -/
theorem round2_nonneg (x : JSNum) (hx : x = posInf ∨ ∃ t, x = fin t ∧ 0 ≤ t) :
    round2 x = posInf ∨ ∃ t, round2 x = fin t ∧ 0 ≤ t := by
  rcases hx with hx | ⟨t, hx, ht⟩
  · left; rw [hx, round2_posInf]
  · rw [hx]
    rcases round2_fin t with ⟨_, h⟩ | ⟨h, _⟩ | ⟨Y, hY, h⟩
    · left; exact h
    · exfalso
      have := round64_not_ltZero (t * 100) (by positivity)
      rw [h] at this
      simp [JSNum.ltZero] at this
    · have hY0 : 0 ≤ Y := round64_fin_nonneg _ _ hY (by positivity)
      have hz : (0 : ℚ) ≤ (⌊Y + 1 / 2⌋ : ℚ) := by
        have : (0 : ℤ) ≤ ⌊Y + 1 / 2⌋ := Int.floor_nonneg.mpr (by positivity)
        exact_mod_cast this
      rw [h]
      cases hw : round64 ((⌊Y + 1 / 2⌋ : ℚ) / 100) with
      | nan => exact absurd hw (round64_ne_nan _)
      | posInf => left; rfl
      | negInf =>
        exfalso
        have := round64_not_ltZero ((⌊Y + 1 / 2⌋ : ℚ) / 100) (by positivity)
        rw [hw] at this
        simp [JSNum.ltZero] at this
      | fin w => right; exact ⟨w, rfl, round64_fin_nonneg _ _ hw (by positivity)⟩

theorem round64_nonneg (q : ℚ) (hq : 0 ≤ q) :
    round64 q = posInf ∨ ∃ t, round64 q = fin t ∧ 0 ≤ t := by
  cases h : round64 q with
  | nan => exact absurd h (round64_ne_nan _)
  | posInf => left; rfl
  | negInf =>
    exfalso
    have := round64_not_ltZero q hq
    rw [h] at this
    simp [JSNum.ltZero] at this
  | fin t => right; exact ⟨t, rfl, round64_fin_nonneg _ _ h hq⟩

/-- The maturity amount is a number when `Math.pow` returns one. -/
theorem maturityAmount_ne_nan (powImpl : ℚ → ℚ → JSNum)
    (hpow : ∀ b e, 0 < b → powImpl b e ≠ nan) (P r b n : ℚ) (hP : 0 < P) (hr : 0 ≤ r)
    (hb : (fin 1).add (fin r) = fin b) (hb0 : 0 < b) (hn : n ≠ 0) :
    maturityAmount powImpl (fin P) (fin r) (fin n) ≠ nan := by
  by_cases h0 : r = 0
  · subst h0
    rw [maturityAmount_zero]
    exact round64_ne_nan _
  · rw [maturityAmount_fin powImpl P r b n h0 hb hb0 hn]
    have hrpos : 0 < r := lt_of_le_of_ne hr (Ne.symm h0)
    exact mul_pos_ne_nan _ _ hb0 (pos_mul_ne_nan _ _ hP (div_pos_ne_nan _ _ hrpos
      (sub_fin_ne_nan _ _ (hpow b n hb0))))

/-- C22 (as the code has it). When the three body fields parse to finite numbers and
the handler replies with success, then monthlyInvestment > 0 and years > 0, the
monthly rate rate / 100 / 12 computed in binary64 is not negative and the rate is
above -2^(-1060); the reply carries the parsed values; the reported totalInvested is
P * n rounded to 2 decimals, a number that is not negative or +Infinity, never NaN;
and when the number of months n = years * 12 is finite and `Math.pow` returns a
number at every positive base, the reported finalAmount is not NaN, and neither is
the reported estimatedReturns when P * n is finite. -/
theorem success_values_valid (powImpl : ℚ → ℚ → JSNum) (body : SipBody) (data : SipData)
    (P rate years : ℚ) (hP : parseFloatValue body.monthlyInvestment = fin P)
    (hr : parseFloatValue body.rate = fin rate) (hy : parseFloatValue body.years = fin years)
    (hok : calculate powImpl body = .ok data) :
    0 < P ∧ 0 < years ∧ -(1 / 2 ^ 1060) < rate ∧
      (((fin rate).div (fin 100)).div (fin 12)).ltZero = false ∧
      data.monthlyInvestment = fin P ∧ data.annualRate = fin rate ∧ data.years = fin years ∧
      data.totalInvested = round2 ((fin P).mul ((fin years).mul (fin 12))) ∧
      (data.totalInvested = posInf ∨ ∃ t, data.totalInvested = fin t ∧ 0 ≤ t) ∧
      ∀ n : ℚ, (fin years).mul (fin 12) = fin n → (∀ b e, 0 < b → powImpl b e ≠ nan) →
        data.finalAmount ≠ nan ∧
        ∀ T : ℚ, (fin P).mul (fin n) = fin T → data.estimatedReturns ≠ nan := by
  rw [calculate_cases] at hok
  split at hok
  · cases hok
  · split at hok
    · cases hok
    · rename_i _ hchk
      rw [hP, hr, hy] at hchk hok
      simp only [not_or, Bool.not_eq_true] at hchk
      obtain ⟨c1, c2, c3⟩ := hchk
      injection hok with hok
      subst hok
      have hPpos : 0 < P := by simpa [JSNum.leZero] using c1
      have hypos : 0 < years := by
        by_contra hneg
        have := round64_leZero (years * 12) (by linarith)
        have e : (fin years).mul (fin 12) = round64 (years * 12) := rfl
        rw [e, this] at c3
        cases c3
      have hrate : -(1 / 2 ^ 1060) < rate := by
        by_contra hneg
        rw [monthly_ltZero_of_le rate (not_lt.mp hneg)] at c2
        cases c2
      obtain ⟨q, hq⟩ := parseFloatValue_fin _ rate hr
      obtain ⟨r, hr', hrb, _, _⟩ := monthly_rate_fin rate (round64_fin_lt q rate hq)
      have hr0 : 0 ≤ r := by
        rw [hr'] at c2
        simpa [JSNum.ltZero] using c2
      obtain ⟨b, hb, hb0⟩ := one_add_fin r hr0 hrb
      have hn0 : round64 (years * 12) = posInf ∨
          ∃ t, round64 (years * 12) = fin t ∧ 0 ≤ t := round64_nonneg _ (by linarith)
      have hT : (fin P).mul ((fin years).mul (fin 12)) = posInf ∨
          ∃ t, (fin P).mul ((fin years).mul (fin 12)) = fin t ∧ 0 ≤ t := by
        have e : (fin years).mul (fin 12) = round64 (years * 12) := rfl
        rw [e]
        rcases hn0 with h | ⟨t, h, ht⟩
        · rw [h]
          left
          simp [JSNum.mul, ne_of_gt hPpos, hPpos]
        · rw [h]
          have e2 : (fin P).mul (fin t) = round64 (P * t) := rfl
          rw [e2]
          exact round64_nonneg (P * t) (mul_nonneg (le_of_lt hPpos) ht)
      refine ⟨hPpos, hypos, hrate, c2, rfl, rfl, rfl, rfl, round2_nonneg _ hT, ?_⟩
      intro n hn hpow
      have hnne : n ≠ 0 := by
        intro h0
        rw [hn, h0] at c3
        simp [JSNum.leZero] at c3
      have hm := maturityAmount_ne_nan powImpl hpow P r b n hPpos hr0 hb hb0 hnne
      simp only [hr', hn]
      refine ⟨round2_ne_nan _ hm, ?_⟩
      intro T hTfin
      rw [hTfin]
      exact round2_ne_nan _ (sub_fin_ne_nan _ _ hm)

theorem success_values_valid_witness :
    parseFloatValue sampleRequest.monthlyInvestment = fin 5000 ∧
      parseFloatValue sampleRequest.rate = fin 12 ∧
      parseFloatValue sampleRequest.years = fin 1 ∧
      calculate wholePow sampleRequest = .ok
        { monthlyInvestment := fin 5000
          annualRate := fin 12
          years := fin 1
          totalInvested := fin 60000
          estimatedReturns := round64 (404664 / 100)
          finalAmount := round64 (6404664 / 100) } ∧
      (0 : ℚ) < 5000 ∧ (0 : ℚ) < 1 ∧ -(1 / 2 ^ 1060) < (12 : ℚ) := by
  have hok : calculate wholePow sampleRequest = .ok
      { monthlyInvestment := fin 5000
        annualRate := fin 12
        years := fin 1
        totalInvested := fin 60000
        estimatedReturns := round64 (404664 / 100)
        finalAmount := round64 (6404664 / 100) } := by decide!
  have h := success_values_valid wholePow sampleRequest _ 5000 12 1 (by decide!) (by decide!)
    (by decide!) hok
  exact ⟨by decide!, by decide!, by decide!, hok, h.1, h.2.1, h.2.2.1⟩

/-- C22, counterexample. A request for a thousandth a month over three months is
answered with success and a reported totalInvested of 0.  A request whose monthly
investment is "abc" is answered with success and NaN for the investment and the three
figures; a request whose monthly investment is "Infinity" is answered with success
and NaN for the estimated returns; so is the request for "1e308" a month over "100"
years, whose fields all parse to finite numbers, since P * n and the maturity amount
both overflow. -/
theorem success_with_zero_or_nan :
    calculate wholePow tinyRequest = .ok
        { monthlyInvestment := round64 (1 / 1000)
          annualRate := fin 12
          years := fin (1 / 4)
          totalInvested := fin 0
          estimatedReturns := fin 0
          finalAmount := fin 0 } ∧
      calculate wholePow unparsableRequest = .ok
        { monthlyInvestment := nan
          annualRate := fin 12
          years := fin 10
          totalInvested := nan
          estimatedReturns := nan
          finalAmount := nan } ∧
      calculate wholePow infiniteRequest = .ok
        { monthlyInvestment := posInf
          annualRate := fin 12
          years := fin 10
          totalInvested := posInf
          estimatedReturns := nan
          finalAmount := posInf } ∧
      calculate wholePow overflowRequest = .ok
        { monthlyInvestment := round64 (natPow 10 308)
          annualRate := fin 12
          years := fin 100
          totalInvested := posInf
          estimatedReturns := nan
          finalAmount := posInf } := by
  decide!

/-! ### Consistency of the three figures -/

/-- What a finite result of `Math.round(x * 100) / 100` tells about `x`: it is the
binary64 value of z / 100 for a whole number z within a half of the binary64 value
of 100 x. -/
theorem round2_spec (X w : ℚ) (h : round2 (fin X) = fin w) :
    ∃ z : ℤ, round64 ((z : ℚ) / 100) = fin w ∧
      abs ((z : ℚ) - 100 * X) ≤ 1 / 2 + 100 * |X| / 2 ^ 53 + 1 / 2 ^ 1075 ∧
      abs (w - (z : ℚ) / 100) ≤ |(z : ℚ)| / 100 / 2 ^ 53 + 1 / 2 ^ 1075 := by
  rcases round2_fin X with ⟨_, h'⟩ | ⟨_, h'⟩ | ⟨Y, hY, h'⟩
  · rw [h'] at h; cases h
  · rw [h'] at h; cases h
  · rw [h'] at h
    refine ⟨⌊Y + 1 / 2⌋, h, ?_, ?_⟩
    · have hc := round64_fin_close _ _ hY
      have e : |X * 100| = 100 * |X| := by
        rw [abs_mul, abs_of_pos (by norm_num : (0 : ℚ) < 100)]
        ring
      have f1 := Int.floor_le (Y + 1 / 2)
      have f2 := Int.lt_floor_add_one (Y + 1 / 2)
      rw [e] at hc
      obtain ⟨a, b⟩ := abs_le.mp hc
      rw [abs_le]
      constructor <;> linarith
    · have hc := round64_fin_close _ _ h
      have e : |(⌊Y + 1 / 2⌋ : ℚ) / 100| = |(⌊Y + 1 / 2⌋ : ℚ)| / 100 := by
        rw [abs_div, abs_of_pos (by norm_num : (0 : ℚ) < 100)]
      rwa [e] at hc

theorem tiny_le : (1 : ℚ) / 2 ^ 1075 ≤ 1 / 2 ^ 53 :=
  div_le_div_of_nonneg_left (by norm_num) (by positivity)
    (pow_le_pow_right₀ (by norm_num) (by norm_num))

theorem big_le : (10 : ℚ) ^ 15 ≤ 2 ^ 1023 :=
  le_trans (by norm_num : (10 : ℚ) ^ 15 ≤ 2 ^ 50)
    (pow_le_pow_right₀ (by norm_num) (by norm_num))

/-- A finite number up to `10^13` in magnitude has a finite rounding to 2 decimals. -/
theorem round2_fin_exists (X : ℚ) (h : |X| ≤ 10 ^ 13) : ∃ w, round2 (fin X) = fin w := by
  have hb := big_le
  have h1 : |X * 100| ≤ 2 ^ 1023 := by
    rw [abs_mul, abs_of_pos (by norm_num : (0 : ℚ) < 100)]
    have : |X| * 100 ≤ 10 ^ 15 := by linarith
    linarith
  obtain ⟨Y0, hY0⟩ := round64_fin_of_le _ h1
  rcases round2_fin X with ⟨h', _⟩ | ⟨h', _⟩ | ⟨Y, hY, h'⟩
  · rw [h'] at hY0; cases hY0
  · rw [h'] at hY0; cases hY0
  · rw [h']
    apply round64_fin_of_le
    have hlt := round64_fin_lt _ _ hY
    have e1 : (2 : ℚ) ^ 1024 = 8 * 2 ^ 1021 := by
      rw [show (1024 : ℕ) = 1021 + 3 from rfl, pow_add]
      ring
    have e2 : (2 : ℚ) ^ 1023 = 4 * 2 ^ 1021 := by
      rw [show (1023 : ℕ) = 1021 + 2 from rfl, pow_add]
      ring
    have hK : (1 : ℚ) ≤ 2 ^ 1021 := one_le_pow₀ (by norm_num)
    have f1 := Int.floor_le (Y + 1 / 2)
    have f2 := Int.lt_floor_add_one (Y + 1 / 2)
    obtain ⟨a, b⟩ := abs_lt.mp hlt
    rw [abs_div, abs_of_pos (by norm_num : (0 : ℚ) < 100), div_le_iff₀ (by norm_num), e2,
      abs_le]
    rw [e1] at a b
    constructor <;> linarith

theorem round2_arg_fin (x : JSNum) (w : ℚ) (h : round2 x = fin w) : ∃ X, x = fin X := by
  cases x with
  | nan => simp [round2, JSNum.mul, JSNum.round, JSNum.div] at h
  | posInf => rw [round2_posInf] at h; cases h
  | negInf =>
    have h' : round2 negInf = negInf := by
      norm_num [round2, JSNum.mul, JSNum.round, JSNum.div]
    rw [h'] at h
    cases h
  | fin X => exact ⟨X, rfl⟩

/-- From a reported figure of at most `10^12` to its whole number of hundredths and
to the unrounded amount. -/
theorem round2_bounds (X w : ℚ) (z : ℤ) (hw : |w| ≤ 10 ^ 12)
    (ha : abs ((z : ℚ) - 100 * X) ≤ 1 / 2 + 100 * |X| / 2 ^ 53 + 1 / 2 ^ 1075)
    (hb : abs (w - (z : ℚ) / 100) ≤ |(z : ℚ)| / 100 / 2 ^ 53 + 1 / 2 ^ 1075) :
    |(z : ℚ)| ≤ 10 ^ 14 + 1 ∧ |X| ≤ 10 ^ 12 + 1 := by
  have hc := tiny_le
  have hc0 : (0 : ℚ) < 1 / 2 ^ 1075 := by positivity
  obtain ⟨c, hcdef⟩ : ∃ c : ℚ, c = 1 / 2 ^ 1075 := ⟨_, rfl⟩
  rw [← hcdef] at ha hb hc hc0
  obtain ⟨w1, w2⟩ := abs_le.mp hw
  obtain ⟨b1, b2⟩ := abs_le.mp hb
  obtain ⟨a1, a2⟩ := abs_le.mp ha
  have hz : |(z : ℚ)| ≤ 10 ^ 14 + 1 := by
    rcases abs_cases (z : ℚ) with ⟨e, _⟩ | ⟨e, _⟩ <;> rw [e] at b1 b2 ⊢ <;> norm_num at * <;>
      linarith
  refine ⟨hz, ?_⟩
  obtain ⟨z1, z2⟩ := abs_le.mp hz
  rcases abs_cases X with ⟨e, _⟩ | ⟨e, _⟩ <;> rw [e] at a1 a2 ⊢ <;> norm_num at * <;> linarith

/-- The three figures computed from a maturity amount M and a total T. -/
theorem figures_close (M T t f : ℚ) (ht : round2 (fin T) = fin t)
    (hf : round2 (fin M) = fin f) (htb : |t| ≤ 10 ^ 12) (hfb : |f| ≤ 10 ^ 12) :
    ∃ (e : ℚ) (zf zt ze : ℤ), round2 ((fin M).sub (fin T)) = fin e ∧
      round64 ((zf : ℚ) / 100) = fin f ∧ round64 ((zt : ℚ) / 100) = fin t ∧
      round64 ((ze : ℚ) / 100) = fin e ∧
      |zf - (zt + ze)| ≤ 1 ∧ abs (f - (t + e)) ≤ 11 / 1000 := by
  have hc := tiny_le
  have hc0 : (0 : ℚ) < 1 / 2 ^ 1075 := by positivity
  have hbig := big_le
  obtain ⟨zT, rT, aT, bT⟩ := round2_spec T t ht
  obtain ⟨zM, rM, aM, bM⟩ := round2_spec M f hf
  obtain ⟨hzT, hT⟩ := round2_bounds T t zT htb aT bT
  obtain ⟨hzM, hM⟩ := round2_bounds M f zM hfb aM bM
  have hMT : |M - T| ≤ 2 * 10 ^ 12 + 2 := by
    have := abs_sub M T
    linarith
  obtain ⟨D, hD⟩ := round64_fin_of_le (M - T) (by
    have : (2 : ℚ) * 10 ^ 12 + 2 ≤ 10 ^ 15 := by norm_num
    linarith)
  have hDc := round64_fin_close _ _ hD
  have hDb : |D| ≤ 2 * 10 ^ 12 + 3 := by
    have h1 : |D| ≤ |M - T| + |D - (M - T)| := by
      have := abs_add (M - T) (D - (M - T))
      simpa using this
    have h2 : |M - T| / 2 ^ 53 ≤ (2 * 10 ^ 12 + 2) / 2 ^ 53 :=
      div_le_div_of_nonneg_right hMT (by positivity)
    have h3 : ((2 : ℚ) * 10 ^ 12 + 2) / 2 ^ 53 + 1 / 2 ^ 53 ≤ 1 := by norm_num
    linarith
  have hsub : (fin M).sub (fin T) = fin D := hD
  obtain ⟨e, he⟩ := round2_fin_exists D (by
    have : (2 : ℚ) * 10 ^ 12 + 3 ≤ 10 ^ 13 := by norm_num
    linarith)
  obtain ⟨zD, rD, aD, bD⟩ := round2_spec D e he
  refine ⟨e, zM, zT, zD, by rw [hsub, he], rM, rT, rD, ?_⟩
  obtain ⟨c, hcdef⟩ : ∃ c : ℚ, c = 1 / 2 ^ 1075 := ⟨_, rfl⟩
  rw [← hcdef] at aT bT aM bM aD bD hDc hc hc0
  have hzD : |(zD : ℚ)| ≤ 2 * 10 ^ 14 + 302 := by
    obtain ⟨a1, a2⟩ := abs_le.mp aD
    obtain ⟨d1, d2⟩ := abs_le.mp hDb
    have h3 : 100 * |D| / 2 ^ 53 ≤ 1 / 2 := by
      have : 100 * |D| / 2 ^ 53 ≤ 100 * (2 * 10 ^ 12 + 3) / 2 ^ 53 :=
        div_le_div_of_nonneg_right (by linarith) (by positivity)
      have h4 : (100 : ℚ) * (2 * 10 ^ 12 + 3) / 2 ^ 53 ≤ 1 / 2 := by norm_num
      linarith
    have hc2 : (1 : ℚ) / 2 ^ 53 ≤ 1 / 2 := by norm_num
    rw [abs_le]
    constructor <;> linarith
  -- the errors of the three whole numbers of hundredths
  have eM : 100 * |M| / 2 ^ 53 ≤ 100 * (10 ^ 12 + 1) / 2 ^ 53 :=
    div_le_div_of_nonneg_right (by linarith) (by positivity)
  have eT : 100 * |T| / 2 ^ 53 ≤ 100 * (10 ^ 12 + 1) / 2 ^ 53 :=
    div_le_div_of_nonneg_right (by linarith) (by positivity)
  have eD : 100 * |D| / 2 ^ 53 ≤ 100 * (2 * 10 ^ 12 + 3) / 2 ^ 53 :=
    div_le_div_of_nonneg_right (by linarith) (by positivity)
  have eMT : |M - T| / 2 ^ 53 ≤ (2 * 10 ^ 12 + 2) / 2 ^ 53 :=
    div_le_div_of_nonneg_right hMT (by positivity)
  have fM : |(zM : ℚ)| / 100 / 2 ^ 53 ≤ (10 ^ 14 + 1) / 100 / 2 ^ 53 :=
    div_le_div_of_nonneg_right (div_le_div_of_nonneg_right hzM (by norm_num)) (by positivity)
  have fT : |(zT : ℚ)| / 100 / 2 ^ 53 ≤ (10 ^ 14 + 1) / 100 / 2 ^ 53 :=
    div_le_div_of_nonneg_right (div_le_div_of_nonneg_right hzT (by norm_num)) (by positivity)
  have fD : |(zD : ℚ)| / 100 / 2 ^ 53 ≤ (2 * 10 ^ 14 + 302) / 100 / 2 ^ 53 :=
    div_le_div_of_nonneg_right (div_le_div_of_nonneg_right hzD (by norm_num)) (by positivity)
  obtain ⟨aM1, aM2⟩ := abs_le.mp aM
  obtain ⟨aT1, aT2⟩ := abs_le.mp aT
  obtain ⟨aD1, aD2⟩ := abs_le.mp aD
  obtain ⟨bM1, bM2⟩ := abs_le.mp bM
  obtain ⟨bT1, bT2⟩ := abs_le.mp bT
  obtain ⟨bD1, bD2⟩ := abs_le.mp bD
  obtain ⟨dc1, dc2⟩ := abs_le.mp hDc
  have n1 : (100 : ℚ) * (10 ^ 12 + 1) / 2 ^ 53 ≤ 12 / 1000 := by norm_num
  have n2 : (100 : ℚ) * (2 * 10 ^ 12 + 3) / 2 ^ 53 ≤ 23 / 1000 := by norm_num
  have n3 : ((2 : ℚ) * 10 ^ 12 + 2) / 2 ^ 53 ≤ 23 / 100000 := by norm_num
  have n4 : ((10 : ℚ) ^ 14 + 1) / 100 / 2 ^ 53 ≤ 12 / 100000 := by norm_num
  have n5 : ((2 : ℚ) * 10 ^ 14 + 302) / 100 / 2 ^ 53 ≤ 23 / 100000 := by norm_num
  have n6 : (1 : ℚ) / 2 ^ 53 ≤ 1 / 1000000 := by norm_num
  have hk1 : ((zM - zT - zD : ℤ) : ℚ) < 2 := by
    push_cast
    linarith
  have hk2 : (-2 : ℚ) < ((zM - zT - zD : ℤ) : ℚ) := by
    push_cast
    linarith
  have hk1' : zM - zT - zD < 2 := by exact_mod_cast hk1
  have hk2' : -2 < zM - zT - zD := by exact_mod_cast hk2
  have hk3 : ((zM - zT - zD : ℤ) : ℚ) ≤ 1 := by
    exact_mod_cast (by omega : zM - zT - zD ≤ 1)
  have hk4 : (-1 : ℚ) ≤ ((zM - zT - zD : ℤ) : ℚ) := by
    exact_mod_cast (by omega : -1 ≤ zM - zT - zD)
  push_cast at hk3 hk4
  constructor
  · rw [abs_le]
    constructor <;> omega
  · rw [abs_le]
    constructor <;> linarith

/-- C25 (as the code has it). In a success reply whose reported finalAmount and
totalInvested are finite numbers of at most 10^12 in magnitude, the reported
estimatedReturns is a finite number too, and the three figures are the binary64
values of whole numbers of hundredths zf / 100, zt / 100 and ze / 100 that are
consistent up to one rounding unit: zf differs from zt + ze by at most 1.  The
figures themselves, binary64 values and not exact hundredths, satisfy
|finalAmount - (totalInvested + estimatedReturns)| <= 0.011. -/
theorem figures_consistent (powImpl : ℚ → ℚ → JSNum) (body : SipBody) (data : SipData)
    (t f : ℚ) (hok : calculate powImpl body = .ok data)
    (ht : data.totalInvested = fin t) (hf : data.finalAmount = fin f)
    (htb : |t| ≤ 10 ^ 12) (hfb : |f| ≤ 10 ^ 12) :
    ∃ (e : ℚ) (zf zt ze : ℤ), data.estimatedReturns = fin e ∧
      round64 ((zf : ℚ) / 100) = fin f ∧ round64 ((zt : ℚ) / 100) = fin t ∧
      round64 ((ze : ℚ) / 100) = fin e ∧
      |zf - (zt + ze)| ≤ 1 ∧ abs (f - (t + e)) ≤ 11 / 1000 := by
  rw [calculate_cases] at hok
  split at hok
  · cases hok
  · split at hok
    · cases hok
    · injection hok with hok
      subst hok
      simp only at ht hf ⊢
      obtain ⟨T, hT⟩ := round2_arg_fin _ t ht
      obtain ⟨M, hM⟩ := round2_arg_fin _ f hf
      rw [hT] at ht ⊢
      rw [hM] at hf ⊢
      exact figures_close M T t f ht hf htb hfb

theorem figures_consistent_witness :
    calculate wholePow fractionRequest = .ok
        { monthlyInvestment := round64 (100001 / 1000)
          annualRate := fin 6
          years := fin 1
          totalInvested := round64 (120001 / 100)
          estimatedReturns := round64 (3972 / 100)
          finalAmount := round64 (123974 / 100) } ∧
      round64 (120001 / 100) = fin (5277699793789911 / 4398046511104) ∧
      round64 (123974 / 100) = fin (5452434181676073 / 4398046511104) ∧
      |(5277699793789911 / 4398046511104 : ℚ)| ≤ 10 ^ 12 ∧
      |(5452434181676073 / 4398046511104 : ℚ)| ≤ 10 ^ 12 ∧
      ∃ (e : ℚ) (zf zt ze : ℤ), round64 (3972 / 100) = fin e ∧
        round64 ((zf : ℚ) / 100) = fin (5452434181676073 / 4398046511104) ∧
        round64 ((zt : ℚ) / 100) = fin (5277699793789911 / 4398046511104) ∧
        round64 ((ze : ℚ) / 100) = fin e ∧
        |zf - (zt + ze)| ≤ 1 ∧
        abs (5452434181676073 / 4398046511104 - (5277699793789911 / 4398046511104 + e))
          ≤ 11 / 1000 := by
  have hok : calculate wholePow fractionRequest = .ok
      { monthlyInvestment := round64 (100001 / 1000)
        annualRate := fin 6
        years := fin 1
        totalInvested := round64 (120001 / 100)
        estimatedReturns := round64 (3972 / 100)
        finalAmount := round64 (123974 / 100) } := by decide!
  have ht : round64 (120001 / 100) = fin (5277699793789911 / 4398046511104) := by decide!
  have hf : round64 (123974 / 100) = fin (5452434181676073 / 4398046511104) := by decide!
  have h1 : |(5277699793789911 / 4398046511104 : ℚ)| ≤ 10 ^ 12 := by norm_num [abs_le]
  have h2 : |(5452434181676073 / 4398046511104 : ℚ)| ≤ 10 ^ 12 := by norm_num [abs_le]
  exact ⟨hok, ht, hf, h1, h2,
    figures_consistent wholePow fractionRequest _ (5277699793789911 / 4398046511104)
      (5452434181676073 / 4398046511104) hok ht hf h1 h2⟩

/-- C25, counterexample. For 5000.01 a month at 120 % a year over 50 years the
maturity amount is about 3.8e29; the total invested, 3000006, is below the spacing of
the binary64 numbers at that size, so the estimated returns equal the maturity
amount, and the reported finalAmount differs from totalInvested + estimatedReturns by
3000006.  For 100.001 a month at 6 % a year over 1 year the reply reports 1239.74,
1200.01 and 39.72, one hundredth apart; the binary64 values of these three figures
differ by a little more than 0.01. -/
theorem figures_absorbed :
    calculate wholePow absorbedRequest = .ok
        { monthlyInvestment := round64 (500001 / 100)
          annualRate := fin 120
          years := fin 50
          totalInvested := fin 3000006
          estimatedReturns := fin 376681813841544355927824531456
          finalAmount := fin 376681813841544355927824531456 } ∧
      abs ((376681813841544355927824531456 : ℚ)
        - (3000006 + 376681813841544355927824531456)) = 3000006 ∧
      calculate wholePow fractionRequest = .ok
        { monthlyInvestment := round64 (100001 / 1000)
          annualRate := fin 6
          years := fin 1
          totalInvested := fin (5277699793789911 / 4398046511104)
          estimatedReturns := fin (1397523259368407 / 35184372088832)
          finalAmount := fin (5452434181676073 / 4398046511104) } ∧
      (1 / 100 : ℚ) < 5452434181676073 / 4398046511104
        - (5277699793789911 / 4398046511104 + 1397523259368407 / 35184372088832) := by
  refine ⟨by decide!, ?_, by decide!, by norm_num⟩
  norm_num [abs_of_neg]

end Sip
